import Mathlib

/-!
# Checkout, settlement and cancellation of the e-commerce backend

A shallow embedding of the payment pipeline of the repository
(`internal/utils/generate-random-uuid.go`, `internal/service/payment.service.go`,
`internal/repository/payment-repo.go`, `internal/repository/product-repo.go`,
`internal/repository/order-repo.go`), of the order service
(`internal/service/order.service.go`) and of the review insertion
(`internal/repository/comment.repo.go`), together with the properties proved
about them.

Conventions of the embedding:

* a Go `string` is a Lean `String`; `[]byte(s)` is the list of its UTF-8 bytes,
  each byte a natural number below 256;
* a Go `int64` is an `Int` kept in range by `wrap64`;
* the three data stores are lists of documents inside a `World`; every driver
  call appends an event to `World.trace` and may fail when the fault schedule
  `World.faults` says so;
* values read from the outside world (clock, random bytes, fresh identifiers,
  the gateway's HTTP answer) are explicit arguments, gathered in an `Env`;
* a Go result `(value, err)` whose value is the zero value whenever `err` is set
  is an `Except String`, the string being the error message;
* Go's `int` is taken to be 64 bits wide, like `int64`; its division is the
  quotient truncated toward zero;
* lines printed to standard output are left out.
-/

namespace Ecommerce

/-! ## Bytes and strings -/

/-- The conversion `[]byte(s)`: the UTF-8 bytes of a string. -/
def bytesOf (s : String) : List Nat :=
  (s.data.flatMap String.utf8EncodeChar).map UInt8.toNat

/-! ## SHA-256 (FIPS 180-4), the hash behind `sha256.New` -/

/-- Addition of 32-bit words. -/
def add32 (a b : Nat) : Nat := (a + b) % 4294967296

/-- Right rotation of a 32-bit word. -/
def rotr (n x : Nat) : Nat := ((x >>> n) ||| (x <<< (32 - n))) % 4294967296

/-- The function written with a capital sigma and index 0 in the standard. -/
def bigSigma0 (x : Nat) : Nat := rotr 2 x ^^^ rotr 13 x ^^^ rotr 22 x

/-- The function written with a capital sigma and index 1. -/
def bigSigma1 (x : Nat) : Nat := rotr 6 x ^^^ rotr 11 x ^^^ rotr 25 x

/-- The function written with a small sigma and index 0. -/
def smallSigma0 (x : Nat) : Nat := rotr 7 x ^^^ rotr 18 x ^^^ (x >>> 3)

/-- The function written with a small sigma and index 1. -/
def smallSigma1 (x : Nat) : Nat := rotr 17 x ^^^ rotr 19 x ^^^ (x >>> 10)

/-- The choice function: bits of `y` where `x` is set, bits of `z` elsewhere. -/
def ch (x y z : Nat) : Nat := (x &&& y) ^^^ ((4294967295 - x) &&& z)

/-- The majority function. -/
def maj (x y z : Nat) : Nat := (x &&& y) ^^^ (x &&& z) ^^^ (y &&& z)

/-- The 64 round constants: the first 32 bits of the fractional parts of the cube
roots of the first 64 primes, in decimal. -/
def sha256K : List Nat :=
  [1116352408, 1899447441, 3049323471, 3921009573, 961987163, 1508970993,
   2453635748, 2870763221, 3624381080, 310598401, 607225278, 1426881987,
   1925078388, 2162078206, 2614888103, 3248222580, 3835390401, 4022224774,
   264347078, 604807628, 770255983, 1249150122, 1555081692, 1996064986,
   2554220882, 2821834349, 2952996808, 3210313671, 3336571891, 3584528711,
   113926993, 338241895, 666307205, 773529912, 1294757372, 1396182291,
   1695183700, 1986661051, 2177026350, 2456956037, 2730485921, 2820302411,
   3259730800, 3345764771, 3516065817, 3600352804, 4094571909, 275423344,
   430227734, 506948616, 659060556, 883997877, 958139571, 1322822218,
   1537002063, 1747873779, 1955562222, 2024104815, 2227730452, 2361852424,
   2428436474, 2756734187, 3204031479, 3329325298]

/-- The initial hash value. -/
def sha256H0 : List Nat :=
  [0x6a09e667, 0xbb67ae85, 0x3c6ef372, 0xa54ff53a, 0x510e527f, 0x9b05688c, 0x1f83d9ab, 0x5be0cd19]

/-- Padding: a `0x80` byte, zeros up to 56 modulo 64, then the bit length on
eight big-endian bytes. -/
def sha256Pad (msg : List Nat) : List Nat :=
  let l := msg.length
  let bits := 8 * l
  msg ++ [128] ++ List.replicate ((119 - l % 64) % 64) 0 ++
    [(bits >>> 56) % 256, (bits >>> 48) % 256, (bits >>> 40) % 256, (bits >>> 32) % 256,
     (bits >>> 24) % 256, (bits >>> 16) % 256, (bits >>> 8) % 256, bits % 256]

/-- Big-endian 32-bit words of a byte string (a trailing group of fewer than
four bytes is dropped; padded input has none). -/
def toWords : List Nat → List Nat
  | a :: b :: c :: d :: rest => (a * 16777216 + b * 65536 + c * 256 + d) :: toWords rest
  | _ => []

/-- Extension of the message schedule: `rev` holds the words computed so far,
latest first; `n` more words are produced. -/
def scheduleExt : Nat → List Nat → List Nat
  | 0, rev => rev
  | n + 1, rev =>
    match rev with
    | _ :: w2 :: _ :: _ :: _ :: _ :: w7 :: _ :: _ :: _ :: _ :: _ :: _ :: _ :: w15 :: w16 :: _ =>
      scheduleExt n (add32 (add32 (add32 (smallSigma1 w2) w7) (smallSigma0 w15)) w16 :: rev)
    | _ => rev

/-- The 64-word message schedule of a block of 16 words. -/
def schedule (block : List Nat) : List Nat := (scheduleExt 48 block.reverse).reverse

/-- One round of the compression function on the working variables
`[a, b, c, d, e, f, g, h]`. -/
def sha256Round (st : List Nat) (k w : Nat) : List Nat :=
  match st with
  | [a, b, c, d, e, f, g, h] =>
    let t1 := add32 (add32 (add32 (add32 h (bigSigma1 e)) (ch e f g)) k) w
    let t2 := add32 (bigSigma0 a) (maj a b c)
    [add32 t1 t2, a, b, c, add32 d t1, e, f, g]
  | _ => st

/-- The 64 rounds over the constants and the schedule. -/
def sha256Rounds : List Nat → List Nat → List Nat → List Nat
  | st, k :: ks, w :: ws => sha256Rounds (sha256Round st k w) ks ws
  | st, _, _ => st

/-- The compression function: hash value `h` updated with one 16-word block. -/
def sha256Compress (h : List Nat) (block : List Nat) : List Nat :=
  List.zipWith add32 h (sha256Rounds h sha256K (schedule block))

/-- Compression of all 16-word blocks in turn. -/
def sha256Blocks : Nat → List Nat → List Nat → List Nat
  | 0, h, _ => h
  | n + 1, h, ws => sha256Blocks n (sha256Compress h (ws.take 16)) (ws.drop 16)

/-- Big-endian bytes of a list of 32-bit words. -/
def fromWords : List Nat → List Nat
  | [] => []
  | w :: ws => (w >>> 24) % 256 :: (w >>> 16) % 256 :: (w >>> 8) % 256 :: w % 256 :: fromWords ws

/-- The SHA-256 digest (32 bytes) of a byte string. -/
def sha256 (msg : List Nat) : List Nat :=
  let ws := toWords (sha256Pad msg)
  fromWords (sha256Blocks (ws.length / 16) sha256H0 ws)

/-! ## HMAC (RFC 2104) as implemented by `crypto/hmac` over `sha256.New` -/

/-- Block size of SHA-256 in bytes. -/
def sha256BlockSize : Nat := 64

/-- The key as `hmac.New` prepares it: hashed when longer than a block, then
padded with zero bytes to one block. -/
def hmacKeyBlock (key : List Nat) : List Nat :=
  let k := if key.length > sha256BlockSize then sha256 key else key
  k ++ List.replicate (sha256BlockSize - k.length) 0

/-- State of the value returned by `hmac.New(sha256.New, key)`: the outer pad
and everything written to the inner hash so far. -/
structure Hmac where
  opad : List Nat
  inner : List Nat
deriving DecidableEq, Repr

/-- The call `hmac.New(sha256.New, key)`: both pads are derived from the key
and the inner pad is written to the inner hash. -/
def hmacNew (key : List Nat) : Hmac :=
  let kb := hmacKeyBlock key
  { opad := kb.map (fun b => b ^^^ 0x5c), inner := kb.map (fun b => b ^^^ 0x36) }

/-- The method `Write`: the bytes go to the inner hash. -/
def Hmac.Write (h : Hmac) (p : List Nat) : Hmac := { h with inner := h.inner ++ p }

/-- The method `Sum(in)`: `in` followed by the outer hash of the outer pad and
the inner digest. -/
def Hmac.Sum (h : Hmac) (input : List Nat) : List Nat :=
  input ++ sha256 (h.opad ++ sha256 h.inner)

/-! ## Base64, `base64.StdEncoding.EncodeToString` (RFC 4648, with padding) -/

/-- The standard alphabet. -/
def encodeStd : List Char :=
  "ABCDEFGHIJKLMNOPQRSTUVWXYZabcdefghijklmnopqrstuvwxyz0123456789+/".data

/-- The character of a 6-bit value. -/
def b64Char (n : Nat) : Char := encodeStd.getD n 'A'

/-- Encoding of a byte string, three bytes to four characters, the last group
padded with `=`. -/
def b64Encode : List Nat → List Char
  | a :: b :: c :: rest =>
    let v := a * 65536 + b * 256 + c
    b64Char (v >>> 18 % 64) :: b64Char (v >>> 12 % 64) :: b64Char (v >>> 6 % 64) ::
      b64Char (v % 64) :: b64Encode rest
  | [a, b] =>
    let v := a * 65536 + b * 256
    [b64Char (v >>> 18 % 64), b64Char (v >>> 12 % 64), b64Char (v >>> 6 % 64), '=']
  | [a] =>
    let v := a * 65536
    [b64Char (v >>> 18 % 64), b64Char (v >>> 12 % 64), '=', '=']
  | [] => []

/-- The call `base64.StdEncoding.EncodeToString(src)`. -/
def EncodeToString (src : List Nat) : String := String.mk (b64Encode src)

/-! ## `fmt.Sprintf` for the verbs the repository uses -/

/-- Formatting over character lists. The verbs `%s`, `%v` and `%d` consume the
next operand, given already rendered as a string; `%%` is a percent sign; a verb
without operand prints the marker for a missing operand. -/
def sprintfChars : List Char → List String → List Char
  | '%' :: 's' :: rest, a :: args => a.data ++ sprintfChars rest args
  | '%' :: 'v' :: rest, a :: args => a.data ++ sprintfChars rest args
  | '%' :: 'd' :: rest, a :: args => a.data ++ sprintfChars rest args
  | '%' :: 's' :: rest, [] => "%!s(MISSING)".data ++ sprintfChars rest []
  | '%' :: 'v' :: rest, [] => "%!v(MISSING)".data ++ sprintfChars rest []
  | '%' :: 'd' :: rest, [] => "%!d(MISSING)".data ++ sprintfChars rest []
  | '%' :: '%' :: rest, args => '%' :: sprintfChars rest args
  | c :: rest, args => c :: sprintfChars rest args
  | [], _ => []

/-- The call `fmt.Sprintf(format, args...)`. -/
def Sprintf (format : String) (args : List String) : String :=
  String.mk (sprintfChars format.data args)

/-! ## `internal/utils/generate-random-uuid.go` -/

/-- The string `signatureString` that `GenerateEsewaSignature` signs. -/
def signatureString (totalAmount transactionUuid productCode : String) : String :=
  Sprintf "total_amount=%s,transaction_uuid=%s,product_code=%s"
    [totalAmount, transactionUuid, productCode]

/-- The function `GenerateEsewaSignature`. -/
def GenerateEsewaSignature (totalAmount transactionUuid productCode secretKey : String) :
    String :=
  let signatureString := signatureString totalAmount transactionUuid productCode
  if secretKey == "" then
    "ESEWA_SECRET_KEY is required"
  else
    let hash := hmacNew (bytesOf secretKey)
    let hash := hash.Write (bytesOf signatureString)
    EncodeToString (hash.Sum [])

/-! ## Machine integers, `strconv` and `time` -/

/-- Reduction of an integer to the range of `int64`, as Go arithmetic does on
overflow. -/
def wrap64 (x : Int) : Int := (x + 9223372036854775808) % 18446744073709551616 - 9223372036854775808

/-- The call `strconv.FormatInt(n, 10)`. -/
def FormatInt (n : Int) : String :=
  match n with
  | Int.ofNat m => String.mk (Nat.toDigits 10 m)
  | Int.negSucc m => String.mk ('-' :: Nat.toDigits 10 (m + 1))

/-- A reading of the clock, `time.Now()`, in calendar fields. -/
structure Time where
  year : Nat
  month : Nat
  day : Nat
  hour : Nat
  minute : Nat
  second : Nat
deriving DecidableEq, Repr

/-- Two decimal digits of a number, as the layout elements `06`, `01`, `02`,
`15`, `04` and `05` of `Time.Format` print them. -/
def twoDigits (n : Nat) : List Char := [Nat.digitChar (n / 10 % 10), Nat.digitChar (n % 10)]

/-- The call `now.Format("060102")`. -/
def formatDate (now : Time) : String :=
  String.mk (twoDigits now.year ++ twoDigits now.month ++ twoDigits now.day)

/-- The call `now.Format("150405")`. -/
def formatTime (now : Time) : String :=
  String.mk (twoDigits now.hour ++ twoDigits now.minute ++ twoDigits now.second)

/-- Upper-case hexadecimal digit. -/
def hexDigitUpper (n : Nat) : Char := "0123456789ABCDEF".data.getD n '0'

/-- The rendering of a byte slice by the verb `%05X`: two upper-case
hexadecimal digits per byte, padded on the left with zeros to width five. -/
def formatHexUpper5 (bs : List Nat) : String :=
  let digits := bs.flatMap (fun b => [hexDigitUpper (b / 16 % 16), hexDigitUpper (b % 16)])
  String.mk (List.replicate (5 - digits.length) '0' ++ digits)

/-- The function `GenerateEsewaTransactionUUID`; `now` is the clock reading and
`randomBytes` the three bytes filled by `rand.Read`. -/
def GenerateEsewaTransactionUUID (now : Time) (randomBytes : List Nat) : String :=
  let dateStr := formatDate now
  let timeStr := formatTime now
  let randomStr := String.mk ((formatHexUpper5 randomBytes).data.take 5)
  Sprintf "%s-%s-%s" [dateStr, timeStr, randomStr]

/-! ## `net/url`: form values and their encoding -/

/-- Whether `url.QueryEscape` leaves a byte as it is. -/
def unreservedByte (b : Nat) : Bool :=
  (97 ≤ b && b ≤ 122) || (65 ≤ b && b ≤ 90) || (48 ≤ b && b ≤ 57) ||
    b == 45 || b == 95 || b == 46 || b == 126

/-- Escaping of one byte by `url.QueryEscape`: a space becomes `+`, any other
reserved byte `%XX`. -/
def escapeByte (b : Nat) : List Char :=
  if unreservedByte b then [Char.ofNat b]
  else if b == 32 then ['+']
  else ['%', hexDigitUpper (b / 16 % 16), hexDigitUpper (b % 16)]

/-- The call `url.QueryEscape(s)`. -/
def QueryEscape (s : String) : String := String.mk ((bytesOf s).flatMap escapeByte)

/-- The type `url.Values` restricted to single values: the keys set so far with
their value, in order of first insertion. -/
abbrev Values := List (String × String)

/-- The method `Values.Set`: replaces the value of a key or adds the key. -/
def Values.Set : Values → String → String → Values
  | [], key, value => [(key, value)]
  | (k, v) :: rest, key, value =>
    if k == key then (k, value) :: rest else (k, v) :: Values.Set rest key value

/-- Lexicographic order on byte strings. -/
def lessBytes : List Nat → List Nat → Bool
  | [], [] => false
  | [], _ :: _ => true
  | _ :: _, [] => false
  | a :: as, b :: bs => decide (a < b) || (a == b && lessBytes as bs)

/-- The comparison `a < b` of two strings, byte by byte. -/
def stringLess (a b : String) : Bool := lessBytes (bytesOf a) (bytesOf b)

/-- Insertion of a pair into a list sorted by key. -/
def insertByKey (kv : String × String) : List (String × String) → List (String × String)
  | [] => [kv]
  | x :: rest => if stringLess kv.1 x.1 then kv :: x :: rest else x :: insertByKey kv rest

/-- The pairs sorted by key. -/
def sortByKey : List (String × String) → List (String × String)
  | [] => []
  | kv :: rest => insertByKey kv (sortByKey rest)

/-- The method `Values.Encode`: `key=value` pairs, keys and values escaped,
sorted by key and joined by `&`. -/
def Values.Encode (form : Values) : String :=
  "&".intercalate ((sortByKey form).map (fun kv => QueryEscape kv.1 ++ "=" ++ QueryEscape kv.2))

/-! ## `internal/models` -/

/-- The type `models.PaymentStatus`, a string. -/
abbrev PaymentStatus := String

def PaymentStatusPending : PaymentStatus := "pending"
def PaymentStatusSuccess : PaymentStatus := "success"
def PaymentStatusFailed : PaymentStatus := "failed"
def PaymentStatusRefunded : PaymentStatus := "refunded"

/-- The type `models.Payment`. -/
structure Payment where
  ID : String
  Amount : Int
  UserId : String
  TransactionUuid : String
  ProductIDs : List String
  Status : PaymentStatus
  CreatedAt : Time
  UpdatedAt : Time
deriving DecidableEq, Repr

/-- The type `models.ProductItem`. -/
structure ProductItem where
  ProductID : String
  SellerID : String
  Quantity : Int
  Price : Int
deriving DecidableEq, Repr

/-- The type `models.OrderStatus`, a string. -/
abbrev OrderStatus := String

def OrderStatusCreated : OrderStatus := "created"
def OrderStatusPaidAndProcessing : OrderStatus := "paid and processing"
def OrderStatusShipping : OrderStatus := "shipping"
def OrderStatusDelivered : OrderStatus := "delivered"
def OrderStatusCancelled : OrderStatus := "cancelled"

/-- The type `models.Order`. -/
structure Order where
  ID : String
  User : String
  Amount : Int
  Products : List ProductItem
  TransactionID : String
  Status : OrderStatus
  CreatedAt : Time
  UpdatedAt : Time
deriving DecidableEq, Repr

/-- The type `models.Product`; the field `Category`, of interface type in the
source, is kept as a string. -/
structure Product where
  ID : String
  Name : String
  Description : String
  Price : Int
  Quantity : Int
  Discount : Int
  SellerID : String
  Category : String
  Images : List String
  Stock : Int
  Rating : Int
  RatingCount : Int
  CreatedAt : Time
  UpdatedAt : Time
deriving DecidableEq, Repr

/-- The type `models.ProductReviewReply`; the identifier, an `ObjectID` in the
source, is kept as a string. -/
structure ProductReviewReply where
  ReplyID : String
  Message : String
  UserId : String
  UserName : String
  CreatedAt : Time
deriving DecidableEq, Repr

/-- The type `models.ProductReview`; the identifier, an `ObjectID` in the source,
is kept as a string. -/
structure ProductReview where
  ID : String
  ProductId : String
  UserId : String
  UserName : String
  Rating : Int
  Comment : String
  CreatedAt : Time
  UpdatedAt : Time
  Replies : List ProductReviewReply
deriving DecidableEq, Repr

/-! ## The stores and the outside world -/

/-- A call made to a driver (MongoDB, Redis) or to the gateway. -/
inductive Event where
  | findProducts (productIds : List String)
  | decodeProducts
  | insertPayment (payment : Payment)
  | findPayment (transactionUUID : String)
  | updatePaymentStatus (paymentID : String) (status : PaymentStatus)
  | delCart (userID : String)
  | findProduct (productId : String)
  | findComments (productId : String)
  | decodeComments (productId : String)
  | updateProductStock (sellerId productId : String) (stock : Int)
  | insertOrder (order : Order)
  | findUserOrder (userId orderId : String)
  | updateOrderStatus (orderID : String) (status : String)
  | httpPost (url contentType body : String)
  | readBody
  | insertComment (review : ProductReview)
  | updateProductRating (productId : String) (rating : Int)
  | countProducts (sellerId : String)
  | findSellerProducts (sellerId : String) (skip limit : Int)
deriving DecidableEq, Repr

/-- The collections `payments`, `orders` and `products` of the database
`ecommerce`, the cart keys held in Redis (by user id), the calls made so far and
the outcomes scheduled for the coming calls: `some msg` makes the next call fail
with the error `msg`, `none` or an exhausted schedule lets it go through. -/
structure World where
  payments : List Payment
  orders : List Order
  products : List Product
  carts : List String
  trace : List Event
  faults : List (Option String)
deriving DecidableEq, Repr

/-- The outcome scheduled for the next driver call: `some msg` when it fails. -/
def World.outcome (w : World) : Option String := w.faults.head?.join

/-- The world after a driver call, before any change to a store: the event is
recorded and the scheduled outcome is consumed. -/
def World.step (w : World) (e : Event) : World :=
  { w with trace := w.trace ++ [e], faults := w.faults.tail }

/-- The error of `FindOne(...).Decode` when no document matches. -/
def ErrNoDocuments : String := "mongo: no documents in result"

/-- The error of `InsertOne` when a document with the same `_id` exists. -/
def ErrDuplicateKey : String := "E11000 duplicate key error"

/-- The effect of `UpdateOne` on a collection: the first document matching the
filter is rewritten, the others are left alone. -/
def updateFirst {α : Type} (filter : α → Bool) (set : α → α) : List α → List α
  | [] => []
  | d :: rest => if filter d then set d :: rest else d :: updateFirst filter set rest

/-! ## `internal/repository/payment-repo.go` -/

/-- The method `CheckProductAvailability`. -/
def CheckProductAvailability (productIds : List String) (w : World) :
    Except String (List Product × Bool) × World :=
  if productIds.length == 0 then
    (.error "product IDs cannot be nil or empty", w)
  else
    match w.outcome with
    | some err =>
      (.error (Sprintf "MongoDB query failed: %v" [err]), w.step (.findProducts productIds))
    | none =>
      let w := w.step (.findProducts productIds)
      match w.outcome with
      | some err => (.error (Sprintf "failed to decode products: %v" [err]), w.step .decodeProducts)
      | none =>
        let w := w.step .decodeProducts
        let products := w.products.filter (fun p => productIds.contains p.ID)
        (.ok (products, true), w)

/-- The method `CreatePayment`. -/
def CreatePayment (payment : Payment) (w : World) : Except String Unit × World :=
  match w.outcome with
  | some err => (.error err, w.step (.insertPayment payment))
  | none =>
    let w := w.step (.insertPayment payment)
    if w.payments.any (fun p => p.ID == payment.ID) then (.error ErrDuplicateKey, w)
    else (.ok (), { w with payments := w.payments ++ [payment] })

/-- The method `GetPaymentByTransactionUUID`. -/
def GetPaymentByTransactionUUID (transactionUUID : String) (w : World) :
    Except String Payment × World :=
  match w.outcome with
  | some err =>
    (.error (Sprintf "failed to find payment with transaction UUID %s: %v" [transactionUUID, err]),
      w.step (.findPayment transactionUUID))
  | none =>
    let w := w.step (.findPayment transactionUUID)
    match w.payments.find? (fun p => p.TransactionUuid == transactionUUID) with
    | none =>
      (.error (Sprintf "failed to find payment with transaction UUID %s: %v"
        [transactionUUID, ErrNoDocuments]), w)
    | some payment => (.ok payment, w)

/-- The update document of `UpdatePaymentStatus`: `status` and `updatedAt` are
set. -/
def setPaymentStatus (now : Time) (status : PaymentStatus) (p : Payment) : Payment :=
  { p with Status := status, UpdatedAt := now }

/-- The method `UpdatePaymentStatus`; `now` is the clock reading written to
`updatedAt`. -/
def UpdatePaymentStatus (now : Time) (paymentID : String) (status : PaymentStatus) (w : World) :
    Except String Unit × World :=
  match w.outcome with
  | some err => (.error err, w.step (.updatePaymentStatus paymentID status))
  | none =>
    let w := w.step (.updatePaymentStatus paymentID status)
    let payments := updateFirst (fun p => p.ID == paymentID) (setPaymentStatus now status)
      w.payments
    (.ok (), { w with payments := payments })

/-- The method `ClearUserCart`: the key `cart:<userID>` is deleted. -/
def ClearUserCart (userID : String) (w : World) : Except String Unit × World :=
  match w.outcome with
  | some err =>
    (.error (Sprintf "failed to clear cart for user %s: %v" [userID, err]),
      w.step (.delCart userID))
  | none =>
    let w := w.step (.delCart userID)
    (.ok (), { w with carts := w.carts.filter (fun u => u != userID) })

/-! ## `internal/repository/product-repo.go` -/

/-- The method `GetProductByID`. The reviews it also returns are read (two
driver calls that may fail) but not kept: no caller in this development looks
at them, and every caller drops the product when an error is returned. -/
def GetProductByID (productId : String) (w : World) : Except String Product × World :=
  match w.outcome with
  | some err => (.error err, w.step (.findProduct productId))
  | none =>
    let w := w.step (.findProduct productId)
    match w.products.find? (fun p => p.ID == productId) with
    | none => (.error ErrNoDocuments, w)
    | some product =>
      match w.outcome with
      | some err => (.error err, w.step (.findComments productId))
      | none =>
        let w := w.step (.findComments productId)
        match w.outcome with
        | some err => (.error err, w.step (.decodeComments productId))
        | none => (.ok product, w.step (.decodeComments productId))

/-- The update document of `UpdateProductStock`: `stock` is set. -/
def setStock (stock : Int) (p : Product) : Product := { p with Stock := stock }

/-- The method `UpdateProductStock`. -/
def UpdateProductStock (sellerId productId : String) (stock : Int) (w : World) :
    Except String Unit × World :=
  match w.outcome with
  | some err => (.error err, w.step (.updateProductStock sellerId productId stock))
  | none =>
    let w := w.step (.updateProductStock sellerId productId stock)
    let products := updateFirst (fun p => p.ID == productId && p.SellerID == sellerId)
      (setStock stock) w.products
    (.ok (), { w with products := products })

/-! ## `internal/repository/order-repo.go` -/

/-- The method `CreateOrder`. -/
def CreateOrder (order : Order) (w : World) : Except String Unit × World :=
  match w.outcome with
  | some err => (.error err, w.step (.insertOrder order))
  | none =>
    let w := w.step (.insertOrder order)
    if w.orders.any (fun o => o.ID == order.ID) then (.error ErrDuplicateKey, w)
    else (.ok (), { w with orders := w.orders ++ [order] })

/-! ## Configuration, request context and gateway -/

/-- The fields of `config.Config` read by the payment service. -/
structure Config where
  EsewaMerchantCode : String
  EsewaSecretKey : String
  ESewaSuccessURL : String
  ESewaFailedURL : String
  ESewaPaymentURL : String
  EsewaPaymentStatusCheckURL : String
deriving DecidableEq, Repr

/-- The keys of the request context set by the token middleware. -/
structure Ctx where
  userId : Option String
  userEmail : Option String
  userFullName : Option String
deriving DecidableEq, Repr

/-- The function `middleware.GetUserFromContext`. -/
def GetUserFromContext (c : Ctx) : String × String × String × Bool :=
  match c.userId with
  | none => ("", "", "", false)
  | some userId =>
    match c.userEmail with
    | none => ("", "", "", false)
    | some userEmail =>
      match c.userFullName with
      | none => ("", "", "", false)
      | some userFullName => (userId, userEmail, userFullName, true)

/-- What the payment service reads of an `http.Response`: the status code, the
`Location` header (empty when absent), the body, and the URL of the request that
produced the response when `Request` and `Request.URL` are set. -/
structure Response where
  StatusCode : Int
  Location : String
  Body : String
  RequestURL : Option String
deriving DecidableEq, Repr

/-- Everything a service call takes from outside the stores: the configuration,
the clock reading, the bytes of `rand.Read`, the identifier returned by
`GenerateRandomUUID`, the answer of the server to a POST of a body of a content
type to a URL (`gateway`), and its answer to a GET of a URL (`fetch`), the
request that the HTTP client makes when it follows a redirect. -/
structure Env where
  cfg : Config
  now : Time
  randomBytes : List Nat
  newUUID : String
  gateway : String → String → String → Response
  fetch : String → Response

/-! ## The client of `net/http` behind `http.Post` -/

/-- The status codes on which the client of `net/http` redirects. -/
def redirectStatus (code : Int) : Bool :=
  code == 301 || code == 302 || code == 303 || code == 307 || code == 308

/-- Whether the client follows a response: a redirect status with a `Location`
header; a redirect status without one is returned to the caller as it is. -/
def followsRedirect (response : Response) : Bool :=
  redirectStatus response.StatusCode && response.Location != ""

/-- The redirects of the default client, from a response on: after 301, 302 and
303 the client goes on with a GET of the location, after 307 and 308 it repeats
the request, the POST with its body while the request is still the POST; `fuel`
counts the requests that the redirect policy still allows, and the error of the
policy carries the location that it refused to request. The `Location` of a
response stands for the URL that it resolves to, and the requests of the
redirects are taken to be answered. -/
def followRedirects (env : Env) (contentType body : String) :
    Nat → Bool → Response → Except String Response
  | 0, _, response =>
    if followsRedirect response then
      .error ("Post \"" ++ response.Location ++ "\": stopped after 10 redirects")
    else .ok response
  | fuel + 1, isPost, response =>
    if followsRedirect response then
      if isPost && (response.StatusCode == 307 || response.StatusCode == 308) then
        followRedirects env contentType body fuel true
          (env.gateway response.Location contentType body)
      else
        followRedirects env contentType body fuel false (env.fetch response.Location)
    else .ok response

/-- The call `http.Post(url, contentType, body)` once its first request went
through: the response of the server, or the one at the end of the redirects
that the default client follows, ten requests at most. -/
def httpPost (env : Env) (url contentType body : String) : Except String Response :=
  followRedirects env contentType body 9 true (env.gateway url contentType body)

/-! ## `internal/service/payment.service.go` -/

/-- The type `CartItem`. -/
structure CartItem where
  ID : String
  SellerID : String
  Quantity : Int
  Price : Int
  Name : String
deriving DecidableEq, Repr

/-- The type `PaymentData`. -/
structure PaymentData where
  Amount : String
  TaxAmount : String
  ProductServiceCharge : String
  ProductDeliveryCharge : String
  TotalAmount : String
  TransactionUUID : String
  ProductCode : String
  SuccessURL : String
  FailureURL : String
  SignedFieldNames : String
deriving DecidableEq, Repr

/-- The loop of `InitiatePayment` that adds up `Price * Quantity` over the cart
in `int64`, starting from `amount`. -/
def cartAmount : List CartItem → Int → Int
  | [], amount => amount
  | item :: rest, amount =>
    let itemTotal := wrap64 (item.Price * item.Quantity)
    cartAmount rest (wrap64 (amount + itemTotal))

/-- The amount charged by `InitiatePayment`: the cart sum plus the three
charges, raised to 1 when below. -/
def chargedAmount (cartItems : List CartItem) : Int :=
  let amount := cartAmount cartItems 0
  let taxAmount : Int := 0
  let serviceCharge : Int := 0
  let deliveryCharge : Int := 0
  let totalAmount := wrap64 (wrap64 (wrap64 (amount + taxAmount) + serviceCharge) + deliveryCharge)
  if totalAmount < 1 then 1 else totalAmount

/-- The value `paymentData` built by `InitiatePayment`. -/
def buildPaymentData (env : Env) (cartItems : List CartItem) : PaymentData :=
  { Amount := FormatInt (cartAmount cartItems 0)
    TaxAmount := FormatInt 0
    ProductServiceCharge := FormatInt 0
    ProductDeliveryCharge := FormatInt 0
    TotalAmount := FormatInt (chargedAmount cartItems)
    TransactionUUID := GenerateEsewaTransactionUUID env.now env.randomBytes
    ProductCode := env.cfg.EsewaMerchantCode
    SuccessURL := env.cfg.ESewaSuccessURL
    FailureURL := env.cfg.ESewaFailedURL
    SignedFieldNames := "total_amount,transaction_uuid,product_code" }

/-- The form posted to the gateway, built by eleven calls of `Set`. -/
def buildForm (paymentData : PaymentData) (signature : String) : Values :=
  let form : Values := []
  let form := Values.Set form "amount" paymentData.Amount
  let form := Values.Set form "tax_amount" paymentData.TaxAmount
  let form := Values.Set form "product_service_charge" paymentData.ProductServiceCharge
  let form := Values.Set form "product_delivery_charge" paymentData.ProductDeliveryCharge
  let form := Values.Set form "total_amount" paymentData.TotalAmount
  let form := Values.Set form "transaction_uuid" paymentData.TransactionUUID
  let form := Values.Set form "product_code" paymentData.ProductCode
  let form := Values.Set form "success_url" paymentData.SuccessURL
  let form := Values.Set form "failure_url" paymentData.FailureURL
  let form := Values.Set form "signed_field_names" paymentData.SignedFieldNames
  Values.Set form "signature" signature

/-- The URL with parameters that `InitiatePayment` returns when the response
carries neither a `Location` header nor a request URL. -/
def fallbackURL (env : Env) (paymentData : PaymentData) (signature : String) : String :=
  Sprintf ("%s?amount=%s&tax_amount=%s&product_service_charge=%s&product_delivery_charge=%s" ++
      "&total_amount=%s&transaction_uuid=%s&product_code=%s&success_url=%s&failure_url=%s" ++
      "&signed_field_names=%s&signature=%s")
    [env.cfg.ESewaPaymentURL, paymentData.Amount, paymentData.TaxAmount,
     paymentData.ProductServiceCharge, paymentData.ProductDeliveryCharge,
     paymentData.TotalAmount, paymentData.TransactionUUID, paymentData.ProductCode,
     paymentData.SuccessURL, paymentData.FailureURL, paymentData.SignedFieldNames, signature]

/-- The value `paymentRecord` built by `InitiatePayment`. -/
def newPaymentRecord (env : Env) (totalAmount : Int) (userId : String) (paymentData : PaymentData)
    (productIds : List String) : Payment :=
  { ID := env.newUUID
    Amount := totalAmount
    UserId := userId
    TransactionUuid := paymentData.TransactionUUID
    ProductIDs := productIds
    Status := PaymentStatusPending
    CreatedAt := env.now
    UpdatedAt := env.now }

/-- The method `InitiatePayment`. A result `(url, err)` of the source is an
`Except`: every error return of the source carries the empty URL. The call of
`http.Post` is one driver call, which may fail; when it goes through, its result
is the one of `httpPost`: the response inspected is the last one, after the
redirects that the client follows. -/
def InitiatePayment (env : Env) (ctx : Ctx) (cartItems : List CartItem) (w : World) :
    Except String String × World :=
  let productIds := cartItems.map (fun item => item.ID)
  match CheckProductAvailability productIds w with
  | (.error err, w) => (.error err, w)
  | (.ok (_, available), w) =>
    if !available then
      (.error "some products are not available", w)
    else
      let totalAmount := chargedAmount cartItems
      let paymentData := buildPaymentData env cartItems
      let signature := GenerateEsewaSignature paymentData.TotalAmount paymentData.TransactionUUID
        paymentData.ProductCode env.cfg.EsewaSecretKey
      if signature == "" then
        (.error "failed to generate signature", w)
      else
        match GetUserFromContext ctx with
        | (_, _, _, false) => (.error "user not found", w)
        | (userId, _, _, true) =>
          let paymentRecord := newPaymentRecord env totalAmount userId paymentData productIds
          match CreatePayment paymentRecord w with
          | (.error err, w) => (.error err, w)
          | (.ok _, w) =>
            let form := buildForm paymentData signature
            let contentType := "application/x-www-form-urlencoded"
            let post := Event.httpPost env.cfg.ESewaPaymentURL contentType (Values.Encode form)
            match w.outcome with
            | some err => (.error err, w.step post)
            | none =>
              let w := w.step post
              match httpPost env env.cfg.ESewaPaymentURL contentType (Values.Encode form) with
              | .error err => (.error err, w)
              | .ok response =>
                match w.outcome with
                | some err =>
                  (.error (Sprintf "failed to read response body: %v" [err]), w.step .readBody)
                | none =>
                  let w := w.step .readBody
                  if response.StatusCode != 200 then
                    (.error (Sprintf "eSewa returned status %d: %s"
                      [FormatInt response.StatusCode, response.Body]), w)
                  else if response.Location != "" then
                    (.ok response.Location, w)
                  else
                    match response.RequestURL with
                    | some u => (.ok u, w)
                    | none => (.ok (fallbackURL env paymentData signature), w)

/-- The value `orderItem` built by `CreateOrderFromPayment` from a catalog
product. -/
def newOrderItem (product : Product) : ProductItem :=
  { ProductID := product.ID
    SellerID := product.SellerID
    Quantity := 1
    Price := product.Price }

/-- The first loop of `CreateOrderFromPayment`: one order line per product id,
read from the catalog, appended to `orderItems`. -/
def orderItemsLoop : List String → List ProductItem → World →
    Except String (List ProductItem) × World
  | [], orderItems, w => (.ok orderItems, w)
  | productID :: rest, orderItems, w =>
    match GetProductByID productID w with
    | (.error err, w) => (.error (Sprintf "failed to get product details: %v" [err]), w)
    | (.ok product, w) =>
      let orderItem := newOrderItem product
      orderItemsLoop rest (orderItems ++ [orderItem]) w

/-- The method `decreaseProductStock` of the payment service. -/
def decreaseProductStock : List ProductItem → World → Except String Unit × World
  | [], w => (.ok (), w)
  | item :: rest, w =>
    match GetProductByID item.ProductID w with
    | (.error _, w) => decreaseProductStock rest w
    | (.ok product, w) =>
      if product.Stock < item.Quantity then
        decreaseProductStock rest w
      else
        let newStock := wrap64 (product.Stock - item.Quantity)
        match UpdateProductStock product.SellerID item.ProductID newStock w with
        | (_, w) => decreaseProductStock rest w

/-- The value `order` built by `CreateOrderFromPayment` from the payment and the
order lines. -/
def newOrder (env : Env) (payment : Payment) (orderItems : List ProductItem) : Order :=
  { ID := env.newUUID
    User := payment.UserId
    Amount := payment.Amount
    Products := orderItems
    TransactionID := payment.TransactionUuid
    Status := OrderStatusCreated
    CreatedAt := env.now
    UpdatedAt := env.now }

/-- The method `CreateOrderFromPayment`. -/
def CreateOrderFromPayment (env : Env) (payment : Payment) (w : World) :
    Except String Order × World :=
  if payment.ProductIDs.length == 0 then
    (.error "payment has no product IDs", w)
  else
    match orderItemsLoop payment.ProductIDs [] w with
    | (.error err, w) => (.error err, w)
    | (.ok orderItems, w) =>
      let order := newOrder env payment orderItems
      match CreateOrder order w with
      | (.error err, w) => (.error (Sprintf "failed to create order: %v" [err]), w)
      | (.ok _, w) =>
        match decreaseProductStock orderItems w with
        | (_, w) => (.ok order, w)

/-- The method `ProcessSuccessfulPayment`. -/
def ProcessSuccessfulPayment (env : Env) (transactionUUID : String) (w : World) :
    Except String Order × World :=
  match GetPaymentByTransactionUUID transactionUUID w with
  | (.error err, w) => (.error (Sprintf "failed to get payment: %v" [err]), w)
  | (.ok payment, w) =>
    match UpdatePaymentStatus env.now payment.ID PaymentStatusSuccess w with
    | (.error err, w) => (.error (Sprintf "failed to update payment status: %v" [err]), w)
    | (.ok _, w) =>
      match CreateOrderFromPayment env payment w with
      | (.error err, w) => (.error (Sprintf "failed to create order: %v" [err]), w)
      | (.ok order, w) =>
        match ClearUserCart payment.UserId w with
        | (_, w) => (.ok order, w)

/-! ## The signature as the specification states it -/

/-- The canonical string of the gateway protocol in the specification's words:
the three fields, each after its key, in the order `total_amount`,
`transaction_uuid`, `product_code`. -/
def canonicalString (totalAmount transactionUuid productCode : String) : String :=
  "total_amount=" ++ totalAmount ++ ",transaction_uuid=" ++ transactionUuid ++
    ",product_code=" ++ productCode

/-- HMAC-SHA256 as RFC 2104 defines it: `H((K0 xor opad) || H((K0 xor ipad) || msg))`,
where `K0` is the key, hashed first when longer than a block, padded with zeros
to the block size of 64 bytes. -/
def hmacSHA256 (key msg : List Nat) : List Nat :=
  let k := if key.length > 64 then sha256 key else key
  let k0 := k ++ List.replicate (64 - k.length) 0
  sha256 (k0.map (fun b => b ^^^ 0x5c) ++ sha256 (k0.map (fun b => b ^^^ 0x36) ++ msg))

/-! ## Vocabulary of the statements -/

/-- Two worlds with the same four stores. -/
def World.sameStores (w w' : World) : Prop :=
  w'.payments = w.payments ∧ w'.orders = w.orders ∧ w'.products = w.products ∧
    w'.carts = w.carts

/-! ## A checkout scenario -/

/-- A clock reading: 9 March 2025, 07:05:59. -/
def exampleTime : Time :=
  { year := 2025, month := 3, day := 9, hour := 7, minute := 5, second := 59 }

/-- The catalog product `p1` of seller `s1`, price 500, stock 10. -/
def exampleProduct : Product :=
  { ID := "p1", Name := "lamp", Description := "", Price := 500, Quantity := 0, Discount := 0,
    SellerID := "s1", Category := "", Images := [], Stock := 10, Rating := 0, RatingCount := 0,
    CreatedAt := exampleTime, UpdatedAt := exampleTime }

/-- A world whose catalog holds `p1` only, with a cart for user `u1`, no
payment, no order and no scheduled failure. -/
def exampleWorld : World :=
  { payments := [], orders := [], products := [exampleProduct], carts := ["u1"], trace := [],
    faults := [] }

/-- A configuration with the test merchant code and key. -/
def exampleConfig : Config :=
  { EsewaMerchantCode := "EPAYTEST", EsewaSecretKey := "8gBm/:&EnhH.1/q",
    ESewaSuccessURL := "https://shop.example/products/checkout/payment/success",
    ESewaFailedURL := "https://shop.example/products/checkout/payment/failed",
    ESewaPaymentURL := "https://gateway.example/pay",
    EsewaPaymentStatusCheckURL := "https://gateway.example/status" }

/-- An environment in which the gateway answers 200 with the request URL. -/
def exampleEnv : Env :=
  { cfg := exampleConfig, now := exampleTime, randomBytes := [1, 2, 3], newUUID := "pay-1",
    gateway := fun url _ _ =>
      { StatusCode := 200, Location := "", Body := "", RequestURL := some url },
    fetch := fun url =>
      { StatusCode := 200, Location := "", Body := "", RequestURL := some url } }

/-- The request context of the authenticated user `u1`. -/
def exampleCtx : Ctx :=
  { userId := some "u1", userEmail := some "u1@shop.example", userFullName := some "U One" }

/-- The cart of the specification's scenario: two units of `p1` at 500. -/
def exampleCart : List CartItem :=
  [{ ID := "p1", SellerID := "s1", Quantity := 2, Price := 500, Name := "lamp" }]

/-- A payment record of user `u1` for product `p1` whose status is `failed`. -/
def failedPayment : Payment :=
  { ID := "pay-9", Amount := 500, UserId := "u1", TransactionUuid := "250309-070559-0A0B0",
    ProductIDs := ["p1"], Status := PaymentStatusFailed, CreatedAt := exampleTime,
    UpdatedAt := exampleTime }

/-- The example world with the failed payment as its only payment record. -/
def failedPaymentWorld : World := { exampleWorld with payments := [failedPayment] }

/-- A cart with one unit of `p1` at price 0. -/
def freeCart : List CartItem :=
  [{ ID := "p1", SellerID := "s1", Quantity := 1, Price := 0, Name := "lamp" }]

/-- The sum over the cart of `Price × Quantity`, in unbounded integers. -/
def cartSum (cartItems : List CartItem) : Int :=
  (cartItems.map (fun item => item.Price * item.Quantity)).sum

/-- The order lines that `CreateOrderFromPayment` builds for a list of product
ids against a catalog: one line per id found, in the order of the ids. -/
def catalogLines (products : List Product) (ids : List String) : List ProductItem :=
  ids.filterMap (fun id => (products.find? (fun p => p.ID == id)).map newOrderItem)

/-- The bodies of the requests posted to the gateway in a trace. -/
def postedBodies : List Event → List String
  | [] => []
  | Event.httpPost _ _ body :: rest => body :: postedBodies rest
  | _ :: rest => postedBodies rest


/-- The environment of a first settlement: the order id drawn is `order-1`. -/
def settleEnv1 : Env := { exampleEnv with newUUID := "order-1" }

/-- A pending payment record of user `u1` for product `p1`. -/
def pendingPayment : Payment := { failedPayment with Status := PaymentStatusPending }

/-- The example world with the pending payment as its only payment record. -/
def pendingPaymentWorld : World := { exampleWorld with payments := [pendingPayment] }

/-- The example environment with the secret key left unset. -/
def emptyKeyEnv : Env :=
  { exampleEnv with cfg := { exampleConfig with EsewaSecretKey := "" } }

/-- A cart with one unit of a product id that the example catalog lacks. -/
def ghostCart : List CartItem :=
  [{ ID := "ghost", SellerID := "s1", Quantity := 1, Price := 500, Name := "ghost" }]

deriving instance DecidableEq for Except

/-! ## `internal/repository/order-repo.go`: reading and updating an order -/

/-- The update document of the order repository's `UpdateOrderStatus`: `status`
and `updatedAt` are set. -/
def setOrderStatus (now : Time) (status : String) (o : Order) : Order :=
  { o with Status := status, UpdatedAt := now }

/-- The method `UpdateOrderStatus` of the order repository; `now` is the clock
reading written to `updatedAt`. -/
def OrderRepo.UpdateOrderStatus (now : Time) (orderID : String) (status : String) (w : World) :
    Except String Unit × World :=
  match w.outcome with
  | some err => (.error err, w.step (.updateOrderStatus orderID status))
  | none =>
    let w := w.step (.updateOrderStatus orderID status)
    let orders := updateFirst (fun o => o.ID == orderID) (setOrderStatus now status) w.orders
    (.ok (), { w with orders := orders })

/-- The method `GetUserOrderDetails` of the order repository. -/
def OrderRepo.GetUserOrderDetails (userId orderId : String) (w : World) :
    Except String Order × World :=
  match w.outcome with
  | some err => (.error err, w.step (.findUserOrder userId orderId))
  | none =>
    let w := w.step (.findUserOrder userId orderId)
    match w.orders.find? (fun o => o.ID == orderId && o.User == userId) with
    | none => (.error ErrNoDocuments, w)
    | some order => (.ok order, w)

/-! ## `internal/service/order.service.go` -/

/-- The method `restoreProductStock` of the order service. -/
def OrderService.restoreProductStock : List ProductItem → World → Except String Unit × World
  | [], w => (.ok (), w)
  | item :: rest, w =>
    match GetProductByID item.ProductID w with
    | (.error _, w) => OrderService.restoreProductStock rest w
    | (.ok product, w) =>
      let newStock := wrap64 (product.Stock + item.Quantity)
      match UpdateProductStock product.SellerID item.ProductID newStock w with
      | (_, w) => OrderService.restoreProductStock rest w

/-- The method `CancelUserOrder` of the order service. -/
def OrderService.CancelUserOrder (now : Time) (userId orderId : String) (w : World) :
    Except String Unit × World :=
  match OrderRepo.GetUserOrderDetails userId orderId w with
  | (.error err, w) => (.error (Sprintf "failed to get order details: %v" [err]), w)
  | (.ok order, w) =>
    if order.Status != OrderStatusCreated then
      (.error (Sprintf "order cannot be cancelled in current status: %s" [order.Status]), w)
    else
      match OrderRepo.UpdateOrderStatus now orderId OrderStatusCancelled w with
      | (.error err, w) => (.error (Sprintf "failed to cancel order: %v" [err]), w)
      | (.ok _, w) =>
        match OrderService.restoreProductStock order.Products w with
        | (_, w) => (.ok (), w)

/-- The list `validStatuses` of the order service's `UpdateOrderStatus`. -/
def validStatuses : List String :=
  [OrderStatusCreated, OrderStatusPaidAndProcessing, OrderStatusShipping, OrderStatusDelivered,
   OrderStatusCancelled]

/-- The method `UpdateOrderStatus` of the order service. -/
def OrderService.UpdateOrderStatus (now : Time) (_sellerId orderId status : String) (w : World) :
    Except String Unit × World :=
  let isValidStatus := validStatuses.any (fun validStatus => status == validStatus)
  if !isValidStatus then
    (.error (Sprintf "invalid order status: %s" [status]), w)
  else
    match OrderRepo.UpdateOrderStatus now orderId status w with
    | (.error err, w) => (.error (Sprintf "failed to update order status: %v" [err]), w)
    | (.ok _, w) => (.ok (), w)

/-- The method `AcceptOrder` of the order service. -/
def OrderService.AcceptOrder (now : Time) (_sellerId orderId : String) (w : World) :
    Except String Unit × World :=
  match OrderRepo.UpdateOrderStatus now orderId OrderStatusPaidAndProcessing w with
  | (.error err, w) => (.error (Sprintf "failed to accept order: %v" [err]), w)
  | (.ok _, w) => (.ok (), w)

/-- The method `OrderFinished` of the order service. -/
def OrderService.OrderFinished (now : Time) (_sellerId orderId : String) (w : World) :
    Except String Unit × World :=
  match OrderRepo.UpdateOrderStatus now orderId OrderStatusDelivered w with
  | (.error err, w) => (.error (Sprintf "failed to accept order: %v" [err]), w)
  | (.ok _, w) => (.ok (), w)

/-! ## Vocabulary of the statements, continued -/

/-- The first component of a Go result `(url, err)`: the URL, empty on error. -/
def returnedURL (r : Except String String) : String :=
  match r with
  | .ok url => url
  | .error _ => ""

/-- The payment records handed to `InsertOne` in a trace. -/
def insertedPayments : List Event → List Payment
  | [] => []
  | Event.insertPayment p :: rest => p :: insertedPayments rest
  | _ :: rest => insertedPayments rest

/-- The writes to the order collection and the stock updates in a trace. -/
def orderAndStockWrites : List Event → List Event
  | [] => []
  | Event.insertOrder o :: rest => Event.insertOrder o :: orderAndStockWrites rest
  | Event.updateOrderStatus i s :: rest => Event.updateOrderStatus i s :: orderAndStockWrites rest
  | Event.updateProductStock s i n :: rest =>
    Event.updateProductStock s i n :: orderAndStockWrites rest
  | _ :: rest => orderAndStockWrites rest

/-- The method `Values.Get`: the value of a key, empty when the key is absent. -/
def Values.Get : Values → String → String
  | [], _ => ""
  | (k, v) :: rest, key => if k == key then v else Values.Get rest key

/-- The stock of the product that a lookup by id finds. -/
def World.stockOf (w : World) (productId : String) : Option Int :=
  (w.products.find? (fun p => p.ID == productId)).map (fun p => p.Stock)

/-- The form that `InitiatePayment` builds for a cart: the payment data and the
signature computed from it with the configured key. -/
def gatewayForm (env : Env) (cartItems : List CartItem) : Values :=
  buildForm (buildPaymentData env cartItems)
    (GenerateEsewaSignature (buildPaymentData env cartItems).TotalAmount
      (buildPaymentData env cartItems).TransactionUUID (buildPaymentData env cartItems).ProductCode
      env.cfg.EsewaSecretKey)

/-- The calls that a run of `InitiatePayment` to its end makes, in order: the
catalog query and its decoding, the insert of the payment record, the POST to
the gateway and the reading of the answer. A run that stops early makes a
prefix of them. -/
def checkoutCalls (env : Env) (ctx : Ctx) (cartItems : List CartItem) : List Event :=
  [Event.findProducts (cartItems.map (fun item => item.ID)),
   Event.decodeProducts,
   Event.insertPayment (newPaymentRecord env (chargedAmount cartItems) (GetUserFromContext ctx).1
     (buildPaymentData env cartItems) (cartItems.map (fun item => item.ID))),
   Event.httpPost env.cfg.ESewaPaymentURL "application/x-www-form-urlencoded"
     (Values.Encode (gatewayForm env cartItems)),
   Event.readBody]

/-- The world of the pending payment in which the catalog read of the stock
decrease and the cart deletion are scheduled to fail: the first six calls of a
settlement go through (payment lookup, status write, the three reads of the
product lookup, order insert), the next two fail. -/
def flakyWorld : World :=
  { pendingPaymentWorld with
    faults := [none, none, none, none, none, none, some "catalog unreachable",
      some "redis unreachable"] }

/-- An order of user `u1` for two units of `p1`, in status `created`. -/
def exampleOrder : Order :=
  { ID := "order-1", User := "u1", Amount := 1000,
    Products := [{ ProductID := "p1", SellerID := "s1", Quantity := 2, Price := 500 }],
    TransactionID := "250309-070559-0A0B0", Status := OrderStatusCreated,
    CreatedAt := exampleTime, UpdatedAt := exampleTime }

/-- The example world holding the example order in a given status. -/
def orderWorld (status : OrderStatus) : World :=
  { exampleWorld with orders := [{ exampleOrder with Status := status }] }

/-- The pending payment with its list of product ids emptied. -/
def emptyPayment : Payment := { pendingPayment with ProductIDs := [] }

/-! ## Vocabulary of the statements: the answer of the gateway -/

/-- The answer of the gateway to the POST that `InitiatePayment` makes for a cart. -/
def gatewayAnswer (env : Env) (cartItems : List CartItem) : Response :=
  env.gateway env.cfg.ESewaPaymentURL "application/x-www-form-urlencoded"
    (Values.Encode (gatewayForm env cartItems))

/-- The response that `http.Post` returns to `InitiatePayment` for a cart, when
its first request goes through: the answer of the gateway, or the answer at the
end of the redirects that the client follows. -/
def postResponse (env : Env) (cartItems : List CartItem) : Except String Response :=
  httpPost env env.cfg.ESewaPaymentURL "application/x-www-form-urlencoded"
    (Values.Encode (gatewayForm env cartItems))

/-- The signature that `InitiatePayment` computes for a cart. -/
def cartSignature (env : Env) (cartItems : List CartItem) : String :=
  GenerateEsewaSignature (buildPaymentData env cartItems).TotalAmount
    (buildPaymentData env cartItems).TransactionUUID (buildPaymentData env cartItems).ProductCode
    env.cfg.EsewaSecretKey

/-- An environment in which the gateway answers 400 with a message. -/
def refusingEnv : Env :=
  { exampleEnv with
    gateway := fun url _ _ =>
      { StatusCode := 400, Location := "", Body := "invalid signature", RequestURL := some url } }

/-- An environment in which the gateway answers the POST with 302 and a
`Location`, and the page at that location answers 200. -/
def redirectingEnv : Env :=
  { exampleEnv with
    gateway := fun url _ _ =>
      { StatusCode := 302, Location := "https://gateway.example/login", Body := "redirecting",
        RequestURL := some url } }

/-- An environment in which the gateway answers 200 and the response carries
neither a `Location` header nor the URL of its request. -/
def bareEnv : Env :=
  { exampleEnv with
    gateway := fun _ _ _ => { StatusCode := 200, Location := "", Body := "", RequestURL := none } }

/-- An order line for twenty units of `p1`, more than the example stock. -/
def twentyUnits : ProductItem :=
  { ProductID := "p1", SellerID := "s1", Quantity := 20, Price := 500 }

/-- An order line for two units of `p1`. -/
def twoUnits : ProductItem :=
  { ProductID := "p1", SellerID := "s1", Quantity := 2, Price := 500 }

/-- An order line for one unit of a product that the example catalog lacks. -/
def ghostLine : ProductItem :=
  { ProductID := "ghost", SellerID := "s1", Quantity := 1, Price := 500 }

/-- The world in which `CancelUserOrder` starts restoring the stock: the world
after the lookup of the order and the write of the status `cancelled`. -/
def cancellationStart (now : Time) (userId orderId : String) (w : World) : World :=
  (OrderRepo.UpdateOrderStatus now orderId OrderStatusCancelled
    (OrderRepo.GetUserOrderDetails userId orderId w).2).2

/-- The example order with a line for an unknown product before its line for two
units of `p1`. -/
def mixedOrder : Order := { exampleOrder with Products := [ghostLine, twoUnits] }

/-- The example world holding the mixed order. -/
def mixedOrderWorld : World := { exampleWorld with orders := [mixedOrder] }

/-- The example order with one line, for twenty units of `p1`. -/
def largeOrder : Order := { exampleOrder with Products := [twentyUnits] }

/-- The example world holding the large order. -/
def largeOrderWorld : World := { exampleWorld with orders := [largeOrder] }

/-- The pending payment with a second product id that the catalog lacks. -/
def ghostPayment : Payment := { pendingPayment with ProductIDs := ["p1", "ghost"] }

/-- The example world with the ghost payment as its only payment record and the
cart of `u1` still held. -/
def ghostPaymentWorld : World := { exampleWorld with payments := [ghostPayment], carts := ["u1"] }

/-! ## Integer division -/

/-- The quotient `a / b` of Go on `int`, for a divisor that is not zero: the
quotient truncated toward zero, reduced to `int64`. -/
def goQuot (a b : Int) : Int := wrap64 (Int.tdiv a b)

/-! ## `internal/repository/comment.repo.go` -/

/-- Whether a clock reading is earlier than another. -/
def Time.before (a b : Time) : Bool :=
  decide (a.year < b.year) || (a.year == b.year && (decide (a.month < b.month) ||
    (a.month == b.month && (decide (a.day < b.day) || (a.day == b.day &&
      (decide (a.hour < b.hour) || (a.hour == b.hour && (decide (a.minute < b.minute) ||
        (a.minute == b.minute && decide (a.second < b.second))))))))))

/-- Insertion of a product into a list sorted by `createdAt`, newest first;
among equal dates the product comes first. -/
def insertNewestFirst (p : Product) : List Product → List Product
  | [] => [p]
  | q :: rest =>
    if Time.before p.CreatedAt q.CreatedAt then q :: insertNewestFirst p rest else p :: q :: rest

/-- The sort `createdAt: -1` of the query; products of equal date keep the order
of the store. -/
def sortNewestFirst (products : List Product) : List Product :=
  products.foldr insertNewestFirst []

/-- The page number after the validation of `GetSellerProducts`. -/
def normalizedPage (page : Int) : Int := if page < 1 then 1 else page

/-- The limit after the validation of `GetSellerProducts`. -/
def normalizedLimit (limit : Int) : Int :=
  let limit := if limit < 1 then 10 else limit
  if limit > 100 then 100 else limit

/-- The value `totalPages` of `GetSellerProducts`: the ceiling division
`(int(total) + limit - 1) / limit`, computed in `int`. -/
def totalPages (total limit : Int) : Int :=
  goQuot (wrap64 (wrap64 (total + limit) - 1)) limit

/-- The method `GetSellerProducts`. A result `(products, total, hasMore, err)`
of the source is an `Except`; every error return of the source carries `nil`,
`0` and `false`. The server refuses a query whose skip is negative (the text of
its error is not in the source). -/
def GetSellerProducts (sellerId : String) (page limit : Int) (w : World) :
    Except String (List Product × Int × Bool) × World :=
  let page := normalizedPage page
  let limit := normalizedLimit limit
  match w.outcome with
  | some err => (.error err, w.step (.countProducts sellerId))
  | none =>
    let w := w.step (.countProducts sellerId)
    let matching := w.products.filter (fun p => p.SellerID == sellerId)
    let total : Int := matching.length
    if total == 0 then
      (.ok ([], 0, false), w)
    else
      let hasMore := decide (page < totalPages total limit)
      let skip := wrap64 ((page - 1) * limit)
      match w.outcome with
      | some err => (.error err, w.step (.findSellerProducts sellerId skip limit))
      | none =>
        let w := w.step (.findSellerProducts sellerId skip limit)
        if skip < 0 then
          (.error "skip value must be non-negative", w)
        else
          match w.outcome with
          | some err => (.error err, w.step .decodeProducts)
          | none =>
            let products := ((sortNewestFirst matching).drop skip.toNat).take limit.toNat
            (.ok (products, total, hasMore), w.step .decodeProducts)

/-- What a result of `GetSellerProducts` reports as `hasMore`: `false` with an
error. -/
def reportedHasMore (r : Except String (List Product × Int × Bool)) : Bool :=
  match r with
  | .ok (_, _, hasMore) => hasMore
  | .error _ => false

/-- What a result of `GetSellerProducts` reports as `total`: `0` with an error. -/
def reportedTotal (r : Except String (List Product × Int × Bool)) : Int :=
  match r with
  | .ok (_, total, _) => total
  | .error _ => 0

/-- What a result of `GetSellerProducts` returns as products: none with an
error. -/
def returnedProducts (r : Except String (List Product × Int × Bool)) : List Product :=
  match r with
  | .ok (products, _, _) => products
  | .error _ => []

/-- Three products of seller `s1`, created on three consecutive days. -/
def sellerCatalog : World :=
  { exampleWorld with
    products :=
      [{ exampleProduct with ID := "p1", CreatedAt := { exampleTime with day := 1 } },
       { exampleProduct with ID := "p2", CreatedAt := { exampleTime with day := 3 } },
       { exampleProduct with ID := "p3", CreatedAt := { exampleTime with day := 2 } }] }

/-- A catalog of `2^63 - 1` products of seller `s1`. -/
def hugeCatalog : World :=
  { exampleWorld with products := List.replicate 9223372036854775807 exampleProduct }

/-- The number of products of a seller in the store: what `CountDocuments`
returns for the filter of `GetSellerProducts`. -/
def sellerTotal (w : World) (sellerId : String) : Int :=
  ((w.products.filter (fun p => p.SellerID == sellerId)).length : Int)

/-! # Theorems -/

set_option maxRecDepth 1000000

/-! ## The primitives on published test vectors -/

/-- The digest of `abc` is the one FIPS 180-4 gives. -/
theorem sha256_abc :
    sha256 (bytesOf "abc") =
      [0xba, 0x78, 0x16, 0xbf, 0x8f, 0x01, 0xcf, 0xea, 0x41, 0x41, 0x40, 0xde, 0x5d, 0xae, 0x22,
       0x23, 0xb0, 0x03, 0x61, 0xa3, 0x96, 0x17, 0x7a, 0x9c, 0xb4, 0x10, 0xff, 0x61, 0xf2, 0x00,
       0x15, 0xad] := by
  decide

/-- Test case 2 of RFC 4231: key `Jefe`, data `what do ya want for nothing?`. -/
theorem hmacSHA256_rfc4231_case2 :
    hmacSHA256 (bytesOf "Jefe") (bytesOf "what do ya want for nothing?") =
      [0x5b, 0xdc, 0xc1, 0x46, 0xbf, 0x60, 0x75, 0x4e, 0x6a, 0x04, 0x24, 0x26, 0x08, 0x95, 0x75,
       0xc7, 0x5a, 0x00, 0x3f, 0x08, 0x9d, 0x27, 0x39, 0x83, 0x9d, 0xec, 0x58, 0xb9, 0x64, 0xec,
       0x38, 0x43] := by
  decide

/-- The examples of RFC 4648, section 10. -/
theorem EncodeToString_rfc4648 :
    EncodeToString (bytesOf "") = "" ∧ EncodeToString (bytesOf "f") = "Zg==" ∧
      EncodeToString (bytesOf "fo") = "Zm8=" ∧ EncodeToString (bytesOf "foo") = "Zm9v" ∧
      EncodeToString (bytesOf "foobar") = "Zm9vYmFy" := by
  decide

/-! ## The signature -/

/-- The characters of the signed string: the three fields after their keys. -/
theorem signatureString_data (a b c : String) :
    (signatureString a b c).data =
      "total_amount=".data ++ (a.data ++ (",transaction_uuid=".data ++ (b.data ++
        (",product_code=".data ++ c.data)))) := by
  show sprintfChars _ _ = _
  simp [sprintfChars]

/-- The signed string is the canonical string of the specification. -/
theorem signatureString_eq_canonicalString (a b c : String) :
    signatureString a b c = canonicalString a b c := by
  apply String.ext
  rw [signatureString_data]
  simp [canonicalString, String.append, List.append_assoc]

/-- With a non-empty key the signature is the encoded HMAC of the signed string. -/
theorem GenerateEsewaSignature_of_key (a b c k : String) (hk : k ≠ "") :
    GenerateEsewaSignature a b c k =
      EncodeToString (hmacSHA256 (bytesOf k) (bytesOf (signatureString a b c))) := by
  have hk2 : (k == "") = false := by simpa using hk
  simp [GenerateEsewaSignature, hk2, hmacNew, Hmac.Write, Hmac.Sum, hmacKeyBlock, hmacSHA256,
    sha256BlockSize]

/-- With the empty key the result is the fixed message. -/
theorem GenerateEsewaSignature_empty_key (a b c : String) :
    GenerateEsewaSignature a b c "" = "ESEWA_SECRET_KEY is required" := by
  simp [GenerateEsewaSignature]

/-- C2. For every total amount, transaction id, product code and non-empty
secret key, `GenerateEsewaSignature` returns the standard base64 encoding of the
HMAC-SHA256, keyed with the bytes of the secret key, of the bytes of the
canonical string with the fields in the order total amount, transaction id,
product code. -/
theorem GenerateEsewaSignature_is_base64_hmac (totalAmount transactionUuid productCode
    secretKey : String) (hkey : secretKey ≠ "") :
    GenerateEsewaSignature totalAmount transactionUuid productCode secretKey =
      EncodeToString (hmacSHA256 (bytesOf secretKey)
        (bytesOf ("total_amount=" ++ totalAmount ++ ",transaction_uuid=" ++ transactionUuid ++
          ",product_code=" ++ productCode))) := by
  rw [GenerateEsewaSignature_of_key _ _ _ _ hkey, signatureString_eq_canonicalString]
  rfl

/-- C2, at the key and fields of the repository's signature test. -/
theorem GenerateEsewaSignature_is_base64_hmac_witness :
    "8gBm/:&EnhH.1/q(" ≠ "" ∧
      GenerateEsewaSignature "100" "241028" "EPAYTEST" "8gBm/:&EnhH.1/q(" =
        EncodeToString (hmacSHA256 (bytesOf "8gBm/:&EnhH.1/q(")
          (bytesOf ("total_amount=" ++ "100" ++ ",transaction_uuid=" ++ "241028" ++
            ",product_code=" ++ "EPAYTEST"))) :=
  ⟨by decide, GenerateEsewaSignature_is_base64_hmac "100" "241028" "EPAYTEST" "8gBm/:&EnhH.1/q("
    (by decide)⟩

/-- C3, refuted: on the inputs of the first case of the signature test the
function does not return the expected result recorded there. -/
theorem GenerateEsewaSignature_test_case_mismatch :
    GenerateEsewaSignature "100" "241028" "EPAYTEST" "8gBm/:&EnhH.1/q(" ≠
      "i94zsd3oXF6ZsSr/kGqT4sSzYQzjj1W/waxjWyRwaME=" := by
  decide

/-- C3, amended: on the inputs of the first case of the signature test the
function returns `fFVsvDnVLIr0iMwa3r0oHHqrS83F4pipTWi7g9zDp78=`; the result
recorded in the test is what it returns for total amount `110` and the key
without the closing bracket. -/
theorem GenerateEsewaSignature_test_case_value :
    GenerateEsewaSignature "100" "241028" "EPAYTEST" "8gBm/:&EnhH.1/q(" =
        "fFVsvDnVLIr0iMwa3r0oHHqrS83F4pipTWi7g9zDp78=" ∧
      GenerateEsewaSignature "110" "241028" "EPAYTEST" "8gBm/:&EnhH.1/q" =
        "i94zsd3oXF6ZsSr/kGqT4sSzYQzjj1W/waxjWyRwaME=" := by
  decide

/-- Two strings that agree up to their first comma: when neither prefix holds a
comma, the prefixes and the remainders are equal. -/
theorem append_comma_inj : ∀ (a a' r r' : List Char), ',' ∉ a → ',' ∉ a' →
    a ++ ',' :: r = a' ++ ',' :: r' → a = a' ∧ r = r'
  | [], [], r, r', _, _, h => by simpa using h
  | [], y :: a', r, r', _, ha', h => by
    simp only [List.nil_append, List.cons_append, List.cons.injEq] at h
    exact absurd (List.mem_cons.mpr (Or.inl h.1)) ha'
  | x :: a, [], r, r', ha, _, h => by
    simp only [List.nil_append, List.cons_append, List.cons.injEq] at h
    exact absurd (List.mem_cons.mpr (Or.inl h.1.symm)) ha
  | x :: a, y :: a', r, r', ha, ha', h => by
    simp only [List.cons_append, List.cons.injEq] at h
    have ih := append_comma_inj a a' r r' (fun hm => ha (List.mem_cons_of_mem _ hm))
      (fun hm => ha' (List.mem_cons_of_mem _ hm)) h.2
    exact ⟨by rw [h.1, ih.1], ih.2⟩

/-- The signed string determines the three fields when the total amount and the
transaction id hold no comma. -/
theorem signatureString_inj (a b c a' b' c' : String) (ha : ',' ∉ a.data)
    (ha' : ',' ∉ a'.data) (hb : ',' ∉ b.data) (hb' : ',' ∉ b'.data)
    (h : signatureString a b c = signatureString a' b' c') : a = a' ∧ b = b' ∧ c = c' := by
  have hd := congrArg String.data h
  rw [signatureString_data, signatureString_data] at hd
  have h1 : a.data ++ ',' :: ("transaction_uuid=".data ++ (b.data ++
      (",product_code=".data ++ c.data))) = a'.data ++ ',' :: ("transaction_uuid=".data ++
      (b'.data ++ (",product_code=".data ++ c'.data))) := List.append_cancel_left hd
  obtain ⟨haa, h2⟩ := append_comma_inj _ _ _ _ ha ha' h1
  have h3 : b.data ++ ',' :: ("product_code=".data ++ c.data) =
      b'.data ++ ',' :: ("product_code=".data ++ c'.data) := List.append_cancel_left h2
  obtain ⟨hbb, h4⟩ := append_comma_inj _ _ _ _ hb hb' h3
  have h5 := List.append_cancel_left h4
  exact ⟨String.ext haa, String.ext hbb, String.ext h5⟩

/-- C4, refuted: argument tuples that differ and yet get the same signature. The
first pair moves a piece of text from the total amount to the transaction id,
the second differs in the total amount under the empty key, the third differs
in the key by a trailing zero byte. -/
theorem GenerateEsewaSignature_not_injective :
    (("1,transaction_uuid=2", "3", "4", "k") ≠ ("1", "2,transaction_uuid=3", "4", "k") ∧
      GenerateEsewaSignature "1,transaction_uuid=2" "3" "4" "k" =
        GenerateEsewaSignature "1" "2,transaction_uuid=3" "4" "k") ∧
    (("100", "241028", "EPAYTEST", "") ≠ ("110", "241028", "EPAYTEST", "") ∧
      GenerateEsewaSignature "100" "241028" "EPAYTEST" "" =
        GenerateEsewaSignature "110" "241028" "EPAYTEST" "") ∧
    (("100", "241028", "EPAYTEST", "k") ≠ ("100", "241028", "EPAYTEST", "k\x00") ∧
      GenerateEsewaSignature "100" "241028" "EPAYTEST" "k" =
        GenerateEsewaSignature "100" "241028" "EPAYTEST" "k\x00") := by
  refine ⟨⟨by decide, ?_⟩, ⟨by decide, ?_⟩, ⟨by decide, ?_⟩⟩
  · have hs : signatureString "1,transaction_uuid=2" "3" "4" =
        signatureString "1" "2,transaction_uuid=3" "4" := by decide
    rw [GenerateEsewaSignature_of_key _ _ _ _ (by decide),
      GenerateEsewaSignature_of_key _ _ _ _ (by decide), hs]
  · rw [GenerateEsewaSignature_empty_key, GenerateEsewaSignature_empty_key]
  · have hk : hmacNew (bytesOf "k") = hmacNew (bytesOf "k\x00") := by decide
    have e1 : ("k" == "") = false := by decide
    have e2 : ("k\x00" == "") = false := by decide
    simp only [GenerateEsewaSignature, e1, e2, hk]

/-- C4, amended: with a non-empty key `GenerateEsewaSignature` returns the encoded
HMAC of the canonical string of its three fields, so a value fixed by its four
arguments; and argument tuples whose total amount and transaction id hold no
comma and which differ in one of the three fields are signed over different
canonical strings. -/
theorem GenerateEsewaSignature_deterministic_and_fields_separated
    (totalAmount transactionUuid productCode totalAmount2 transactionUuid2 productCode2
      secretKey : String)
    (hkey : secretKey ≠ "")
    (h1 : ',' ∉ totalAmount.data) (h2 : ',' ∉ totalAmount2.data)
    (h3 : ',' ∉ transactionUuid.data) (h4 : ',' ∉ transactionUuid2.data)
    (hne : totalAmount ≠ totalAmount2 ∨ transactionUuid ≠ transactionUuid2 ∨
      productCode ≠ productCode2) :
    GenerateEsewaSignature totalAmount transactionUuid productCode secretKey =
        EncodeToString (hmacSHA256 (bytesOf secretKey)
          (bytesOf (canonicalString totalAmount transactionUuid productCode))) ∧
      GenerateEsewaSignature totalAmount2 transactionUuid2 productCode2 secretKey =
        EncodeToString (hmacSHA256 (bytesOf secretKey)
          (bytesOf (canonicalString totalAmount2 transactionUuid2 productCode2))) ∧
      canonicalString totalAmount transactionUuid productCode ≠
        canonicalString totalAmount2 transactionUuid2 productCode2 := by
  refine ⟨?_, ?_, fun h => ?_⟩
  · rw [GenerateEsewaSignature_of_key _ _ _ _ hkey, signatureString_eq_canonicalString]
  · rw [GenerateEsewaSignature_of_key _ _ _ _ hkey, signatureString_eq_canonicalString]
  · rw [← signatureString_eq_canonicalString, ← signatureString_eq_canonicalString] at h
    obtain ⟨e1, e2, e3⟩ := signatureString_inj _ _ _ _ _ _ h1 h2 h3 h4 h
    rcases hne with hne | hne | hne
    · exact hne e1
    · exact hne e2
    · exact hne e3

/-- C4, amended, at the two total amounts of the signature test, with the key of
the test: the two canonical strings differ, and here so do the signatures. -/
theorem GenerateEsewaSignature_deterministic_and_fields_separated_witness :
    (GenerateEsewaSignature "100" "241028" "EPAYTEST" "8gBm/:&EnhH.1/q(" =
        EncodeToString (hmacSHA256 (bytesOf "8gBm/:&EnhH.1/q(")
          (bytesOf (canonicalString "100" "241028" "EPAYTEST"))) ∧
      GenerateEsewaSignature "110" "241028" "EPAYTEST" "8gBm/:&EnhH.1/q(" =
        EncodeToString (hmacSHA256 (bytesOf "8gBm/:&EnhH.1/q(")
          (bytesOf (canonicalString "110" "241028" "EPAYTEST"))) ∧
      canonicalString "100" "241028" "EPAYTEST" ≠ canonicalString "110" "241028" "EPAYTEST") ∧
    GenerateEsewaSignature "100" "241028" "EPAYTEST" "8gBm/:&EnhH.1/q(" ≠
      GenerateEsewaSignature "110" "241028" "EPAYTEST" "8gBm/:&EnhH.1/q(" :=
  ⟨GenerateEsewaSignature_deterministic_and_fields_separated "100" "241028" "EPAYTEST" "110"
    "241028" "EPAYTEST" "8gBm/:&EnhH.1/q(" (by decide) (by decide) (by decide) (by decide)
    (by decide) (Or.inl (by decide)), by decide⟩

/-! ## Driver calls -/

@[simp] theorem step_payments (w : World) (e : Event) : (w.step e).payments = w.payments := rfl
@[simp] theorem step_orders (w : World) (e : Event) : (w.step e).orders = w.orders := rfl
@[simp] theorem step_products (w : World) (e : Event) : (w.step e).products = w.products := rfl
@[simp] theorem step_carts (w : World) (e : Event) : (w.step e).carts = w.carts := rfl
@[simp] theorem step_trace (w : World) (e : Event) : (w.step e).trace = w.trace ++ [e] := rfl
@[simp] theorem step_faults (w : World) (e : Event) : (w.step e).faults = w.faults.tail := rfl

theorem sameStores_refl (w : World) : w.sameStores w := ⟨rfl, rfl, rfl, rfl⟩

theorem sameStores_trans {a b c : World} (h1 : a.sameStores b) (h2 : b.sameStores c) :
    a.sameStores c :=
  ⟨h2.1.trans h1.1, h2.2.1.trans h1.2.1, h2.2.2.1.trans h1.2.2.1, h2.2.2.2.trans h1.2.2.2⟩

/-- The lookup of a payment changes no store. -/
theorem GetPaymentByTransactionUUID_sameStores (t : String) (w : World) :
    w.sameStores (GetPaymentByTransactionUUID t w).2 := by
  unfold GetPaymentByTransactionUUID
  repeat' (first | split | dsimp only)
  all_goals simp [World.sameStores]

/-- The lookup of a product changes no store. -/
theorem GetProductByID_sameStores (id : String) (w : World) :
    w.sameStores (GetProductByID id w).2 := by
  unfold GetProductByID
  repeat' (first | split | dsimp only)
  all_goals simp [World.sameStores]

/-- The availability check changes no store. -/
theorem CheckProductAvailability_sameStores (ids : List String) (w : World) :
    w.sameStores (CheckProductAvailability ids w).2 := by
  unfold CheckProductAvailability
  repeat' (first | split | dsimp only)
  all_goals simp [World.sameStores]

/-- The status write leaves orders, products and carts alone. -/
theorem UpdatePaymentStatus_frame (now : Time) (id : String) (s : PaymentStatus) (w : World) :
    (UpdatePaymentStatus now id s w).2.orders = w.orders ∧
      (UpdatePaymentStatus now id s w).2.products = w.products ∧
      (UpdatePaymentStatus now id s w).2.carts = w.carts := by
  unfold UpdatePaymentStatus
  repeat' (first | split | dsimp only)
  all_goals simp

/-- The stock write leaves payments, orders and carts alone. -/
theorem UpdateProductStock_frame (sid id : String) (n : Int) (w : World) :
    (UpdateProductStock sid id n w).2.payments = w.payments ∧
      (UpdateProductStock sid id n w).2.orders = w.orders ∧
      (UpdateProductStock sid id n w).2.carts = w.carts := by
  unfold UpdateProductStock
  repeat' (first | split | dsimp only)
  all_goals simp

/-- The order insert leaves payments, products and carts alone. -/
theorem CreateOrder_frame (o : Order) (w : World) :
    (CreateOrder o w).2.payments = w.payments ∧ (CreateOrder o w).2.products = w.products ∧
      (CreateOrder o w).2.carts = w.carts := by
  unfold CreateOrder
  repeat' (first | split | dsimp only)
  all_goals simp

/-- The cart deletion leaves payments, orders and products alone. -/
theorem ClearUserCart_frame (u : String) (w : World) :
    (ClearUserCart u w).2.payments = w.payments ∧ (ClearUserCart u w).2.orders = w.orders ∧
      (ClearUserCart u w).2.products = w.products := by
  unfold ClearUserCart
  repeat' (first | split | dsimp only)
  all_goals simp

/-- The payment insert leaves orders, products and carts alone. -/
theorem CreatePayment_frame (p : Payment) (w : World) :
    (CreatePayment p w).2.orders = w.orders ∧ (CreatePayment p w).2.products = w.products ∧
      (CreatePayment p w).2.carts = w.carts := by
  unfold CreatePayment
  repeat' (first | split | dsimp only)
  all_goals simp

/-- The loop that reads the products of a payment changes no store. -/
theorem orderItemsLoop_sameStores (ids : List String) :
    ∀ (acc : List ProductItem) (w : World), w.sameStores (orderItemsLoop ids acc w).2 := by
  induction ids with
  | nil => intro acc w; exact sameStores_refl w
  | cons id rest ih =>
    intro acc w
    unfold orderItemsLoop
    have h := GetProductByID_sameStores id w
    rcases hg : GetProductByID id w with ⟨r, w1⟩
    rw [hg] at h
    cases r with
    | error err => exact h
    | ok product => exact sameStores_trans h (ih _ w1)

/-- The stock decrease leaves payments, orders and carts alone, and returns no
error. -/
theorem decreaseProductStock_frame (items : List ProductItem) :
    ∀ w : World, (decreaseProductStock items w).1 = .ok () ∧
      (decreaseProductStock items w).2.payments = w.payments ∧
      (decreaseProductStock items w).2.orders = w.orders ∧
      (decreaseProductStock items w).2.carts = w.carts := by
  induction items with
  | nil => intro w; exact ⟨rfl, rfl, rfl, rfl⟩
  | cons item rest ih =>
    intro w
    unfold decreaseProductStock
    have h := GetProductByID_sameStores item.ProductID w
    rcases hg : GetProductByID item.ProductID w with ⟨r, w1⟩
    rw [hg] at h
    obtain ⟨h1, h2, -, h4⟩ := h
    cases r with
    | error err =>
      have := ih w1
      simp_all
    | ok product =>
      dsimp only
      split
      · have := ih w1
        simp_all
      · have hu := UpdateProductStock_frame product.SellerID item.ProductID
          (wrap64 (product.Stock - item.Quantity)) w1
        rcases hu2 : UpdateProductStock product.SellerID item.ProductID
          (wrap64 (product.Stock - item.Quantity)) w1 with ⟨r2, w2⟩
        rw [hu2] at hu
        have := ih w2
        simp_all

/-- The order creation leaves payments and carts alone. -/
theorem CreateOrderFromPayment_frame (env : Env) (p : Payment) (w : World) :
    (CreateOrderFromPayment env p w).2.payments = w.payments ∧
      (CreateOrderFromPayment env p w).2.carts = w.carts := by
  unfold CreateOrderFromPayment
  split
  · exact ⟨rfl, rfl⟩
  · have h := orderItemsLoop_sameStores p.ProductIDs [] w
    rcases hl : orderItemsLoop p.ProductIDs [] w with ⟨r, w1⟩
    rw [hl] at h
    cases r with
    | error err => exact ⟨h.1, h.2.2.2⟩
    | ok items =>
      dsimp only
      generalize newOrder env p items = o
      have hc := CreateOrder_frame o w1
      rcases hco : CreateOrder o w1 with ⟨r2, w2⟩
      rw [hco] at hc
      cases r2 with
      | error err => exact ⟨hc.1.trans h.1, hc.2.2.trans h.2.2.2⟩
      | ok u =>
        have hd := decreaseProductStock_frame items w2
        exact ⟨hd.2.1.trans (hc.1.trans h.1), hd.2.2.2.trans (hc.2.2.trans h.2.2.2)⟩

/-- A lookup by transaction id that matches no record. -/
theorem find?_transaction_none (t : String) (l : List Payment)
    (h : ∀ p ∈ l, p.TransactionUuid ≠ t) :
    l.find? (fun p => p.TransactionUuid == t) = none := by
  rw [List.find?_eq_none]
  intro p hp
  simpa using h p hp

/-- C9. If no payment record carries the transaction id,
`ProcessSuccessfulPayment` returns an error and no order, the four stores are
unchanged, and the only call made is the lookup of the payment: no status
update, no order insert, no stock update and no cart deletion. -/
theorem ProcessSuccessfulPayment_unknown_transaction (env : Env) (transactionUUID : String)
    (w : World) (h : ∀ p ∈ w.payments, p.TransactionUuid ≠ transactionUUID) :
    (∃ err, (ProcessSuccessfulPayment env transactionUUID w).1 = .error err) ∧
      (ProcessSuccessfulPayment env transactionUUID w).2.payments = w.payments ∧
      (ProcessSuccessfulPayment env transactionUUID w).2.orders = w.orders ∧
      (ProcessSuccessfulPayment env transactionUUID w).2.products = w.products ∧
      (ProcessSuccessfulPayment env transactionUUID w).2.carts = w.carts ∧
      (ProcessSuccessfulPayment env transactionUUID w).2.trace =
        w.trace ++ [Event.findPayment transactionUUID] := by
  have hf := find?_transaction_none transactionUUID w.payments h
  unfold ProcessSuccessfulPayment GetPaymentByTransactionUUID
  cases w.outcome with
  | some err => exact ⟨⟨_, rfl⟩, rfl, rfl, rfl, rfl, rfl⟩
  | none =>
    simp [hf]

/-- C9, on the example world, which holds no payment at all. -/
theorem ProcessSuccessfulPayment_unknown_transaction_witness :
    (∀ p ∈ exampleWorld.payments, p.TransactionUuid ≠ "250309-070559-01020") ∧
      ((∃ err, (ProcessSuccessfulPayment exampleEnv "250309-070559-01020" exampleWorld).1 =
          .error err) ∧
        (ProcessSuccessfulPayment exampleEnv "250309-070559-01020" exampleWorld).2.payments =
          exampleWorld.payments ∧
        (ProcessSuccessfulPayment exampleEnv "250309-070559-01020" exampleWorld).2.orders =
          exampleWorld.orders ∧
        (ProcessSuccessfulPayment exampleEnv "250309-070559-01020" exampleWorld).2.products =
          exampleWorld.products ∧
        (ProcessSuccessfulPayment exampleEnv "250309-070559-01020" exampleWorld).2.carts =
          exampleWorld.carts ∧
        (ProcessSuccessfulPayment exampleEnv "250309-070559-01020" exampleWorld).2.trace =
          exampleWorld.trace ++ [Event.findPayment "250309-070559-01020"]) :=
  ⟨by decide, ProcessSuccessfulPayment_unknown_transaction exampleEnv "250309-070559-01020"
    exampleWorld (by decide)⟩

/-! ## Settlement and the payment status -/

/-- After `UpdateOne`, the first document matching the filter is the rewritten
one, when rewriting keeps a document within the filter. -/
theorem find?_updateFirst_self {α : Type} (f : α → Bool) (g : α → α)
    (hg : ∀ d, f d = true → f (g d) = true) :
    ∀ (l : List α) (d : α), l.find? f = some d → (updateFirst f g l).find? f = some (g d)
  | [], d, h => by simp at h
  | x :: rest, d, h => by
    unfold updateFirst
    by_cases hx : f x = true
    · have hd : x = d := by simpa [List.find?, hx] using h
      subst hd
      simp [hx, List.find?, hg x hx]
    · have hr : rest.find? f = some d := by simpa [List.find?, hx] using h
      simp [hx, List.find?, find?_updateFirst_self f g hg rest d hr]

/-- The payments after a settlement whose lookup and status write go through:
the first record with the id of the record found is rewritten to `success`,
whatever happens afterwards. -/
theorem ProcessSuccessfulPayment_payments (env : Env) (t : String) (w : World) (p : Payment)
    (hlookup : w.outcome = none) (hwrite : (w.step (Event.findPayment t)).outcome = none)
    (hp : w.payments.find? (fun q => q.TransactionUuid == t) = some p) :
    (ProcessSuccessfulPayment env t w).2.payments =
      updateFirst (fun q => q.ID == p.ID) (setPaymentStatus env.now PaymentStatusSuccess)
        w.payments := by
  unfold ProcessSuccessfulPayment GetPaymentByTransactionUUID
  simp only [hlookup, step_payments, hp]
  unfold UpdatePaymentStatus
  simp only [hwrite, step_payments]
  generalize hw2 : ({ (w.step (Event.findPayment t)).step
    (Event.updatePaymentStatus p.ID PaymentStatusSuccess) with
      payments := updateFirst (fun q => q.ID == p.ID)
        (setPaymentStatus env.now PaymentStatusSuccess) w.payments } : World) = w2
  have hw2p : w2.payments = updateFirst (fun q => q.ID == p.ID)
      (setPaymentStatus env.now PaymentStatusSuccess) w.payments := by rw [← hw2]
  have hc := CreateOrderFromPayment_frame env p w2
  rcases hco : CreateOrderFromPayment env p w2 with ⟨r, w3⟩
  rw [hco] at hc
  cases r with
  | error err => exact hc.1.trans hw2p
  | ok order => exact ((ClearUserCart_frame p.UserId w3).1.trans hc.1).trans hw2p

/-- C8, refuted: a payment record whose status is `failed` is rewritten to
`success` by `ProcessSuccessfulPayment`. -/
theorem ProcessSuccessfulPayment_rewrites_failed :
    failedPaymentWorld.payments.map (fun p => (p.ID, p.Status)) = [("pay-9", "failed")] ∧
      (ProcessSuccessfulPayment exampleEnv "250309-070559-0A0B0" failedPaymentWorld).2.payments.map
        (fun p => (p.ID, p.Status)) = [("pay-9", "success")] := by
  decide

/-- C8, amended: when the lookup and the status write go through,
`ProcessSuccessfulPayment` leaves the record with the id of the payment found in
status `success`, whatever the status of the payment found was. -/
theorem ProcessSuccessfulPayment_sets_success (env : Env) (transactionUUID : String) (w : World)
    (payment : Payment) (hlookup : w.outcome = none)
    (hwrite : (w.step (Event.findPayment transactionUUID)).outcome = none)
    (hfound : w.payments.find? (fun q => q.TransactionUuid == transactionUUID) = some payment) :
    ((ProcessSuccessfulPayment env transactionUUID w).2.payments.find?
      (fun q => q.ID == payment.ID)).map (fun q => q.Status) = some PaymentStatusSuccess := by
  rw [ProcessSuccessfulPayment_payments env transactionUUID w payment hlookup hwrite hfound]
  have hmem : payment ∈ w.payments := List.mem_of_find?_eq_some hfound
  have hsome : (w.payments.find? (fun q => q.ID == payment.ID)).isSome := by
    rw [List.find?_isSome]
    exact ⟨payment, hmem, by simp⟩
  obtain ⟨d, hd⟩ := Option.isSome_iff_exists.mp hsome
  rw [find?_updateFirst_self _ _ (fun d h => by simpa [setPaymentStatus] using h) _ d hd]
  rfl

/-- C8, amended, on the failed payment of the example. -/
theorem ProcessSuccessfulPayment_sets_success_witness :
    failedPayment.Status = PaymentStatusFailed ∧
      ((ProcessSuccessfulPayment exampleEnv "250309-070559-0A0B0" failedPaymentWorld).2.payments.find?
        (fun q => q.ID == failedPayment.ID)).map (fun q => q.Status) = some PaymentStatusSuccess :=
  ⟨rfl, ProcessSuccessfulPayment_sets_success exampleEnv "250309-070559-0A0B0" failedPaymentWorld
    failedPayment (by decide) (by decide) (by decide)⟩

/-! ## Checkout: the amount of the payment record -/

/-- Values in the range of `int64` are left alone. -/
theorem wrap64_of_range (x : Int) (h1 : -9223372036854775808 ≤ x)
    (h2 : x ≤ 9223372036854775807) : wrap64 x = x := by
  unfold wrap64
  omega

/-- Reducing a summand first does not change the reduced sum. -/
theorem wrap64_add_wrap64 (a b : Int) : wrap64 (wrap64 a + wrap64 b) = wrap64 (a + b) := by
  unfold wrap64
  omega

theorem wrap64_add_wrap64_right (a b : Int) : wrap64 (a + wrap64 b) = wrap64 (a + b) := by
  unfold wrap64
  omega

theorem wrap64_wrap64 (a : Int) : wrap64 (wrap64 a) = wrap64 a := by
  unfold wrap64
  omega

/-- The loop of `InitiatePayment` computes the cart sum reduced to `int64`. -/
theorem wrap64_cartAmount (cartItems : List CartItem) :
    ∀ amount : Int, wrap64 (cartAmount cartItems amount) = wrap64 (amount + cartSum cartItems) := by
  induction cartItems with
  | nil => intro amount; simp [cartAmount, cartSum]
  | cons item rest ih =>
    intro amount
    unfold cartAmount
    rw [ih]
    simp only [cartSum, List.map_cons, List.sum_cons]
    generalize item.Price * item.Quantity = x
    generalize (List.map (fun item => item.Price * item.Quantity) rest).sum = y
    unfold wrap64
    omega

/-- The amount charged is the reduced cart sum, raised to 1 when below. -/
theorem chargedAmount_eq (cartItems : List CartItem) :
    chargedAmount cartItems = max 1 (wrap64 (cartSum cartItems)) := by
  have h := wrap64_cartAmount cartItems 0
  unfold chargedAmount
  simp only [Int.add_zero, wrap64_wrap64, Int.zero_add] at h ⊢
  rw [h]
  split <;> omega

/-- The payments after `CreatePayment`: unchanged, or the record added. -/
theorem CreatePayment_payments (p : Payment) (w : World) :
    (CreatePayment p w).2.payments = w.payments ∨
      (CreatePayment p w).2.payments = w.payments ++ [p] := by
  unfold CreatePayment
  repeat' (first | split | dsimp only)
  all_goals simp

/-- The payments after `InitiatePayment`: unchanged, or one record added, the
one built from the cart. -/
theorem InitiatePayment_payments (env : Env) (ctx : Ctx) (cartItems : List CartItem) (w : World) :
    (InitiatePayment env ctx cartItems w).2.payments = w.payments ∨
      ∃ userId, (InitiatePayment env ctx cartItems w).2.payments =
        w.payments ++ [newPaymentRecord env (chargedAmount cartItems) userId
          (buildPaymentData env cartItems) (cartItems.map (fun item => item.ID))] := by
  unfold InitiatePayment
  dsimp only
  have h := CheckProductAvailability_sameStores (cartItems.map (fun item => item.ID)) w
  rcases hc : CheckProductAvailability (cartItems.map (fun item => item.ID)) w with ⟨r, w1⟩
  rw [hc] at h ⊢
  cases r with
  | error err => exact Or.inl h.1
  | ok v =>
    obtain ⟨ps, available⟩ := v
    dsimp only at h ⊢
    split
    · exact Or.inl h.1
    · split
      · exact Or.inl h.1
      · split
        · exact Or.inl h.1
        · rename_i userId _ _ _
          have hp := CreatePayment_payments (newPaymentRecord env (chargedAmount cartItems) userId
            (buildPaymentData env cartItems) (cartItems.map (fun item => item.ID))) w1
          rcases hcp : CreatePayment (newPaymentRecord env (chargedAmount cartItems) userId
            (buildPaymentData env cartItems) (cartItems.map (fun item => item.ID))) w1 with ⟨r2, w2⟩
          rw [hcp] at hp ⊢
          rw [h.1] at hp
          have hfin : w2.payments = w.payments ∨ ∃ userId, w2.payments =
              w.payments ++ [newPaymentRecord env (chargedAmount cartItems) userId
                (buildPaymentData env cartItems) (cartItems.map (fun item => item.ID))] :=
            hp.imp id (fun h => ⟨userId, h⟩)
          cases r2 with
          | error err => exact hfin
          | ok u =>
            dsimp only
            repeat' (first | split | dsimp only)
            all_goals simpa using hfin

/-- C6, refuted: for a cart whose sum is 0 a payment record is created and its
amount is 1. -/
theorem InitiatePayment_amount_free_cart :
    cartSum freeCart = 0 ∧
      (InitiatePayment exampleEnv exampleCtx freeCart exampleWorld).2.payments.map
        (fun p => p.Amount) = [1] := by
  decide

/-- C6, amended: when `InitiatePayment` creates a payment record, its amount is
the larger of 1 and the sum over the cart of `Price × Quantity` reduced to
`int64`; it is that sum itself when the sum lies between 1 and `2^63 - 1`. -/
theorem InitiatePayment_amount (env : Env) (ctx : Ctx) (cartItems : List CartItem) (w : World)
    (p : Payment) (hcreated : (InitiatePayment env ctx cartItems w).2.payments = w.payments ++ [p]) :
    p.Amount = max 1 (wrap64 (cartSum cartItems)) ∧
      (1 ≤ cartSum cartItems → cartSum cartItems ≤ 9223372036854775807 →
        p.Amount = cartSum cartItems) := by
  have hA : p.Amount = max 1 (wrap64 (cartSum cartItems)) := by
    rcases InitiatePayment_payments env ctx cartItems w with h | ⟨userId, h⟩
    · rw [h] at hcreated
      have := congrArg List.length hcreated
      simp at this
    · rw [h] at hcreated
      have hp := List.append_cancel_left hcreated
      simp only [List.cons.injEq, and_true] at hp
      rw [← hp, ← chargedAmount_eq]
      rfl
  refine ⟨hA, fun h1 h2 => ?_⟩
  rw [hA, wrap64_of_range _ (by omega) h2]
  omega

/-- C6, amended, on the cart of the scenario: two units at 500 give 1000. -/
theorem InitiatePayment_amount_witness :
    (InitiatePayment exampleEnv exampleCtx exampleCart exampleWorld).2.payments =
        exampleWorld.payments ++ [newPaymentRecord exampleEnv 1000 "u1"
          (buildPaymentData exampleEnv exampleCart) ["p1"]] ∧
      (newPaymentRecord exampleEnv 1000 "u1" (buildPaymentData exampleEnv exampleCart)
          ["p1"]).Amount = max 1 (wrap64 (cartSum exampleCart)) ∧
      (1 ≤ cartSum exampleCart → cartSum exampleCart ≤ 9223372036854775807 →
        (newPaymentRecord exampleEnv 1000 "u1" (buildPaymentData exampleEnv exampleCart)
          ["p1"]).Amount = cartSum exampleCart) :=
  ⟨by decide, InitiatePayment_amount exampleEnv exampleCtx exampleCart exampleWorld _ (by decide)⟩

/-! ## Settlement when every driver call goes through -/

theorem outcome_quiet (w : World) (h : w.faults = []) : w.outcome = none := by
  simp [World.outcome, h]

theorem step_quiet (w : World) (e : Event) (h : w.faults = []) : (w.step e).faults = [] := by
  simp [h]

/-- A product lookup consumes scheduled outcomes only. -/
theorem GetProductByID_quiet (id : String) (w : World) (h : w.faults = []) :
    (GetProductByID id w).2.faults = [] := by
  unfold GetProductByID
  repeat' (first | split | dsimp only)
  all_goals simp [h]

/-- A product lookup that finds the product, when no failure is scheduled. -/
theorem GetProductByID_found (id : String) (w : World) (q : Product) (h : w.faults = [])
    (hq : w.products.find? (fun p => p.ID == id) = some q) :
    (GetProductByID id w).1 = .ok q := by
  unfold GetProductByID
  simp [outcome_quiet, h, World.outcome, hq]

/-- A stock write, when no failure is scheduled. -/
theorem UpdateProductStock_quiet (sid id : String) (n : Int) (w : World) (h : w.faults = []) :
    (UpdateProductStock sid id n w).2.faults = [] ∧
      (UpdateProductStock sid id n w).2.products =
        updateFirst (fun p => p.ID == id && p.SellerID == sid) (setStock n) w.products := by
  unfold UpdateProductStock
  simp [World.outcome, h]

/-- Rewriting documents by a function that keeps what a lookup tests and what an
observation reads does not change the observation of the lookup. -/
theorem find?_updateFirst_map {α β : Type} (q f : α → Bool) (g : α → α) (F : α → β)
    (hq : ∀ d, q (g d) = q d) (hF : ∀ d, F (g d) = F d) :
    ∀ l : List α, ((updateFirst f g l).find? q).map F = (l.find? q).map F
  | [] => rfl
  | x :: rest => by
    unfold updateFirst
    by_cases hx : f x = true
    · by_cases hqx : q x = true
      · simp [hx, List.find?, hq, hqx, hF]
      · simp [hx, List.find?, hq, hqx]
    · by_cases hqx : q x = true
      · simp [hx, List.find?, hqx]
      · simp [hx, List.find?, hqx, find?_updateFirst_map q f g F hq hF rest]

/-- The stock decrease, when no failure is scheduled: no failure is left
scheduled and every product keeps its id, seller and price. -/
theorem decreaseProductStock_quiet (items : List ProductItem) :
    ∀ w : World, w.faults = [] →
      (decreaseProductStock items w).2.faults = [] ∧
      ∀ id, ((decreaseProductStock items w).2.products.find? (fun p => p.ID == id)).map
          newOrderItem = (w.products.find? (fun p => p.ID == id)).map newOrderItem := by
  induction items with
  | nil => intro w h; exact ⟨h, fun _ => rfl⟩
  | cons item rest ih =>
    intro w h
    unfold decreaseProductStock
    have hs := GetProductByID_sameStores item.ProductID w
    have hf := GetProductByID_quiet item.ProductID w h
    rcases hg : GetProductByID item.ProductID w with ⟨r, w1⟩
    rw [hg] at hs hf
    have hprod : w1.products = w.products := hs.2.2.1
    cases r with
    | error err =>
      dsimp only
      rw [← hprod]
      exact ih w1 hf
    | ok product =>
      dsimp only
      split
      · rw [← hprod]
        exact ih w1 hf
      · have hu := UpdateProductStock_quiet product.SellerID item.ProductID
          (wrap64 (product.Stock - item.Quantity)) w1 hf
        rcases hu2 : UpdateProductStock product.SellerID item.ProductID
          (wrap64 (product.Stock - item.Quantity)) w1 with ⟨r2, w2⟩
        rw [hu2] at hu
        dsimp only at hu ⊢
        obtain ⟨ih1, ih2⟩ := ih w2 hu.1
        refine ⟨ih1, fun id => ?_⟩
        rw [ih2 id, hu.2, ← hprod]
        exact find?_updateFirst_map (fun p => p.ID == id) _
          (setStock (wrap64 (product.Stock - item.Quantity))) newOrderItem (fun d => rfl)
          (fun d => rfl) _

/-- The loop over the product ids of a payment, when no failure is scheduled and
every id is in the catalog: it returns the catalog lines of the ids. -/
theorem orderItemsLoop_quiet (ids : List String) :
    ∀ (acc : List ProductItem) (w : World), w.faults = [] →
      (∀ id ∈ ids, (w.products.find? (fun p => p.ID == id)).isSome) →
      (orderItemsLoop ids acc w).1 = .ok (acc ++ catalogLines w.products ids) ∧
        (orderItemsLoop ids acc w).2.faults = [] := by
  induction ids with
  | nil => intro acc w h _; simp [orderItemsLoop, catalogLines, h]
  | cons id rest ih =>
    intro acc w h hex
    obtain ⟨q, hq⟩ := Option.isSome_iff_exists.mp (hex id (List.mem_cons_self _ _))
    have hs := GetProductByID_sameStores id w
    have hf := GetProductByID_quiet id w h
    have hr := GetProductByID_found id w q h hq
    unfold orderItemsLoop
    rcases hg : GetProductByID id w with ⟨r, w1⟩
    rw [hg] at hs hf hr
    dsimp only at hs hf hr ⊢
    subst hr
    have hprod : w1.products = w.products := hs.2.2.1
    have hex1 : ∀ id' ∈ rest, (w1.products.find? (fun p => p.ID == id')).isSome := by
      intro id' hid'
      rw [hprod]
      exact hex id' (List.mem_cons_of_mem _ hid')
    have := ih (acc ++ [newOrderItem q]) w1 hf hex1
    rw [hprod] at this
    simpa [catalogLines, hq] using this

/-- The order insert, when no failure is scheduled and the id is new. -/
theorem CreateOrder_quiet (o : Order) (w : World) (h : w.faults = [])
    (hfresh : ∀ o' ∈ w.orders, o'.ID ≠ o.ID) :
    (CreateOrder o w).1 = .ok () ∧ (CreateOrder o w).2.orders = w.orders ++ [o] ∧
      (CreateOrder o w).2.faults = [] := by
  have hany : (w.orders.any fun o' => o'.ID == o.ID) = false := by
    rw [List.any_eq_false]
    intro o' ho'
    simpa using hfresh o' ho'
  unfold CreateOrder
  simp [World.outcome, h, hany]

/-- The order creation, when no failure is scheduled, the payment has product
ids, all in the catalog, and the order id is new: the order built from the
catalog lines is returned and added; the stock decrease runs on those lines. -/
theorem CreateOrderFromPayment_quiet (env : Env) (p : Payment) (w : World) (h : w.faults = [])
    (hne : p.ProductIDs ≠ [])
    (hex : ∀ id ∈ p.ProductIDs, (w.products.find? (fun q => q.ID == id)).isSome)
    (hfresh : ∀ o ∈ w.orders, o.ID ≠ env.newUUID) :
    (CreateOrderFromPayment env p w).1 =
        .ok (newOrder env p (catalogLines w.products p.ProductIDs)) ∧
      (CreateOrderFromPayment env p w).2.orders =
        w.orders ++ [newOrder env p (catalogLines w.products p.ProductIDs)] ∧
      (CreateOrderFromPayment env p w).2.faults = [] ∧
      ∃ wm : World, wm.faults = [] ∧ wm.products = w.products ∧
        (CreateOrderFromPayment env p w).2.products =
          (decreaseProductStock (catalogLines w.products p.ProductIDs) wm).2.products := by
  have hlen : (p.ProductIDs.length == 0) = false := by
    cases hp : p.ProductIDs with
    | nil => exact absurd hp hne
    | cons a b => rfl
  have hl := orderItemsLoop_quiet p.ProductIDs [] w h hex
  have hls := orderItemsLoop_sameStores p.ProductIDs [] w
  unfold CreateOrderFromPayment
  rcases hloop : orderItemsLoop p.ProductIDs [] w with ⟨r, w1⟩
  rw [hloop] at hl hls
  dsimp only at hl hls
  obtain ⟨hl1, hl2⟩ := hl
  rw [List.nil_append] at hl1
  subst hl1
  have hfresh1 : ∀ o ∈ w1.orders,
      o.ID ≠ (newOrder env p (catalogLines w.products p.ProductIDs)).ID := by
    rw [hls.2.1]
    exact hfresh
  have hc := CreateOrder_quiet (newOrder env p (catalogLines w.products p.ProductIDs)) w1 hl2
    hfresh1
  have hcf := CreateOrder_frame (newOrder env p (catalogLines w.products p.ProductIDs)) w1
  rcases hco : CreateOrder (newOrder env p (catalogLines w.products p.ProductIDs)) w1 with
    ⟨r2, w2⟩
  rw [hco] at hc hcf
  dsimp only at hc hcf
  obtain ⟨hc1, hc2, hc3⟩ := hc
  subst hc1
  simp only [hlen, Bool.false_eq_true, if_false, hco]
  have hd := decreaseProductStock_frame (catalogLines w.products p.ProductIDs) w2
  have hdq := decreaseProductStock_quiet (catalogLines w.products p.ProductIDs) w2 hc3
  refine ⟨trivial, ?_, hdq.1, w2, hc3, hcf.2.1.trans hls.2.2.1, rfl⟩
  rw [hd.2.2.1, hc2, hls.2.1]

/-- After `UpdateOne`, a lookup that tests something else than the filter and
that the rewriting keeps is unchanged. -/
theorem find?_updateFirst_other {α : Type} (q f : α → Bool) (g : α → α)
    (hfq : ∀ d, f d = true → q d = false) (hq : ∀ d, q (g d) = q d) :
    ∀ l : List α, (updateFirst f g l).find? q = l.find? q
  | [] => rfl
  | x :: rest => by
    unfold updateFirst
    by_cases hx : f x = true
    · simp [hx, List.find?, hq, hfq x hx]
    · by_cases hqx : q x = true
      · simp [hx, List.find?, hqx]
      · simp [hx, List.find?, hqx, find?_updateFirst_other q f g hfq hq rest]

/-- After `UpdateOne` with a filter narrower than the lookup, the document the
lookup finds is the rewritten one when the filter accepts it. -/
theorem find?_updateFirst_hit {α : Type} (q f : α → Bool) (g : α → α)
    (hfq : ∀ d, f d = true → q d = true) (hq : ∀ d, q (g d) = q d) :
    ∀ (l : List α) (d : α), l.find? q = some d → f d = true →
      (updateFirst f g l).find? q = some (g d)
  | [], d, h, _ => by simp at h
  | x :: rest, d, h, hfd => by
    unfold updateFirst
    by_cases hqx : q x = true
    · have hd : x = d := by simpa [List.find?, hqx] using h
      subst hd
      simp [hfd, List.find?, hq, hqx]
    · have hfx : ¬ f x = true := fun hfx => hqx (hfq x hfx)
      have hr : rest.find? q = some d := by simpa [List.find?, hqx] using h
      simp [hfx, List.find?, hqx, find?_updateFirst_hit q f g hfq hq rest d hr hfd]

/-- With the secret key unset the test `signature == ""` of `InitiatePayment` is
false, whatever the three fields are. -/
theorem GenerateEsewaSignature_empty_key_not_empty (a b c : String) :
    (GenerateEsewaSignature a b c "" == "") = false := by
  rw [GenerateEsewaSignature_empty_key]
  decide

/-- C5: with the secret key unset, `GenerateEsewaSignature` returns its
non-empty message, which `InitiatePayment` does not take for a failure: on the
cart of the scenario it returns a URL, creates the payment record and posts the
form with the message in the place of the signature. -/
theorem InitiatePayment_empty_secret_key_proceeds :
    emptyKeyEnv.cfg.EsewaSecretKey = "" ∧
    GenerateEsewaSignature "1000" "250309-070559-01020" "EPAYTEST" "" =
      "ESEWA_SECRET_KEY is required" ∧
    (InitiatePayment emptyKeyEnv exampleCtx exampleCart exampleWorld).1 =
      .ok "https://gateway.example/pay" ∧
    (InitiatePayment emptyKeyEnv exampleCtx exampleCart exampleWorld).2.payments.map
      (fun p => (p.ID, p.Amount, p.Status)) = [("pay-1", 1000, "pending")] ∧
    postedBodies (InitiatePayment emptyKeyEnv exampleCtx exampleCart exampleWorld).2.trace =
      ["amount=1000&failure_url=https%3A%2F%2Fshop.example%2Fproducts%2Fcheckout%2Fpayment%2Ffailed" ++
        "&product_code=EPAYTEST&product_delivery_charge=0&product_service_charge=0" ++
        "&signature=ESEWA_SECRET_KEY+is+required" ++
        "&signed_field_names=total_amount%2Ctransaction_uuid%2Cproduct_code" ++
        "&success_url=https%3A%2F%2Fshop.example%2Fproducts%2Fcheckout%2Fpayment%2Fsuccess" ++
        "&tax_amount=0&total_amount=1000&transaction_uuid=250309-070559-01020"] := by
  decide

/-- C7: settling the payment initiated from the cart of the scenario (two units
of `p1` at 500, amount 1000) creates an order of amount 1000 whose only line has
quantity 1, and takes the stock of `p1` from 10 to 9. -/
theorem settlement_scenario_orders_one_unit :
    (exampleCart.map (fun item => (item.ID, item.SellerID, item.Quantity, item.Price)) =
        [("p1", "s1", 2, 500)] ∧
      exampleWorld.products.map (fun q => (q.ID, q.Stock)) = [("p1", 10)]) ∧
    (InitiatePayment exampleEnv exampleCtx exampleCart exampleWorld).2.payments.map
      (fun p => (p.Amount, p.TransactionUuid, p.Status)) =
        [(1000, "250309-070559-01020", "pending")] ∧
    (ProcessSuccessfulPayment settleEnv1 "250309-070559-01020"
      (InitiatePayment exampleEnv exampleCtx exampleCart exampleWorld).2).1 =
        .ok { ID := "order-1", User := "u1", Amount := 1000,
              Products := [{ ProductID := "p1", SellerID := "s1", Quantity := 1, Price := 500 }],
              TransactionID := "250309-070559-01020", Status := "created",
              CreatedAt := exampleTime, UpdatedAt := exampleTime } ∧
    (ProcessSuccessfulPayment settleEnv1 "250309-070559-01020"
      (InitiatePayment exampleEnv exampleCtx exampleCart exampleWorld).2).2.products.map
        (fun q => (q.ID, q.Stock)) = [("p1", 9)] := by
  decide

/-- C10: for a cart whose only product id is absent from the catalog, the
availability check answers `true` and `InitiatePayment` returns a URL and
creates the payment record. -/
theorem InitiatePayment_absent_product_proceeds :
    (∀ q ∈ exampleWorld.products, q.ID ≠ "ghost") ∧
    (CheckProductAvailability ["ghost"] exampleWorld).1 = .ok ([], true) ∧
    (InitiatePayment exampleEnv exampleCtx ghostCart exampleWorld).1 =
      .ok "https://gateway.example/pay" ∧
    (InitiatePayment exampleEnv exampleCtx ghostCart exampleWorld).2.payments.map
      (fun p => (p.ID, p.ProductIDs, p.Status)) = [("pay-1", ["ghost"], "pending")] := by
  decide

/-! ## Checkout with an empty cart -/

/-- C11. `CheckProductAvailability` returns an error for an empty id list and
leaves the world as it is, trace included: the catalog is not queried. So
`InitiatePayment` on an empty cart returns an error with the empty URL and leaves
the world as it is: no payment record is created and no call is made. -/
theorem InitiatePayment_empty_cart (env : Env) (ctx : Ctx) (w : World) :
    CheckProductAvailability [] w = (.error "product IDs cannot be nil or empty", w) ∧
      InitiatePayment env ctx [] w = (.error "product IDs cannot be nil or empty", w) ∧
      returnedURL (InitiatePayment env ctx [] w).1 = "" ∧
      (InitiatePayment env ctx [] w).2.payments = w.payments ∧
      (InitiatePayment env ctx [] w).2.trace = w.trace := by
  have h1 : CheckProductAvailability [] w = (.error "product IDs cannot be nil or empty", w) := rfl
  have h2 : InitiatePayment env ctx [] w = (.error "product IDs cannot be nil or empty", w) := rfl
  refine ⟨h1, h2, ?_, ?_, ?_⟩
  · rw [h2]
    rfl
  · rw [h2]
  · rw [h2]

/-! ## The transaction identifier -/

/-- The decimal digit characters are digits. -/
theorem digitChar_isDigit : ∀ k, k < 10 → (Nat.digitChar k).isDigit = true := by
  decide

/-- The upper-case hexadecimal digits are letters or digits. -/
theorem hexDigitUpper_isAlphanum : ∀ k, k < 16 → (hexDigitUpper k).isAlphanum = true := by
  decide

/-- The two characters printed for a calendar field are digits. -/
theorem twoDigits_isDigit (n : Nat) : ∀ c ∈ twoDigits n, c.isDigit = true := by
  intro c hc
  simp only [twoDigits, List.mem_cons, List.mem_singleton, List.not_mem_nil, or_false] at hc
  rcases hc with hc | hc
  · rw [hc]
    exact digitChar_isDigit _ (Nat.mod_lt _ (by decide))
  · rw [hc]
    exact digitChar_isDigit _ (Nat.mod_lt _ (by decide))

/-- A digit is a letter or a digit. -/
theorem isAlphanum_of_isDigit (c : Char) (h : c.isDigit = true) : c.isAlphanum = true := by
  simp [Char.isAlphanum, h]

/-- The characters of the identifier, for three random bytes. -/
theorem GenerateEsewaTransactionUUID_data (now : Time) (b0 b1 b2 : Nat) :
    (GenerateEsewaTransactionUUID now [b0, b1, b2]).data =
      (twoDigits now.year ++ twoDigits now.month ++ twoDigits now.day) ++ '-' ::
        ((twoDigits now.hour ++ twoDigits now.minute ++ twoDigits now.second) ++ '-' ::
          [hexDigitUpper (b0 / 16 % 16), hexDigitUpper (b0 % 16), hexDigitUpper (b1 / 16 % 16),
           hexDigitUpper (b1 % 16), hexDigitUpper (b2 / 16 % 16)]) := by
  simp [GenerateEsewaTransactionUUID, Sprintf, sprintfChars, formatDate, formatTime,
    formatHexUpper5]

/-- C20. For every clock reading and every value of the three random bytes,
`GenerateEsewaTransactionUUID` returns 19 characters: the six digits of the date
(two each for year, month and day), a hyphen, the six digits of the time (hour,
minute, second), a hyphen, and five characters that are the first five
upper-case hexadecimal digits of the three bytes; every character is a letter, a
digit or a hyphen. -/
theorem GenerateEsewaTransactionUUID_shape (now : Time) (b0 b1 b2 : Nat) :
    (GenerateEsewaTransactionUUID now [b0, b1, b2]).data =
        (twoDigits now.year ++ twoDigits now.month ++ twoDigits now.day) ++ '-' ::
          ((twoDigits now.hour ++ twoDigits now.minute ++ twoDigits now.second) ++ '-' ::
            [hexDigitUpper (b0 / 16 % 16), hexDigitUpper (b0 % 16), hexDigitUpper (b1 / 16 % 16),
             hexDigitUpper (b1 % 16), hexDigitUpper (b2 / 16 % 16)]) ∧
      (GenerateEsewaTransactionUUID now [b0, b1, b2]).length = 19 ∧
      (∀ c ∈ twoDigits now.year ++ twoDigits now.month ++ twoDigits now.day, c.isDigit = true) ∧
      (∀ c ∈ twoDigits now.hour ++ twoDigits now.minute ++ twoDigits now.second,
        c.isDigit = true) ∧
      (∀ c ∈ [hexDigitUpper (b0 / 16 % 16), hexDigitUpper (b0 % 16), hexDigitUpper (b1 / 16 % 16),
        hexDigitUpper (b1 % 16), hexDigitUpper (b2 / 16 % 16)], c.isAlphanum = true) ∧
      ∀ c ∈ (GenerateEsewaTransactionUUID now [b0, b1, b2]).data,
        c.isAlphanum = true ∨ c = '-' := by
  have hdate : ∀ c ∈ twoDigits now.year ++ twoDigits now.month ++ twoDigits now.day,
      c.isDigit = true := by
    intro c hc
    simp only [List.mem_append] at hc
    rcases hc with (hc | hc) | hc <;> exact twoDigits_isDigit _ c hc
  have htime : ∀ c ∈ twoDigits now.hour ++ twoDigits now.minute ++ twoDigits now.second,
      c.isDigit = true := by
    intro c hc
    simp only [List.mem_append] at hc
    rcases hc with (hc | hc) | hc <;> exact twoDigits_isDigit _ c hc
  have hrand : ∀ c ∈ [hexDigitUpper (b0 / 16 % 16), hexDigitUpper (b0 % 16),
      hexDigitUpper (b1 / 16 % 16), hexDigitUpper (b1 % 16), hexDigitUpper (b2 / 16 % 16)],
      c.isAlphanum = true := by
    intro c hc
    simp only [List.mem_cons, List.mem_singleton, List.not_mem_nil, or_false] at hc
    rcases hc with hc | hc | hc | hc | hc <;> rw [hc] <;>
      exact hexDigitUpper_isAlphanum _ (Nat.mod_lt _ (by decide))
  refine ⟨GenerateEsewaTransactionUUID_data now b0 b1 b2, ?_, hdate, htime, hrand, ?_⟩
  · show (GenerateEsewaTransactionUUID now [b0, b1, b2]).data.length = 19
    rw [GenerateEsewaTransactionUUID_data]
    simp [twoDigits]
  · intro c hc
    rw [GenerateEsewaTransactionUUID_data] at hc
    rcases List.mem_append.mp hc with hc | hc
    · exact Or.inl (isAlphanum_of_isDigit c (hdate c hc))
    · rcases List.mem_cons.mp hc with hc | hc
      · exact Or.inr hc
      · rcases List.mem_append.mp hc with hc | hc
        · exact Or.inl (isAlphanum_of_isDigit c (htime c hc))
        · rcases List.mem_cons.mp hc with hc | hc
          · exact Or.inr hc
          · exact Or.inl (hrand c hc)

/-! ## The form posted to the gateway -/

/-- The keys of the form in the order of the calls of `Set`: the eleven fields. -/
theorem buildForm_keys (paymentData : PaymentData) (signature : String) :
    (buildForm paymentData signature).map (fun kv => kv.1) =
      ["amount", "tax_amount", "product_service_charge", "product_delivery_charge",
       "total_amount", "transaction_uuid", "product_code", "success_url", "failure_url",
       "signed_field_names", "signature"] := by
  rfl

/-- C18: the body posted to the gateway holds the eleven fields, each once, but
`Values.Encode` writes them sorted by key, not in the order of the calls of
`Set`: `amount`, `failure_url`, `product_code`, `product_delivery_charge`,
`product_service_charge`, `signature`, `signed_field_names`, `success_url`,
`tax_amount`, `total_amount`, `transaction_uuid`. -/
theorem gateway_body_fields_sorted (paymentData : PaymentData) (signature : String) :
    Values.Encode (buildForm paymentData signature) =
      "&".intercalate
        ["amount=" ++ QueryEscape paymentData.Amount,
         "failure_url=" ++ QueryEscape paymentData.FailureURL,
         "product_code=" ++ QueryEscape paymentData.ProductCode,
         "product_delivery_charge=" ++ QueryEscape paymentData.ProductDeliveryCharge,
         "product_service_charge=" ++ QueryEscape paymentData.ProductServiceCharge,
         "signature=" ++ QueryEscape signature,
         "signed_field_names=" ++ QueryEscape paymentData.SignedFieldNames,
         "success_url=" ++ QueryEscape paymentData.SuccessURL,
         "tax_amount=" ++ QueryEscape paymentData.TaxAmount,
         "total_amount=" ++ QueryEscape paymentData.TotalAmount,
         "transaction_uuid=" ++ QueryEscape paymentData.TransactionUUID] := by
  have hs : sortByKey (buildForm paymentData signature) =
      [("amount", paymentData.Amount), ("failure_url", paymentData.FailureURL),
       ("product_code", paymentData.ProductCode),
       ("product_delivery_charge", paymentData.ProductDeliveryCharge),
       ("product_service_charge", paymentData.ProductServiceCharge),
       ("signature", signature), ("signed_field_names", paymentData.SignedFieldNames),
       ("success_url", paymentData.SuccessURL), ("tax_amount", paymentData.TaxAmount),
       ("total_amount", paymentData.TotalAmount),
       ("transaction_uuid", paymentData.TransactionUUID)] := by
    rfl
  have hk : ∀ k : String, k ∈ ["amount", "failure_url", "product_code", "product_delivery_charge",
      "product_service_charge", "signature", "signed_field_names", "success_url", "tax_amount",
      "total_amount", "transaction_uuid"] → QueryEscape k = k := by
    decide
  unfold Values.Encode
  rw [hs]
  simp only [List.map]
  rw [hk "amount" (by decide), hk "failure_url" (by decide), hk "product_code" (by decide),
    hk "product_delivery_charge" (by decide), hk "product_service_charge" (by decide),
    hk "signature" (by decide), hk "signed_field_names" (by decide), hk "success_url" (by decide),
    hk "tax_amount" (by decide), hk "total_amount" (by decide), hk "transaction_uuid" (by decide)]
  simp [String.append_assoc]

/-! ## The calls made by a checkout -/

/-- The four ways `CheckProductAvailability` ends. -/
theorem CheckProductAvailability_cases (ids : List String) (w : World) :
    CheckProductAvailability ids w = (.error "product IDs cannot be nil or empty", w) ∨
      (∃ err, CheckProductAvailability ids w = (.error err, w.step (.findProducts ids))) ∨
      (∃ err, CheckProductAvailability ids w =
        (.error err, (w.step (.findProducts ids)).step .decodeProducts)) ∨
      CheckProductAvailability ids w =
        (.ok (w.products.filter (fun p => ids.contains p.ID), true),
          (w.step (.findProducts ids)).step .decodeProducts) := by
  unfold CheckProductAvailability
  repeat' (first | split | dsimp only)
  · exact Or.inl rfl
  · exact Or.inr (Or.inl ⟨_, rfl⟩)
  · exact Or.inr (Or.inr (Or.inl ⟨_, rfl⟩))
  · exact Or.inr (Or.inr (Or.inr rfl))

/-- The two ways `CreatePayment` ends. -/
theorem CreatePayment_cases (p : Payment) (w : World) :
    (∃ err, CreatePayment p w = (.error err, w.step (.insertPayment p))) ∨
      CreatePayment p w =
        (.ok (), { w.step (.insertPayment p) with payments := w.payments ++ [p] }) := by
  unfold CreatePayment
  repeat' (first | split | dsimp only)
  · exact Or.inl ⟨_, rfl⟩
  · exact Or.inl ⟨_, rfl⟩
  · exact Or.inr rfl

/-- The payment insert, when no failure is scheduled and the id is new. -/
theorem CreatePayment_quiet (p : Payment) (w : World) (h : w.faults = [])
    (hfresh : ∀ q ∈ w.payments, q.ID ≠ p.ID) :
    CreatePayment p w =
      (.ok (), { w.step (.insertPayment p) with payments := w.payments ++ [p] }) := by
  have hany : (w.payments.any fun q => q.ID == p.ID) = false := by
    rw [List.any_eq_false]
    intro q hq
    simpa using hfresh q hq
  unfold CreatePayment
  simp [World.outcome, h, hany]

/-- A run of `InitiatePayment`: its calls are a prefix of the calls of a full
run, reaching the insert of the payment record once the availability, signature
and user checks are passed; the payments are unchanged or extended by the record
built from the cart, extended for sure when the checks are passed, no failure is
scheduled and the id of the record is new; orders and products are unchanged. -/
theorem InitiatePayment_run (env : Env) (ctx : Ctx) (cartItems : List CartItem) (w : World) :
    ∃ n, (InitiatePayment env ctx cartItems w).2.trace =
        w.trace ++ (checkoutCalls env ctx cartItems).take n ∧
      ((InitiatePayment env ctx cartItems w).2.payments = w.payments ∨
        (InitiatePayment env ctx cartItems w).2.payments =
          w.payments ++ [newPaymentRecord env (chargedAmount cartItems)
            (GetUserFromContext ctx).1 (buildPaymentData env cartItems)
            (cartItems.map (fun item => item.ID))]) ∧
      (InitiatePayment env ctx cartItems w).2.orders = w.orders ∧
      (InitiatePayment env ctx cartItems w).2.products = w.products ∧
      ((∃ found, (CheckProductAvailability (cartItems.map (fun item => item.ID)) w).1 =
            .ok (found, true)) →
        GenerateEsewaSignature (buildPaymentData env cartItems).TotalAmount
          (buildPaymentData env cartItems).TransactionUUID
          (buildPaymentData env cartItems).ProductCode env.cfg.EsewaSecretKey ≠ "" →
        (GetUserFromContext ctx).2.2.2 = true →
        3 ≤ n ∧ (w.faults = [] → (∀ q ∈ w.payments, q.ID ≠ env.newUUID) →
          (InitiatePayment env ctx cartItems w).2.payments =
            w.payments ++ [newPaymentRecord env (chargedAmount cartItems)
              (GetUserFromContext ctx).1 (buildPaymentData env cartItems)
              (cartItems.map (fun item => item.ID))])) := by
  unfold InitiatePayment
  dsimp only
  rcases CheckProductAvailability_cases (cartItems.map (fun item => item.ID)) w with
    h | ⟨err, h⟩ | ⟨err, h⟩ | h
  · rw [h]
    exact ⟨0, by simp, Or.inl rfl, rfl, rfl, fun ⟨f, hf⟩ => by simp at hf⟩
  · rw [h]
    exact ⟨1, by simp [checkoutCalls], Or.inl rfl, rfl, rfl, fun ⟨f, hf⟩ => by simp at hf⟩
  · rw [h]
    exact ⟨2, by simp [checkoutCalls], Or.inl rfl, rfl, rfl, fun ⟨f, hf⟩ => by simp at hf⟩
  · rw [h]
    dsimp only
    split
    · rename_i hav
      simp at hav
    · split
      · rename_i hsig
        exact ⟨2, by simp [checkoutCalls], Or.inl rfl, rfl, rfl,
          fun _ hs _ => absurd (by simpa using hsig) hs⟩
      · split
        · rename_i a b c hu
          exact ⟨2, by simp [checkoutCalls], Or.inl rfl, rfl, rfl,
            fun _ _ hus => by rw [hu] at hus; simp at hus⟩
        · rename_i userId a b hu
          have hu1 : (GetUserFromContext ctx).1 = userId := by rw [hu]
          rw [hu1]
          rcases CreatePayment_cases (newPaymentRecord env (chargedAmount cartItems) userId
            (buildPaymentData env cartItems) (cartItems.map (fun item => item.ID)))
            ((w.step (.findProducts (cartItems.map (fun item => item.ID)))).step .decodeProducts)
            with ⟨err, hc⟩ | hc
          · rw [hc]
            refine ⟨3, by simp [checkoutCalls, hu1], Or.inl rfl, rfl, rfl,
              fun _ _ _ => ⟨Nat.le_refl 3, fun hq hfresh => ?_⟩⟩
            have hok := CreatePayment_quiet (newPaymentRecord env (chargedAmount cartItems) userId
              (buildPaymentData env cartItems) (cartItems.map (fun item => item.ID)))
              ((w.step (.findProducts (cartItems.map (fun item => item.ID)))).step
                .decodeProducts) (by simp [hq]) (by simpa [newPaymentRecord] using hfresh)
            rw [hok] at hc
            simp at hc
          · rw [hc]
            dsimp only
            repeat' (first | split | dsimp only)
            all_goals first
              | (refine ⟨4, ?_, Or.inr (by simp), rfl, rfl,
                  fun _ _ _ => ⟨by decide, fun _ _ => by simp⟩⟩
                 simp [checkoutCalls, hu1, gatewayForm]
                 done)
              | (refine ⟨5, ?_, Or.inr (by simp), rfl, rfl,
                  fun _ _ _ => ⟨by decide, fun _ _ => by simp⟩⟩
                 simp [checkoutCalls, hu1, gatewayForm])

/-- The bodies posted in a trace, piece by piece. -/
theorem postedBodies_append (a b : List Event) :
    postedBodies (a ++ b) = postedBodies a ++ postedBodies b := by
  induction a with
  | nil => rfl
  | cons e rest ih => cases e <;> simp [postedBodies, ih]

/-- The payments inserted in a trace, piece by piece. -/
theorem insertedPayments_append (a b : List Event) :
    insertedPayments (a ++ b) = insertedPayments a ++ insertedPayments b := by
  induction a with
  | nil => rfl
  | cons e rest ih => cases e <;> simp [insertedPayments, ih]

/-- The order and stock writes of a trace, piece by piece. -/
theorem orderAndStockWrites_append (a b : List Event) :
    orderAndStockWrites (a ++ b) = orderAndStockWrites a ++ orderAndStockWrites b := by
  induction a with
  | nil => rfl
  | cons e rest ih => cases e <;> simp [orderAndStockWrites, ih]

/-- C19. In the form that `InitiatePayment` builds, `signed_field_names` is the
literal `total_amount,transaction_uuid,product_code` and `signature` is
`GenerateEsewaSignature` of the values of `total_amount`, `transaction_uuid` and
`product_code` of the same form, with the configured secret key; and whatever
`InitiatePayment` posts to the gateway is the encoding of that form. -/
theorem gateway_payload_signature (env : Env) (ctx : Ctx) (cartItems : List CartItem)
    (w : World) :
    Values.Get (gatewayForm env cartItems) "signed_field_names" =
        "total_amount,transaction_uuid,product_code" ∧
      Values.Get (gatewayForm env cartItems) "signature" =
        GenerateEsewaSignature (Values.Get (gatewayForm env cartItems) "total_amount")
          (Values.Get (gatewayForm env cartItems) "transaction_uuid")
          (Values.Get (gatewayForm env cartItems) "product_code") env.cfg.EsewaSecretKey ∧
      (postedBodies (InitiatePayment env ctx cartItems w).2.trace = postedBodies w.trace ∨
        postedBodies (InitiatePayment env ctx cartItems w).2.trace =
          postedBodies w.trace ++ [Values.Encode (gatewayForm env cartItems)]) := by
  refine ⟨rfl, rfl, ?_⟩
  obtain ⟨n, hn, -⟩ := InitiatePayment_run env ctx cartItems w
  rw [hn, postedBodies_append]
  rcases n with _ | _ | _ | _ | _ | n
  · exact Or.inl (by simp [checkoutCalls, postedBodies])
  · exact Or.inl (by simp [checkoutCalls, postedBodies])
  · exact Or.inl (by simp [checkoutCalls, postedBodies])
  · exact Or.inl (by simp [checkoutCalls, postedBodies])
  · exact Or.inr (by simp [checkoutCalls, postedBodies])
  · exact Or.inr (by simp [checkoutCalls, postedBodies])

/-- C13. When `InitiatePayment` passes the availability, signature and user
checks, it hands exactly one payment record to the payment store, with status
`pending`, the ids of the cart items in cart order as `ProductIDs` and the
`transaction_uuid` of the gateway form as `TransactionUuid`; the payments are
then the former ones, followed by that record once the insert is accepted (as it
is when no failure is scheduled and the id is new); the orders and the products
are unchanged and no write to the order store nor stock update is made. -/
theorem InitiatePayment_creates_one_pending_record (env : Env) (ctx : Ctx)
    (cartItems : List CartItem) (w : World)
    (havailable : ∃ found, (CheckProductAvailability (cartItems.map (fun item => item.ID)) w).1 =
      .ok (found, true))
    (hsignature : GenerateEsewaSignature (buildPaymentData env cartItems).TotalAmount
      (buildPaymentData env cartItems).TransactionUUID
      (buildPaymentData env cartItems).ProductCode env.cfg.EsewaSecretKey ≠ "")
    (huser : (GetUserFromContext ctx).2.2.2 = true) :
    ∃ record : Payment,
      insertedPayments (InitiatePayment env ctx cartItems w).2.trace =
        insertedPayments w.trace ++ [record] ∧
      record.Status = PaymentStatusPending ∧
      record.ProductIDs = cartItems.map (fun item => item.ID) ∧
      record.TransactionUuid = Values.Get (gatewayForm env cartItems) "transaction_uuid" ∧
      ((InitiatePayment env ctx cartItems w).2.payments = w.payments ∨
        (InitiatePayment env ctx cartItems w).2.payments = w.payments ++ [record]) ∧
      (w.faults = [] → (∀ q ∈ w.payments, q.ID ≠ env.newUUID) →
        (InitiatePayment env ctx cartItems w).2.payments = w.payments ++ [record]) ∧
      (InitiatePayment env ctx cartItems w).2.orders = w.orders ∧
      (InitiatePayment env ctx cartItems w).2.products = w.products ∧
      orderAndStockWrites (InitiatePayment env ctx cartItems w).2.trace =
        orderAndStockWrites w.trace := by
  obtain ⟨n, hn, hpay, hord, hprod, hchecks⟩ := InitiatePayment_run env ctx cartItems w
  obtain ⟨h3, hquiet⟩ := hchecks havailable hsignature huser
  refine ⟨_, ?_, rfl, rfl, rfl, hpay, hquiet, hord, hprod, ?_⟩
  · rw [hn, insertedPayments_append]
    rcases n with _ | _ | _ | _ | _ | n
    · omega
    · omega
    · omega
    · simp [checkoutCalls, insertedPayments]
    · simp [checkoutCalls, insertedPayments]
    · simp [checkoutCalls, insertedPayments]
  · rw [hn, orderAndStockWrites_append]
    rcases n with _ | _ | _ | _ | _ | n <;> simp [checkoutCalls, orderAndStockWrites]

/-- C13, on the cart of the scenario. -/
theorem InitiatePayment_creates_one_pending_record_witness :
    (GetUserFromContext exampleCtx).2.2.2 = true ∧
      ∃ record : Payment,
        insertedPayments (InitiatePayment exampleEnv exampleCtx exampleCart exampleWorld).2.trace =
          insertedPayments exampleWorld.trace ++ [record] ∧
        record.Status = PaymentStatusPending ∧
        record.ProductIDs = exampleCart.map (fun item => item.ID) ∧
        record.TransactionUuid =
          Values.Get (gatewayForm exampleEnv exampleCart) "transaction_uuid" ∧
        ((InitiatePayment exampleEnv exampleCtx exampleCart exampleWorld).2.payments =
            exampleWorld.payments ∨
          (InitiatePayment exampleEnv exampleCtx exampleCart exampleWorld).2.payments =
            exampleWorld.payments ++ [record]) ∧
        (exampleWorld.faults = [] → (∀ q ∈ exampleWorld.payments, q.ID ≠ exampleEnv.newUUID) →
          (InitiatePayment exampleEnv exampleCtx exampleCart exampleWorld).2.payments =
            exampleWorld.payments ++ [record]) ∧
        (InitiatePayment exampleEnv exampleCtx exampleCart exampleWorld).2.orders =
          exampleWorld.orders ∧
        (InitiatePayment exampleEnv exampleCtx exampleCart exampleWorld).2.products =
          exampleWorld.products ∧
        orderAndStockWrites
            (InitiatePayment exampleEnv exampleCtx exampleCart exampleWorld).2.trace =
          orderAndStockWrites exampleWorld.trace :=
  ⟨by decide, InitiatePayment_creates_one_pending_record exampleEnv exampleCtx exampleCart
    exampleWorld ⟨_, rfl⟩ (by decide) (by decide)⟩

/-! ## Settlement after the order is persisted -/

/-- The two ways `CreateOrder` ends. -/
theorem CreateOrder_cases (o : Order) (w : World) :
    (∃ err, CreateOrder o w = (.error err, w.step (.insertOrder o))) ∨
      CreateOrder o w = (.ok (), { w.step (.insertOrder o) with orders := w.orders ++ [o] }) := by
  unfold CreateOrder
  repeat' (first | split | dsimp only)
  · exact Or.inl ⟨_, rfl⟩
  · exact Or.inl ⟨_, rfl⟩
  · exact Or.inr rfl

/-- The orders after `CreateOrderFromPayment`: unchanged with an error returned,
or extended by the order returned. -/
theorem CreateOrderFromPayment_orders (env : Env) (p : Payment) (w : World) :
    ((∃ err, (CreateOrderFromPayment env p w).1 = .error err) ∧
        (CreateOrderFromPayment env p w).2.orders = w.orders) ∨
      ∃ o, (CreateOrderFromPayment env p w).1 = .ok o ∧
        (CreateOrderFromPayment env p w).2.orders = w.orders ++ [o] := by
  unfold CreateOrderFromPayment
  split
  · exact Or.inl ⟨⟨_, rfl⟩, rfl⟩
  · have hs := orderItemsLoop_sameStores p.ProductIDs [] w
    rcases hl : orderItemsLoop p.ProductIDs [] w with ⟨r, w1⟩
    rw [hl] at hs
    cases r with
    | error err => exact Or.inl ⟨⟨_, rfl⟩, hs.2.1⟩
    | ok items =>
      dsimp only
      rcases CreateOrder_cases (newOrder env p items) w1 with ⟨err, hc⟩ | hc
      · rw [hc]
        exact Or.inl ⟨⟨_, rfl⟩, hs.2.1⟩
      · rw [hc]
        refine Or.inr ⟨newOrder env p items, rfl, ?_⟩
        dsimp only
        rw [(decreaseProductStock_frame items _).2.2.1]
        show w1.orders ++ [newOrder env p items] = w.orders ++ [newOrder env p items]
        rw [show w1.orders = w.orders from hs.2.1]

/-- The orders after `ProcessSuccessfulPayment`: unchanged with an error
returned, or extended by the order returned. -/
theorem ProcessSuccessfulPayment_orders (env : Env) (t : String) (w : World) :
    ((∃ err, (ProcessSuccessfulPayment env t w).1 = .error err) ∧
        (ProcessSuccessfulPayment env t w).2.orders = w.orders) ∨
      ∃ o, (ProcessSuccessfulPayment env t w).1 = .ok o ∧
        (ProcessSuccessfulPayment env t w).2.orders = w.orders ++ [o] := by
  unfold ProcessSuccessfulPayment
  have hs := GetPaymentByTransactionUUID_sameStores t w
  rcases hg : GetPaymentByTransactionUUID t w with ⟨r, w1⟩
  rw [hg] at hs
  cases r with
  | error err => exact Or.inl ⟨⟨_, rfl⟩, hs.2.1⟩
  | ok p =>
    dsimp only
    have hu := UpdatePaymentStatus_frame env.now p.ID PaymentStatusSuccess w1
    rcases hup : UpdatePaymentStatus env.now p.ID PaymentStatusSuccess w1 with ⟨r2, w2⟩
    rw [hup] at hu
    have h2 : w2.orders = w.orders := hu.1.trans hs.2.1
    cases r2 with
    | error err => exact Or.inl ⟨⟨_, rfl⟩, h2⟩
    | ok u =>
      dsimp only
      have hc := CreateOrderFromPayment_orders env p w2
      rcases hco : CreateOrderFromPayment env p w2 with ⟨r3, w3⟩
      rw [hco] at hc
      cases r3 with
      | error err =>
        rcases hc with ⟨-, hc⟩ | ⟨o, hc, -⟩
        · exact Or.inl ⟨⟨_, rfl⟩, hc.trans h2⟩
        · simp at hc
      | ok order =>
        rcases hc with ⟨⟨err, hc⟩, -⟩ | ⟨o, hc1, hc2⟩
        · simp at hc
        · refine Or.inr ⟨order, rfl, ?_⟩
          dsimp only at hc1 hc2 ⊢
          rw [(ClearUserCart_frame p.UserId w3).2.1, hc2, h2]
          simp only [Except.ok.injEq] at hc1
          rw [hc1]

/-- C17. Once the order is persisted (the orders after the call are the former
ones followed by an order), `ProcessSuccessfulPayment` returns that order with no
error, for every schedule of failures: whatever becomes of the product reads and
stock writes of the stock decrease and of the cart deletion. -/
theorem ProcessSuccessfulPayment_returns_persisted_order (env : Env) (transactionUUID : String)
    (w : World) (order : Order)
    (hpersisted : (ProcessSuccessfulPayment env transactionUUID w).2.orders =
      w.orders ++ [order]) :
    (ProcessSuccessfulPayment env transactionUUID w).1 = .ok order := by
  rcases ProcessSuccessfulPayment_orders env transactionUUID w with ⟨-, h⟩ | ⟨o, h1, h2⟩
  · rw [h] at hpersisted
    have := congrArg List.length hpersisted
    simp at this
  · rw [h2] at hpersisted
    have := List.append_cancel_left hpersisted
    simp only [List.cons.injEq, and_true] at this
    rw [h1, this]

/-- C17, on a settlement whose stock read and cart deletion fail: the order is
persisted and returned, the stock of `p1` stays at 10 and the cart of `u1`
stays. -/
theorem ProcessSuccessfulPayment_returns_persisted_order_witness :
    ((ProcessSuccessfulPayment settleEnv1 "250309-070559-0A0B0" flakyWorld).2.orders =
        flakyWorld.orders ++ [newOrder settleEnv1 pendingPayment [newOrderItem exampleProduct]] ∧
      (ProcessSuccessfulPayment settleEnv1 "250309-070559-0A0B0" flakyWorld).2.products.map
        (fun q => (q.ID, q.Stock)) = [("p1", 10)] ∧
      (ProcessSuccessfulPayment settleEnv1 "250309-070559-0A0B0" flakyWorld).2.carts = ["u1"]) ∧
    (ProcessSuccessfulPayment settleEnv1 "250309-070559-0A0B0" flakyWorld).1 =
      .ok (newOrder settleEnv1 pendingPayment [newOrderItem exampleProduct]) :=
  ⟨by decide, ProcessSuccessfulPayment_returns_persisted_order settleEnv1 "250309-070559-0A0B0"
    flakyWorld _ (by decide)⟩

/-! ## The order service: status of an order -/

/-- The two ways the order repository's `GetUserOrderDetails` ends. -/
theorem GetUserOrderDetails_cases (userId orderId : String) (w : World) :
    (∃ err, OrderRepo.GetUserOrderDetails userId orderId w =
        (.error err, w.step (.findUserOrder userId orderId))) ∨
      ∃ o, w.orders.find? (fun o => o.ID == orderId && o.User == userId) = some o ∧
        OrderRepo.GetUserOrderDetails userId orderId w =
          (.ok o, w.step (.findUserOrder userId orderId)) := by
  unfold OrderRepo.GetUserOrderDetails
  repeat' (first | split | dsimp only)
  · exact Or.inl ⟨_, rfl⟩
  · exact Or.inl ⟨_, rfl⟩
  · rename_i o ho
    exact Or.inr ⟨o, ho, rfl⟩

/-- The two ways the order repository's `UpdateOrderStatus` ends. -/
theorem OrderRepo_UpdateOrderStatus_cases (now : Time) (orderID status : String) (w : World) :
    (∃ err, OrderRepo.UpdateOrderStatus now orderID status w =
        (.error err, w.step (.updateOrderStatus orderID status))) ∨
      (w.outcome = none ∧ OrderRepo.UpdateOrderStatus now orderID status w =
        (.ok (), { w.step (.updateOrderStatus orderID status) with
          orders := updateFirst (fun o => o.ID == orderID) (setOrderStatus now status)
            w.orders })) := by
  unfold OrderRepo.UpdateOrderStatus
  repeat' (first | split | dsimp only)
  · exact Or.inl ⟨_, rfl⟩
  · rename_i h
    exact Or.inr ⟨h, rfl⟩

/-- The order repository's `UpdateOrderStatus` when the call goes through. -/
theorem OrderRepo_UpdateOrderStatus_ok (now : Time) (orderID status : String) (w : World)
    (h : w.outcome = none) :
    OrderRepo.UpdateOrderStatus now orderID status w =
      (.ok (), { w.step (.updateOrderStatus orderID status) with
        orders := updateFirst (fun o => o.ID == orderID) (setOrderStatus now status) w.orders }) := by
  unfold OrderRepo.UpdateOrderStatus
  simp [h]

/-- C15. For every order whose status is not `created`, `CancelUserOrder` on its
id returns an error, leaves the four stores as they are and makes no call but
the lookup of the order: no status update and no stock update. This holds for
every user and every schedule of store failures. -/
theorem CancelUserOrder_refuses_unless_created (now : Time) (userId orderId : String) (w : World)
    (hstatus : ∀ o ∈ w.orders, o.ID = orderId → o.Status ≠ OrderStatusCreated) :
    (∃ err, (OrderService.CancelUserOrder now userId orderId w).1 = .error err) ∧
      (OrderService.CancelUserOrder now userId orderId w).2.orders = w.orders ∧
      (OrderService.CancelUserOrder now userId orderId w).2.products = w.products ∧
      (OrderService.CancelUserOrder now userId orderId w).2.payments = w.payments ∧
      (OrderService.CancelUserOrder now userId orderId w).2.carts = w.carts ∧
      (OrderService.CancelUserOrder now userId orderId w).2.trace =
        w.trace ++ [Event.findUserOrder userId orderId] ∧
      orderAndStockWrites (OrderService.CancelUserOrder now userId orderId w).2.trace =
        orderAndStockWrites w.trace := by
  unfold OrderService.CancelUserOrder
  rcases GetUserOrderDetails_cases userId orderId w with ⟨err, h⟩ | ⟨o, ho, h⟩
  · rw [h]
    refine ⟨⟨_, rfl⟩, rfl, rfl, rfl, rfl, rfl, ?_⟩
    simp [orderAndStockWrites_append, orderAndStockWrites]
  · rw [h]
    have hmem := List.mem_of_find?_eq_some ho
    have hid : o.ID = orderId := by
      have hp := List.find?_some ho
      simp only [Bool.and_eq_true, beq_iff_eq] at hp
      exact hp.1
    have hne : (o.Status != OrderStatusCreated) = true := by
      simpa using hstatus o hmem hid
    simp only [hne, if_true]
    refine ⟨⟨_, rfl⟩, rfl, rfl, rfl, rfl, rfl, ?_⟩
    simp [orderAndStockWrites_append, orderAndStockWrites]

/-- C15, on the example order once delivered. -/
theorem CancelUserOrder_refuses_unless_created_witness :
    (orderWorld OrderStatusDelivered).orders.map (fun o => (o.ID, o.Status)) =
      [("order-1", "delivered")] ∧
    (OrderService.CancelUserOrder exampleTime "u1" "order-1"
        (orderWorld OrderStatusDelivered)).1 =
      .error "order cannot be cancelled in current status: delivered" ∧
    ((∃ err, (OrderService.CancelUserOrder exampleTime "u1" "order-1"
        (orderWorld OrderStatusDelivered)).1 = .error err) ∧
      (OrderService.CancelUserOrder exampleTime "u1" "order-1"
        (orderWorld OrderStatusDelivered)).2.orders = (orderWorld OrderStatusDelivered).orders ∧
      (OrderService.CancelUserOrder exampleTime "u1" "order-1"
        (orderWorld OrderStatusDelivered)).2.products =
          (orderWorld OrderStatusDelivered).products ∧
      (OrderService.CancelUserOrder exampleTime "u1" "order-1"
        (orderWorld OrderStatusDelivered)).2.payments =
          (orderWorld OrderStatusDelivered).payments ∧
      (OrderService.CancelUserOrder exampleTime "u1" "order-1"
        (orderWorld OrderStatusDelivered)).2.carts = (orderWorld OrderStatusDelivered).carts ∧
      (OrderService.CancelUserOrder exampleTime "u1" "order-1"
        (orderWorld OrderStatusDelivered)).2.trace =
          (orderWorld OrderStatusDelivered).trace ++ [Event.findUserOrder "u1" "order-1"] ∧
      orderAndStockWrites (OrderService.CancelUserOrder exampleTime "u1" "order-1"
        (orderWorld OrderStatusDelivered)).2.trace =
          orderAndStockWrites (orderWorld OrderStatusDelivered).trace) :=
  ⟨by decide, by decide, CancelUserOrder_refuses_unless_created exampleTime "u1" "order-1"
    (orderWorld OrderStatusDelivered) (by decide)⟩

/-- Restoring stock returns no error and touches only the products and the trace. -/
theorem restoreProductStock_frame (items : List ProductItem) :
    ∀ w : World, (OrderService.restoreProductStock items w).1 = .ok () ∧
      (OrderService.restoreProductStock items w).2.orders = w.orders ∧
      (OrderService.restoreProductStock items w).2.payments = w.payments ∧
      (OrderService.restoreProductStock items w).2.carts = w.carts := by
  induction items with
  | nil => intro w; exact ⟨rfl, rfl, rfl, rfl⟩
  | cons item rest ih =>
    intro w
    unfold OrderService.restoreProductStock
    have h := GetProductByID_sameStores item.ProductID w
    rcases hg : GetProductByID item.ProductID w with ⟨r, w1⟩
    rw [hg] at h
    obtain ⟨h1, h2, -, h4⟩ := h
    cases r with
    | error err =>
      have := ih w1
      simp_all
    | ok product =>
      dsimp only
      have hu := UpdateProductStock_frame product.SellerID item.ProductID
        (wrap64 (product.Stock + item.Quantity)) w1
      rcases hu2 : UpdateProductStock product.SellerID item.ProductID
        (wrap64 (product.Stock + item.Quantity)) w1 with ⟨r2, w2⟩
      rw [hu2] at hu
      have := ih w2
      simp_all

/-- C16, counterexample. The seller's `UpdateOrderStatus` accepts every one of the
five statuses: it moves a delivered order to `cancelled` and a cancelled order
back to `created`. -/
theorem UpdateOrderStatus_moves_to_cancelled_and_created :
    "cancelled" ∈ validStatuses ∧ "created" ∈ validStatuses ∧
    (OrderService.UpdateOrderStatus exampleTime "s1" "order-1" "cancelled"
        (orderWorld OrderStatusDelivered)).1 = .ok () ∧
      (OrderService.UpdateOrderStatus exampleTime "s1" "order-1" "cancelled"
        (orderWorld OrderStatusDelivered)).2.orders.map (fun o => o.Status) = ["cancelled"] ∧
      (OrderService.UpdateOrderStatus exampleTime "s1" "order-1" "created"
        (orderWorld OrderStatusCancelled)).1 = .ok () ∧
      (OrderService.UpdateOrderStatus exampleTime "s1" "order-1" "created"
        (orderWorld OrderStatusCancelled)).2.orders.map (fun o => o.Status) = ["created"] := by
  decide

/-- An order found by id and user is the first order with that id when ids are
unique. -/
theorem find?_order_of_nodup (orderId userId : String) (order : Order) :
    ∀ orders : List Order, (orders.map (fun o => o.ID)).Nodup →
      orders.find? (fun o => o.ID == orderId && o.User == userId) = some order →
      orders.find? (fun o => o.ID == orderId) = some order := by
  intro orders
  induction orders with
  | nil => intro _ h; simp at h
  | cons o rest ih =>
    intro hnd h
    rw [List.map_cons, List.nodup_cons] at hnd
    rw [List.find?_cons] at h ⊢
    by_cases hid : o.ID = orderId
    · have h2 : (o.ID == orderId) = true := by simp [hid]
      by_cases hu : o.User = userId
      · have h1 : (o.ID == orderId && o.User == userId) = true := by simp [hid, hu]
        rw [h1] at h
        rw [h2]
        exact h
      · exfalso
        have h1 : (o.ID == orderId && o.User == userId) = false := by simp [hu]
        rw [h1] at h
        have hmem := List.mem_of_find?_eq_some h
        have hp := List.find?_some h
        have hoid : order.ID = orderId := by
          simp only [Bool.and_eq_true, beq_iff_eq] at hp
          exact hp.1
        apply hnd.1
        rw [hid, ← hoid]
        exact List.mem_map_of_mem (fun o => o.ID) hmem
    · have h1 : (o.ID == orderId && o.User == userId) = false := by simp [hid]
      rw [h1] at h
      have h2 : (o.ID == orderId) = false := by simp [hid]
      rw [h2]
      exact ih hnd.2 h

/-- C16, amended. `AcceptOrder` writes only `paid and processing` and
`OrderFinished` only `delivered`; `CancelUserOrder` writes `cancelled`, and only
when the order it found for the user has status `created`; the seller's
`UpdateOrderStatus`, given any one of the five valid statuses and a store that
answers, writes that status whatever the order's current status. -/
theorem order_status_writes (now : Time) (actor orderId : String) (w : World) :
    ((OrderService.AcceptOrder now actor orderId w).2.orders = w.orders ∨
      (OrderService.AcceptOrder now actor orderId w).2.orders =
        updateFirst (fun o => o.ID == orderId)
          (setOrderStatus now OrderStatusPaidAndProcessing) w.orders) ∧
    ((OrderService.OrderFinished now actor orderId w).2.orders = w.orders ∨
      (OrderService.OrderFinished now actor orderId w).2.orders =
        updateFirst (fun o => o.ID == orderId)
          (setOrderStatus now OrderStatusDelivered) w.orders) ∧
    ((OrderService.CancelUserOrder now actor orderId w).2.orders = w.orders ∨
      ∃ order, w.orders.find? (fun o => o.ID == orderId && o.User == actor) = some order ∧
        order.Status = OrderStatusCreated ∧
        ((w.orders.map (fun o => o.ID)).Nodup →
          w.orders.find? (fun o => o.ID == orderId) = some order) ∧
        (OrderService.CancelUserOrder now actor orderId w).2.orders =
          updateFirst (fun o => o.ID == orderId)
            (setOrderStatus now OrderStatusCancelled) w.orders) ∧
    (∀ status, status ∈ validStatuses → w.outcome = none →
      (OrderService.UpdateOrderStatus now actor orderId status w).1 = .ok () ∧
      (OrderService.UpdateOrderStatus now actor orderId status w).2.orders =
        updateFirst (fun o => o.ID == orderId) (setOrderStatus now status) w.orders) := by
  refine ⟨?_, ?_, ?_, ?_⟩
  · unfold OrderService.AcceptOrder
    rcases OrderRepo_UpdateOrderStatus_cases now orderId OrderStatusPaidAndProcessing w with
      ⟨err, h⟩ | ⟨_, h⟩
    · rw [h]; exact Or.inl rfl
    · rw [h]; exact Or.inr rfl
  · unfold OrderService.OrderFinished
    rcases OrderRepo_UpdateOrderStatus_cases now orderId OrderStatusDelivered w with
      ⟨err, h⟩ | ⟨_, h⟩
    · rw [h]; exact Or.inl rfl
    · rw [h]; exact Or.inr rfl
  · unfold OrderService.CancelUserOrder
    rcases GetUserOrderDetails_cases actor orderId w with ⟨err, h⟩ | ⟨o, ho, h⟩
    · rw [h]; exact Or.inl rfl
    · rw [h]
      by_cases hs : o.Status = OrderStatusCreated
      · have hne : (o.Status != OrderStatusCreated) = false := by simp [hs]
        simp only [hne, Bool.false_eq_true, if_false]
        rcases OrderRepo_UpdateOrderStatus_cases now orderId OrderStatusCancelled
            (w.step (.findUserOrder actor orderId)) with ⟨err, h2⟩ | ⟨_, h2⟩
        · rw [h2]; exact Or.inl rfl
        · rw [h2]
          refine Or.inr ⟨o, ho, hs, fun hnd => find?_order_of_nodup orderId actor o _ hnd ho, ?_⟩
          dsimp only
          rw [(restoreProductStock_frame _ _).2.1]
          rfl
      · have hne : (o.Status != OrderStatusCreated) = true := by simpa using hs
        simp only [hne, if_true]
        exact Or.inl rfl
  · intro status hvalid hquiet
    unfold OrderService.UpdateOrderStatus
    have hany : validStatuses.any (fun validStatus => status == validStatus) = true := by
      rw [List.any_eq_true]
      exact ⟨status, hvalid, by simp⟩
    simp only [hany, Bool.not_true, Bool.false_eq_true, if_false]
    rw [OrderRepo_UpdateOrderStatus_ok now orderId status w hquiet]
    exact ⟨rfl, rfl⟩

/-! ## Settlement, cancellation and the stock of one product -/

/-- The stock decrease runs over a concatenation of lines part after part. -/
theorem decreaseProductStock_append (pre post : List ProductItem) :
    ∀ w : World, decreaseProductStock (pre ++ post) w =
      decreaseProductStock post (decreaseProductStock pre w).2 := by
  induction pre with
  | nil => intro w; rfl
  | cons item rest ih =>
    intro w
    simp only [List.cons_append, decreaseProductStock]
    rcases GetProductByID item.ProductID w with ⟨r, w1⟩
    cases r with
    | error err => exact ih w1
    | ok product =>
      dsimp only
      split
      · exact ih w1
      · exact ih _

/-- The stock restore runs over a concatenation of lines part after part. -/
theorem restoreProductStock_append (pre post : List ProductItem) :
    ∀ w : World, OrderService.restoreProductStock (pre ++ post) w =
      OrderService.restoreProductStock post (OrderService.restoreProductStock pre w).2 := by
  induction pre with
  | nil => intro w; rfl
  | cons item rest ih =>
    intro w
    simp only [List.cons_append, OrderService.restoreProductStock]
    rcases GetProductByID item.ProductID w with ⟨r, w1⟩
    cases r with
    | error err => exact ih w1
    | ok product => exact ih _

/-- A stock write for one product leaves the lookup of another product alone. -/
theorem find?_updateFirst_other_product (sid id id' : String) (n : Int) (hne : id' ≠ id)
    (products : List Product) :
    (updateFirst (fun p => p.ID == id && p.SellerID == sid) (setStock n) products).find?
        (fun p => p.ID == id') = products.find? (fun p => p.ID == id') := by
  apply find?_updateFirst_other
  · intro d hd
    simp only [Bool.and_eq_true, beq_iff_eq] at hd
    simp only [beq_eq_false_iff_ne, ne_eq]
    rw [hd.1]
    exact fun hc => hne hc.symm
  · intro d
    rfl

/-- A stock write for a product under the seller recorded on it rewrites the
product its lookup finds. -/
theorem find?_updateFirst_same_product (id : String) (n : Int) (q : Product)
    (products : List Product) (hq : products.find? (fun p => p.ID == id) = some q) :
    (updateFirst (fun p => p.ID == id && p.SellerID == q.SellerID) (setStock n) products).find?
        (fun p => p.ID == id) = some (setStock n q) := by
  have hqid : q.ID = id := by
    have := List.find?_some hq
    simpa using this
  apply find?_updateFirst_hit _ _ _ _ _ _ _ hq
  · simp [hqid]
  · intro d hd
    simp only [Bool.and_eq_true, beq_iff_eq] at hd
    simp [hd.1]
  · intro d
    rfl

/-- The stock decrease over lines of other products, when no failure is
scheduled, leaves the lookup of a product alone. -/
theorem decreaseProductStock_other (id : String) (items : List ProductItem) :
    ∀ w : World, w.faults = [] → (∀ it ∈ items, it.ProductID ≠ id) →
      (decreaseProductStock items w).2.faults = [] ∧
      (decreaseProductStock items w).2.products.find? (fun p => p.ID == id) =
        w.products.find? (fun p => p.ID == id) := by
  induction items with
  | nil => intro w h _; exact ⟨h, rfl⟩
  | cons item rest ih =>
    intro w h hne
    have hrest : ∀ it ∈ rest, it.ProductID ≠ id := fun it hm => hne it (List.mem_cons_of_mem _ hm)
    have hitem : id ≠ item.ProductID := fun hc => hne item (List.mem_cons_self _ _) hc.symm
    unfold decreaseProductStock
    have hs := GetProductByID_sameStores item.ProductID w
    have hf := GetProductByID_quiet item.ProductID w h
    rcases hg : GetProductByID item.ProductID w with ⟨r, w1⟩
    rw [hg] at hs hf
    have hprod : w1.products = w.products := hs.2.2.1
    cases r with
    | error err =>
      dsimp only
      rw [← hprod]
      exact ih w1 hf hrest
    | ok product =>
      dsimp only
      split
      · rw [← hprod]
        exact ih w1 hf hrest
      · have hu := UpdateProductStock_quiet product.SellerID item.ProductID
          (wrap64 (product.Stock - item.Quantity)) w1 hf
        rcases hu2 : UpdateProductStock product.SellerID item.ProductID
          (wrap64 (product.Stock - item.Quantity)) w1 with ⟨r2, w2⟩
        rw [hu2] at hu
        dsimp only at hu ⊢
        obtain ⟨ih1, ih2⟩ := ih w2 hu.1 hrest
        refine ⟨ih1, ?_⟩
        rw [ih2, hu.2, ← hprod]
        exact find?_updateFirst_other_product _ _ _ _ hitem _

/-- The stock restore over lines of other products, when no failure is
scheduled, leaves the lookup of a product alone. -/
theorem restoreProductStock_other (id : String) (items : List ProductItem) :
    ∀ w : World, w.faults = [] → (∀ it ∈ items, it.ProductID ≠ id) →
      (OrderService.restoreProductStock items w).2.faults = [] ∧
      (OrderService.restoreProductStock items w).2.products.find? (fun p => p.ID == id) =
        w.products.find? (fun p => p.ID == id) := by
  induction items with
  | nil => intro w h _; exact ⟨h, rfl⟩
  | cons item rest ih =>
    intro w h hne
    have hrest : ∀ it ∈ rest, it.ProductID ≠ id := fun it hm => hne it (List.mem_cons_of_mem _ hm)
    have hitem : id ≠ item.ProductID := fun hc => hne item (List.mem_cons_self _ _) hc.symm
    unfold OrderService.restoreProductStock
    have hs := GetProductByID_sameStores item.ProductID w
    have hf := GetProductByID_quiet item.ProductID w h
    rcases hg : GetProductByID item.ProductID w with ⟨r, w1⟩
    rw [hg] at hs hf
    have hprod : w1.products = w.products := hs.2.2.1
    cases r with
    | error err =>
      dsimp only
      rw [← hprod]
      exact ih w1 hf hrest
    | ok product =>
      dsimp only
      have hu := UpdateProductStock_quiet product.SellerID item.ProductID
        (wrap64 (product.Stock + item.Quantity)) w1 hf
      rcases hu2 : UpdateProductStock product.SellerID item.ProductID
        (wrap64 (product.Stock + item.Quantity)) w1 with ⟨r2, w2⟩
      rw [hu2] at hu
      dsimp only at hu ⊢
      obtain ⟨ih1, ih2⟩ := ih w2 hu.1 hrest
      refine ⟨ih1, ?_⟩
      rw [ih2, hu.2, ← hprod]
      exact find?_updateFirst_other_product _ _ _ _ hitem _

/-- The stock decrease over one line of a product in sufficient stock, when no
failure is scheduled, writes the stock less the quantity of the line. -/
theorem decreaseProductStock_line (item : ProductItem) (q : Product) (w : World)
    (h : w.faults = [])
    (hq : w.products.find? (fun p => p.ID == item.ProductID) = some q)
    (hstock : item.Quantity ≤ q.Stock) :
    (decreaseProductStock [item] w).2.faults = [] ∧
      (decreaseProductStock [item] w).2.products.find? (fun p => p.ID == item.ProductID) =
        some (setStock (wrap64 (q.Stock - item.Quantity)) q) := by
  have hs := GetProductByID_sameStores item.ProductID w
  have hf := GetProductByID_quiet item.ProductID w h
  have hr := GetProductByID_found item.ProductID w q h hq
  unfold decreaseProductStock
  rcases hg : GetProductByID item.ProductID w with ⟨r, w1⟩
  rw [hg] at hs hf hr
  dsimp only at hs hf hr ⊢
  subst hr
  have hprod : w1.products = w.products := hs.2.2.1
  have hnlt : ¬ q.Stock < item.Quantity := by omega
  simp only [hnlt, if_false]
  have hu := UpdateProductStock_quiet q.SellerID item.ProductID
    (wrap64 (q.Stock - item.Quantity)) w1 hf
  rcases hu2 : UpdateProductStock q.SellerID item.ProductID
    (wrap64 (q.Stock - item.Quantity)) w1 with ⟨r2, w2⟩
  rw [hu2] at hu
  dsimp only at hu ⊢
  rw [hprod] at hu
  unfold decreaseProductStock
  refine ⟨hu.1, ?_⟩
  rw [hu.2]
  exact find?_updateFirst_same_product _ _ _ _ hq

/-- The stock restore over one line of a product, when no failure is scheduled,
writes the stock plus the quantity of the line. -/
theorem restoreProductStock_line (item : ProductItem) (q : Product) (w : World)
    (h : w.faults = [])
    (hq : w.products.find? (fun p => p.ID == item.ProductID) = some q) :
    (OrderService.restoreProductStock [item] w).2.faults = [] ∧
      (OrderService.restoreProductStock [item] w).2.products.find?
          (fun p => p.ID == item.ProductID) =
        some (setStock (wrap64 (q.Stock + item.Quantity)) q) := by
  have hs := GetProductByID_sameStores item.ProductID w
  have hf := GetProductByID_quiet item.ProductID w h
  have hr := GetProductByID_found item.ProductID w q h hq
  unfold OrderService.restoreProductStock
  rcases hg : GetProductByID item.ProductID w with ⟨r, w1⟩
  rw [hg] at hs hf hr
  dsimp only at hs hf hr ⊢
  subst hr
  have hprod : w1.products = w.products := hs.2.2.1
  have hu := UpdateProductStock_quiet q.SellerID item.ProductID
    (wrap64 (q.Stock + item.Quantity)) w1 hf
  rcases hu2 : UpdateProductStock q.SellerID item.ProductID
    (wrap64 (q.Stock + item.Quantity)) w1 with ⟨r2, w2⟩
  rw [hu2] at hu
  dsimp only at hu ⊢
  rw [hprod] at hu
  unfold OrderService.restoreProductStock
  rw [hu2]
  refine ⟨hu.1, ?_⟩
  show w2.products.find? (fun p => p.ID == item.ProductID) = _
  rw [hu.2]
  exact find?_updateFirst_same_product _ _ _ _ hq

/-- The stock decrease over the lines of an order with one line for a product in
sufficient stock, when no failure is scheduled. -/
theorem decreaseProductStock_one_line (pre post : List ProductItem) (item : ProductItem)
    (q : Product) (w : World) (h : w.faults = [])
    (hothers : ∀ it ∈ pre ++ post, it.ProductID ≠ item.ProductID)
    (hq : w.products.find? (fun p => p.ID == item.ProductID) = some q)
    (hstock : item.Quantity ≤ q.Stock) :
    (decreaseProductStock (pre ++ item :: post) w).2.faults = [] ∧
      (decreaseProductStock (pre ++ item :: post) w).2.products.find?
          (fun p => p.ID == item.ProductID) =
        some (setStock (wrap64 (q.Stock - item.Quantity)) q) := by
  have hpre := decreaseProductStock_other item.ProductID pre w h
    (fun it hm => hothers it (List.mem_append_left _ hm))
  rw [hq] at hpre
  have hline := decreaseProductStock_line item q _ hpre.1 hpre.2 hstock
  have hpost := decreaseProductStock_other item.ProductID post _ hline.1
    (fun it hm => hothers it (List.mem_append_right _ hm))
  rw [hline.2] at hpost
  have happ : decreaseProductStock (pre ++ item :: post) w =
      decreaseProductStock post
        (decreaseProductStock [item] (decreaseProductStock pre w).2).2 := by
    rw [decreaseProductStock_append pre (item :: post) w]
    exact decreaseProductStock_append [item] post _
  rw [happ]
  exact hpost

/-- The stock restore over the lines of an order with one line for a product,
when no failure is scheduled. -/
theorem restoreProductStock_one_line (pre post : List ProductItem) (item : ProductItem)
    (q : Product) (w : World) (h : w.faults = [])
    (hothers : ∀ it ∈ pre ++ post, it.ProductID ≠ item.ProductID)
    (hq : w.products.find? (fun p => p.ID == item.ProductID) = some q) :
    (OrderService.restoreProductStock (pre ++ item :: post) w).2.faults = [] ∧
      (OrderService.restoreProductStock (pre ++ item :: post) w).2.products.find?
          (fun p => p.ID == item.ProductID) =
        some (setStock (wrap64 (q.Stock + item.Quantity)) q) := by
  have hpre := restoreProductStock_other item.ProductID pre w h
    (fun it hm => hothers it (List.mem_append_left _ hm))
  rw [hq] at hpre
  have hline := restoreProductStock_line item q _ hpre.1 hpre.2
  have hpost := restoreProductStock_other item.ProductID post _ hline.1
    (fun it hm => hothers it (List.mem_append_right _ hm))
  rw [hline.2] at hpost
  have happ : OrderService.restoreProductStock (pre ++ item :: post) w =
      OrderService.restoreProductStock post
        (OrderService.restoreProductStock [item]
          (OrderService.restoreProductStock pre w).2).2 := by
    rw [restoreProductStock_append pre (item :: post) w]
    exact restoreProductStock_append [item] post _
  rw [happ]
  exact hpost

/-- The cancellation of an order in status `created`, when no failure is
scheduled: the status is written, then the stock of the lines is restored. -/
theorem CancelUserOrder_created (now : Time) (userId orderId : String) (w : World)
    (order : Order) (h : w.faults = [])
    (hfound : w.orders.find? (fun o => o.ID == orderId && o.User == userId) = some order)
    (hcreated : order.Status = OrderStatusCreated) :
    ∃ w2 : World, w2.faults = [] ∧ w2.products = w.products ∧
      OrderService.CancelUserOrder now userId orderId w =
        (.ok (), (OrderService.restoreProductStock order.Products w2).2) := by
  have hne : (order.Status != OrderStatusCreated) = false := by simp [hcreated]
  refine ⟨{ (w.step (.findUserOrder userId orderId)).step
      (.updateOrderStatus orderId OrderStatusCancelled) with
    orders := updateFirst (fun o => o.ID == orderId)
      (setOrderStatus now OrderStatusCancelled) w.orders }, ?_, rfl, ?_⟩
  · simp [h]
  · unfold OrderService.CancelUserOrder OrderRepo.GetUserOrderDetails
    simp only [outcome_quiet w h, step_orders, hfound, hne, Bool.false_eq_true, if_false]
    rw [OrderRepo_UpdateOrderStatus_ok now orderId OrderStatusCancelled _
      (outcome_quiet _ (step_quiet w _ h))]
    rfl

/-- A stock written back after a decrease, in `int64` arithmetic. -/
theorem wrap64_sub_add (s q : Int) (h1 : -9223372036854775808 ≤ s)
    (h2 : s ≤ 9223372036854775807) : wrap64 (wrap64 (s - q) + q) = s := by
  unfold wrap64
  omega

/-- The stock decrease and the cancellation on a stored order, whatever the
quantity of its line: for every product with stock `s` and every order in
status `created` with one line for that product, of quantity `q ≤ s`, when the
store calls succeed, the stock decrease leaves the product with stock
`s - q` (in `int64` arithmetic, and exactly `s - q` for `q ≥ 0`), and the
cancellation of the order by `CancelUserOrder` then succeeds and leaves the
product with stock `s` again. -/
theorem CancelUserOrder_restores_stock (now : Time) (userId orderId : String) (w : World)
    (order : Order) (product : Product) (item : ProductItem) (pre post : List ProductItem)
    (hquiet : w.faults = [])
    (horder : w.orders.find? (fun o => o.ID == orderId && o.User == userId) = some order)
    (hcreated : order.Status = OrderStatusCreated)
    (hlines : order.Products = pre ++ item :: post)
    (hothers : ∀ it ∈ pre ++ post, it.ProductID ≠ item.ProductID)
    (hproduct : w.products.find? (fun p => p.ID == item.ProductID) = some product)
    (hstock : item.Quantity ≤ product.Stock)
    (hint64 : -9223372036854775808 ≤ product.Stock ∧ product.Stock ≤ 9223372036854775807) :
    (decreaseProductStock order.Products w).2.stockOf item.ProductID =
        some (wrap64 (product.Stock - item.Quantity)) ∧
      (0 ≤ item.Quantity →
        (decreaseProductStock order.Products w).2.stockOf item.ProductID =
          some (product.Stock - item.Quantity)) ∧
      (OrderService.CancelUserOrder now userId orderId
        (decreaseProductStock order.Products w).2).1 = .ok () ∧
      (OrderService.CancelUserOrder now userId orderId
        (decreaseProductStock order.Products w).2).2.stockOf item.ProductID =
          some product.Stock := by
  have hdec := decreaseProductStock_one_line pre post item product w hquiet hothers hproduct
    hstock
  rw [← hlines] at hdec
  have hframe := decreaseProductStock_frame order.Products w
  have hfound : (decreaseProductStock order.Products w).2.orders.find?
      (fun o => o.ID == orderId && o.User == userId) = some order := by
    rw [hframe.2.2.1]
    exact horder
  obtain ⟨w2, hw2, hprod, hcancel⟩ := CancelUserOrder_created now userId orderId
    (decreaseProductStock order.Products w).2 order hdec.1 hfound hcreated
  have hres := restoreProductStock_one_line pre post item
    (setStock (wrap64 (product.Stock - item.Quantity)) product) w2 hw2 hothers
    (by rw [hprod]; exact hdec.2)
  rw [← hlines] at hres
  have hone : (decreaseProductStock order.Products w).2.stockOf item.ProductID =
      some (wrap64 (product.Stock - item.Quantity)) := by
    unfold World.stockOf
    rw [hdec.2]
    rfl
  refine ⟨hone, ?_, ?_, ?_⟩
  · intro hq
    rw [hone, wrap64_of_range _ (by omega) (by omega)]
  · rw [hcancel]
  · rw [hcancel]
    unfold World.stockOf
    dsimp only
    rw [hres.2]
    show some (wrap64 (wrap64 (product.Stock - item.Quantity) + item.Quantity)) = _
    rw [wrap64_sub_add _ _ hint64.1 hint64.2]

/-- The stock decrease and the cancellation on the example order for two units
of a product with stock 10: the stock is 8 after the decrease and 10 after the
cancellation. -/
theorem CancelUserOrder_restores_stock_witness :
    (decreaseProductStock exampleOrder.Products (orderWorld OrderStatusCreated)).2.stockOf "p1" =
        some 8 ∧
      (OrderService.CancelUserOrder exampleTime "u1" "order-1"
        (decreaseProductStock exampleOrder.Products
          (orderWorld OrderStatusCreated)).2).1 = .ok () ∧
      (OrderService.CancelUserOrder exampleTime "u1" "order-1"
        (decreaseProductStock exampleOrder.Products
          (orderWorld OrderStatusCreated)).2).2.stockOf "p1" = some 10 :=
  have h := CancelUserOrder_restores_stock exampleTime "u1" "order-1"
    (orderWorld OrderStatusCreated) exampleOrder exampleProduct
    { ProductID := "p1", SellerID := "s1", Quantity := 2, Price := 500 } [] []
    (by decide) (by decide) (by decide) (by decide) (by decide) (by decide) (by decide)
    (by decide)
  ⟨h.1, h.2.2.1, h.2.2.2⟩

/-- C16, amended, on the example order: the seller moves it from `created` to
`shipping`, and a cancellation by its user writes `cancelled`. -/
theorem order_status_writes_witness :
    (OrderService.UpdateOrderStatus exampleTime "s1" "order-1" "shipping"
        (orderWorld OrderStatusCreated)).1 = .ok () ∧
      (OrderService.UpdateOrderStatus exampleTime "s1" "order-1" "shipping"
        (orderWorld OrderStatusCreated)).2.orders =
          [setOrderStatus exampleTime "shipping" exampleOrder] :=
  (order_status_writes exampleTime "s1" "order-1" (orderWorld OrderStatusCreated)).2.2.2
    "shipping" (by decide) (by decide)

/-! ## Settlement, then cancellation, in the scenario -/

/-- C12, counterexample. A payment without product ids has all its product ids
in the catalog, and `CreateOrderFromPayment` refuses it at its first guard: an
error is returned and no order is persisted. -/
theorem CreateOrderFromPayment_refuses_no_product_ids :
    (∀ id ∈ emptyPayment.ProductIDs,
        (exampleWorld.products.find? (fun q => q.ID == id)).isSome) ∧
      CreateOrderFromPayment settleEnv1 emptyPayment exampleWorld =
        (.error "payment has no product IDs", exampleWorld) ∧
      (CreateOrderFromPayment settleEnv1 emptyPayment exampleWorld).2.orders = [] := by
  decide

/-- The catalog lines of ids that are all in the catalog: line by line, the id,
and the seller and price of the catalog product with that id. -/
theorem catalogLines_snapshot (products : List Product) :
    ∀ ids : List String, (∀ id ∈ ids, (products.find? (fun q => q.ID == id)).isSome) →
      List.Forall₂ (fun id line => line.ProductID = id ∧
          ∃ q, products.find? (fun c => c.ID == id) = some q ∧
            line.SellerID = q.SellerID ∧ line.Price = q.Price)
        ids (catalogLines products ids)
  | [], _ => List.Forall₂.nil
  | id :: rest, h => by
    obtain ⟨q, hq⟩ := Option.isSome_iff_exists.mp (h id (List.mem_cons_self _ _))
    have hqid : q.ID = id := by simpa using List.find?_some hq
    have ih := catalogLines_snapshot products rest
      (fun i hi => h i (List.mem_cons_of_mem _ hi))
    have hcons : catalogLines products (id :: rest) =
        newOrderItem q :: catalogLines products rest := by
      simp [catalogLines, List.filterMap_cons, hq]
    rw [hcons]
    exact List.Forall₂.cons ⟨hqid, q, hq, rfl, rfl⟩ ih

/-- C12, amended. For every payment with at least one product id whose product
ids all resolve in the catalog, when the store calls succeed and the order id is
new, `CreateOrderFromPayment` returns and persists an order with one line per
product id, in the same order, whose `ProductID`, `SellerID` and `Price` are the
id, seller id and price of the catalog product, and with the amount,
transaction id and user of the payment and status `created`. -/
theorem CreateOrderFromPayment_snapshots_catalog (env : Env) (payment : Payment) (w : World)
    (hquiet : w.faults = [])
    (hids : payment.ProductIDs ≠ [])
    (hresolve : ∀ id ∈ payment.ProductIDs, (w.products.find? (fun q => q.ID == id)).isSome)
    (hfresh : ∀ o ∈ w.orders, o.ID ≠ env.newUUID) :
    ∃ order, (CreateOrderFromPayment env payment w).1 = .ok order ∧
      (CreateOrderFromPayment env payment w).2.orders = w.orders ++ [order] ∧
      List.Forall₂ (fun id line => line.ProductID = id ∧
          ∃ q, w.products.find? (fun c => c.ID == id) = some q ∧
            line.SellerID = q.SellerID ∧ line.Price = q.Price)
        payment.ProductIDs order.Products ∧
      order.Amount = payment.Amount ∧ order.TransactionID = payment.TransactionUuid ∧
      order.User = payment.UserId ∧ order.Status = OrderStatusCreated := by
  obtain ⟨h1, h2, -, -⟩ := CreateOrderFromPayment_quiet env payment w hquiet hids hresolve hfresh
  exact ⟨_, h1, h2, catalogLines_snapshot w.products payment.ProductIDs hresolve,
    rfl, rfl, rfl, rfl⟩

/-- C12, amended, on the pending payment for product `p1`. -/
theorem CreateOrderFromPayment_snapshots_catalog_witness :
    ∃ order, (CreateOrderFromPayment settleEnv1 pendingPayment pendingPaymentWorld).1 =
        .ok order ∧
      (CreateOrderFromPayment settleEnv1 pendingPayment pendingPaymentWorld).2.orders =
        pendingPaymentWorld.orders ++ [order] ∧
      List.Forall₂ (fun id line => line.ProductID = id ∧
          ∃ q, pendingPaymentWorld.products.find? (fun c => c.ID == id) = some q ∧
            line.SellerID = q.SellerID ∧ line.Price = q.Price)
        pendingPayment.ProductIDs order.Products ∧
      order.Amount = pendingPayment.Amount ∧
      order.TransactionID = pendingPayment.TransactionUuid ∧
      order.User = pendingPayment.UserId ∧ order.Status = OrderStatusCreated :=
  CreateOrderFromPayment_snapshots_catalog settleEnv1 pendingPayment pendingPaymentWorld
    (by decide) (by decide) (by decide) (by decide)

/-! ## The answer of the gateway -/

/-- The availability check, when no failure is scheduled and ids are given. -/
theorem CheckProductAvailability_quiet (ids : List String) (w : World) (h : w.faults = [])
    (hids : ids ≠ []) :
    CheckProductAvailability ids w =
      (.ok (w.products.filter (fun p => ids.contains p.ID), true),
        (w.step (.findProducts ids)).step .decodeProducts) := by
  have hlen : (ids.length == 0) = false := by
    cases ids with
    | nil => exact absurd rfl hids
    | cons a rest => rfl
  unfold CheckProductAvailability
  simp [hlen, World.outcome, h]

/-- A response that the client does not follow is what `http.Post` returns. -/
theorem postResponse_of_answer (env : Env) (cartItems : List CartItem)
    (h : followsRedirect (gatewayAnswer env cartItems) = false) :
    postResponse env cartItems = .ok (gatewayAnswer env cartItems) := by
  unfold gatewayAnswer at h
  unfold postResponse httpPost gatewayAnswer
  rw [show (9 : Nat) = 8 + 1 from rfl]
  unfold followRedirects
  simp [h]

/-- A response with a status that is no redirect status, or without `Location`,
is not followed. -/
theorem followsRedirect_false (response : Response)
    (h : redirectStatus response.StatusCode = false ∨ response.Location = "") :
    followsRedirect response = false := by
  unfold followsRedirect
  rcases h with h | h
  · simp [h]
  · simp [h]

/-- A run of `InitiatePayment` to its end: when no failure is scheduled, the cart
has items, the signature and user checks pass and the payment id is new, the
result is decided by what `http.Post` returns: its error, or its response. -/
theorem InitiatePayment_posted (env : Env) (ctx : Ctx) (cartItems : List CartItem) (w : World)
    (hquiet : w.faults = []) (hcart : cartItems ≠ [])
    (hsignature : cartSignature env cartItems ≠ "")
    (huser : (GetUserFromContext ctx).2.2.2 = true)
    (hfresh : ∀ q ∈ w.payments, q.ID ≠ env.newUUID) :
    (∀ err, postResponse env cartItems = .error err →
      (InitiatePayment env ctx cartItems w).1 = .error err) ∧
    (∀ response, postResponse env cartItems = .ok response →
      (InitiatePayment env ctx cartItems w).1 =
        if response.StatusCode != 200 then
          .error (Sprintf "eSewa returned status %d: %s"
            [FormatInt response.StatusCode, response.Body])
        else if response.Location != "" then
          .ok response.Location
        else
          match response.RequestURL with
          | some u => .ok u
          | none => .ok (fallbackURL env (buildPaymentData env cartItems)
              (cartSignature env cartItems))) := by
  have hids : cartItems.map (fun item => item.ID) ≠ [] := by
    cases cartItems with
    | nil => exact absurd rfl hcart
    | cons a rest => simp
  have hsig : (cartSignature env cartItems == "") = false := by simpa using hsignature
  unfold cartSignature at hsig
  obtain ⟨userId, hu⟩ : ∃ userId a b, GetUserFromContext ctx = (userId, a, b, true) := by
    rcases hg : GetUserFromContext ctx with ⟨u, a, b, ok⟩
    rw [hg] at huser
    simp only at huser
    subst huser
    exact ⟨u, a, b, rfl⟩
  obtain ⟨a, b, hu⟩ := hu
  have hrun : ∀ r, postResponse env cartItems = r →
      (InitiatePayment env ctx cartItems w).1 =
        match r with
        | .error err => .error err
        | .ok response =>
          if response.StatusCode != 200 then
            .error (Sprintf "eSewa returned status %d: %s"
              [FormatInt response.StatusCode, response.Body])
          else if response.Location != "" then
            .ok response.Location
          else
            match response.RequestURL with
            | some u => .ok u
            | none => .ok (fallbackURL env (buildPaymentData env cartItems)
                (cartSignature env cartItems)) := by
    intro r hr
    unfold postResponse gatewayForm at hr
    unfold InitiatePayment
    dsimp only
    rw [CheckProductAvailability_quiet _ w hquiet hids]
    dsimp only
    simp only [Bool.not_true, Bool.false_eq_true, if_false, hsig, hu]
    rw [CreatePayment_quiet _ _ (by simp [hquiet]) (by simpa [newPaymentRecord] using hfresh)]
    simp only [World.outcome, step_faults, hquiet, List.tail_nil, List.head?_nil, hr,
      cartSignature]
    cases r with
    | error err => rfl
    | ok response =>
      dsimp only
      repeat' split
      all_goals first | rfl | simp_all
  exact ⟨fun err h => hrun _ h, fun response h => hrun _ h⟩

/-- A run of `InitiatePayment` to its end when the client does not follow the
answer of the gateway: the result is decided by that answer. -/
theorem InitiatePayment_answered (env : Env) (ctx : Ctx) (cartItems : List CartItem) (w : World)
    (hquiet : w.faults = []) (hcart : cartItems ≠ [])
    (hsignature : cartSignature env cartItems ≠ "")
    (huser : (GetUserFromContext ctx).2.2.2 = true)
    (hfresh : ∀ q ∈ w.payments, q.ID ≠ env.newUUID)
    (hfinal : followsRedirect (gatewayAnswer env cartItems) = false) :
    (InitiatePayment env ctx cartItems w).1 =
      if (gatewayAnswer env cartItems).StatusCode != 200 then
        .error (Sprintf "eSewa returned status %d: %s"
          [FormatInt (gatewayAnswer env cartItems).StatusCode, (gatewayAnswer env cartItems).Body])
      else if (gatewayAnswer env cartItems).Location != "" then
        .ok (gatewayAnswer env cartItems).Location
      else
        match (gatewayAnswer env cartItems).RequestURL with
        | some u => .ok u
        | none => .ok (fallbackURL env (buildPaymentData env cartItems)
            (cartSignature env cartItems)) :=
  (InitiatePayment_posted env ctx cartItems w hquiet hcart hsignature huser hfresh).2 _
    (postResponse_of_answer env cartItems hfinal)

/-- The message of the error returned for a refused request: the status code and
the body after a fixed text. -/
theorem Sprintf_status (code body : String) :
    Sprintf "eSewa returned status %d: %s" [code, body] =
      "eSewa returned status " ++ code ++ ": " ++ body := by
  apply String.ext
  show sprintfChars _ _ = _
  simp [sprintfChars, String.append, List.append_assoc]

/-- The URL with parameters: the payment URL, then the eleven fields in the order
of the form, values as they are. -/
theorem fallbackURL_eq (env : Env) (paymentData : PaymentData) (signature : String) :
    fallbackURL env paymentData signature =
      env.cfg.ESewaPaymentURL ++ "?amount=" ++ paymentData.Amount ++
        "&tax_amount=" ++ paymentData.TaxAmount ++
        "&product_service_charge=" ++ paymentData.ProductServiceCharge ++
        "&product_delivery_charge=" ++ paymentData.ProductDeliveryCharge ++
        "&total_amount=" ++ paymentData.TotalAmount ++
        "&transaction_uuid=" ++ paymentData.TransactionUUID ++
        "&product_code=" ++ paymentData.ProductCode ++
        "&success_url=" ++ paymentData.SuccessURL ++
        "&failure_url=" ++ paymentData.FailureURL ++
        "&signed_field_names=" ++ paymentData.SignedFieldNames ++
        "&signature=" ++ signature := by
  apply String.ext
  show sprintfChars _ _ = _
  simp [sprintfChars, String.append, List.append_assoc]

/-- C21, counterexample. The gateway answers the POST with 302, a status outside
200–299, and a `Location`: the client follows the redirect, the page at the
location answers 200, and `InitiatePayment` returns the URL of that last request
with no error. -/
theorem InitiatePayment_follows_redirect :
    (gatewayAnswer redirectingEnv exampleCart).StatusCode = 302 ∧
      (gatewayAnswer redirectingEnv exampleCart).Location = "https://gateway.example/login" ∧
      (gatewayAnswer redirectingEnv exampleCart).Body = "redirecting" ∧
      postResponse redirectingEnv exampleCart =
        .ok { StatusCode := 200, Location := "", Body := "",
              RequestURL := some "https://gateway.example/login" } ∧
      (InitiatePayment redirectingEnv exampleCtx exampleCart exampleWorld).1 =
        .ok "https://gateway.example/login" := by
  decide

/-- C21, amended. When the response that `http.Post` returns for the POST of
`InitiatePayment` has a status code other than 200 (the calls up to the answer
succeeding), `InitiatePayment` returns the empty URL and the error
`eSewa returned status`, the code, a colon and the body of that response. That
response is the answer of the gateway itself unless the answer is a redirect
(301, 302, 303, 307 or 308 with a `Location`), which the client follows: so for
every answer of the gateway with a status outside 200–299 that is not such a
redirect, the error carries the body of the gateway's answer. -/
theorem InitiatePayment_gateway_refusal (env : Env) (ctx : Ctx) (cartItems : List CartItem)
    (w : World) (hquiet : w.faults = []) (hcart : cartItems ≠ [])
    (hsignature : cartSignature env cartItems ≠ "")
    (huser : (GetUserFromContext ctx).2.2.2 = true)
    (hfresh : ∀ q ∈ w.payments, q.ID ≠ env.newUUID) :
    (∀ response, postResponse env cartItems = .ok response → response.StatusCode ≠ 200 →
      (InitiatePayment env ctx cartItems w).1 =
          .error ("eSewa returned status " ++ FormatInt response.StatusCode ++
            ": " ++ response.Body) ∧
        returnedURL (InitiatePayment env ctx cartItems w).1 = "") ∧
    (((gatewayAnswer env cartItems).StatusCode < 200 ∨
        299 < (gatewayAnswer env cartItems).StatusCode) →
      (redirectStatus (gatewayAnswer env cartItems).StatusCode = false ∨
        (gatewayAnswer env cartItems).Location = "") →
      postResponse env cartItems = .ok (gatewayAnswer env cartItems) ∧
        (InitiatePayment env ctx cartItems w).1 =
          .error ("eSewa returned status " ++
            FormatInt (gatewayAnswer env cartItems).StatusCode ++
            ": " ++ (gatewayAnswer env cartItems).Body) ∧
        returnedURL (InitiatePayment env ctx cartItems w).1 = "") := by
  have hposted := (InitiatePayment_posted env ctx cartItems w hquiet hcart hsignature huser
    hfresh).2
  have hgeneral : ∀ response, postResponse env cartItems = .ok response →
      response.StatusCode ≠ 200 →
      (InitiatePayment env ctx cartItems w).1 =
          .error ("eSewa returned status " ++ FormatInt response.StatusCode ++
            ": " ++ response.Body) ∧
        returnedURL (InitiatePayment env ctx cartItems w).1 = "" := by
    intro response hresp hstatus
    have h := hposted response hresp
    have hne : (response.StatusCode != 200) = true := by simpa using hstatus
    rw [hne, if_pos rfl, Sprintf_status] at h
    rw [h]
    exact ⟨rfl, rfl⟩
  refine ⟨hgeneral, fun hstatus hfinal => ?_⟩
  have hresp := postResponse_of_answer env cartItems (followsRedirect_false _ hfinal)
  exact ⟨hresp, hgeneral _ hresp (by omega)⟩

/-- C21, amended, on the scenario with a gateway that answers 400. -/
theorem InitiatePayment_gateway_refusal_witness :
    (gatewayAnswer refusingEnv exampleCart).StatusCode = 400 ∧
      (gatewayAnswer refusingEnv exampleCart).Body = "invalid signature" ∧
      (InitiatePayment refusingEnv exampleCtx exampleCart exampleWorld).1 =
        .error "eSewa returned status 400: invalid signature" ∧
      returnedURL (InitiatePayment refusingEnv exampleCtx exampleCart exampleWorld).1 = "" :=
  have h := (InitiatePayment_gateway_refusal refusingEnv exampleCtx exampleCart exampleWorld
    (by decide) (by decide) (by decide) (by decide) (by decide)).2
    (Or.inr (by decide)) (Or.inl (by decide))
  ⟨rfl, rfl, h.2.1, h.2.2⟩

/-- C24, counterexample. The gateway answers 200 without a `Location` header and
the response carries the URL of its request, as the responses of `http.Post` do:
`InitiatePayment` returns that URL, the bare payment URL, not the URL with the
eleven fields as query parameters. -/
theorem InitiatePayment_returns_request_url :
    (gatewayAnswer exampleEnv exampleCart).StatusCode = 200 ∧
      (gatewayAnswer exampleEnv exampleCart).Location = "" ∧
      (InitiatePayment exampleEnv exampleCtx exampleCart exampleWorld).1 =
        .ok "https://gateway.example/pay" ∧
      fallbackURL exampleEnv (buildPaymentData exampleEnv exampleCart)
          (cartSignature exampleEnv exampleCart) ≠
        "https://gateway.example/pay" := by
  decide

/-- C24, amended. When the gateway answers the POST with status 200 (the calls up
to the answer succeeding), `InitiatePayment` returns the `Location` header if it
is non-empty; otherwise the URL of the request that produced the response, when
the response carries one; and otherwise the payment URL followed by the eleven
fields of the payload as query parameters, values as they are. -/
theorem InitiatePayment_answer_200 (env : Env) (ctx : Ctx) (cartItems : List CartItem)
    (w : World) (hquiet : w.faults = []) (hcart : cartItems ≠ [])
    (hsignature : cartSignature env cartItems ≠ "")
    (huser : (GetUserFromContext ctx).2.2.2 = true)
    (hfresh : ∀ q ∈ w.payments, q.ID ≠ env.newUUID)
    (hstatus : (gatewayAnswer env cartItems).StatusCode = 200) :
    ((gatewayAnswer env cartItems).Location ≠ "" →
        (InitiatePayment env ctx cartItems w).1 = .ok (gatewayAnswer env cartItems).Location) ∧
      ((gatewayAnswer env cartItems).Location = "" →
        ∀ u, (gatewayAnswer env cartItems).RequestURL = some u →
          (InitiatePayment env ctx cartItems w).1 = .ok u) ∧
      ((gatewayAnswer env cartItems).Location = "" →
        (gatewayAnswer env cartItems).RequestURL = none →
        (InitiatePayment env ctx cartItems w).1 =
          .ok (env.cfg.ESewaPaymentURL ++
            "?amount=" ++ (buildPaymentData env cartItems).Amount ++
            "&tax_amount=" ++ (buildPaymentData env cartItems).TaxAmount ++
            "&product_service_charge=" ++ (buildPaymentData env cartItems).ProductServiceCharge ++
            "&product_delivery_charge=" ++ (buildPaymentData env cartItems).ProductDeliveryCharge ++
            "&total_amount=" ++ (buildPaymentData env cartItems).TotalAmount ++
            "&transaction_uuid=" ++ (buildPaymentData env cartItems).TransactionUUID ++
            "&product_code=" ++ (buildPaymentData env cartItems).ProductCode ++
            "&success_url=" ++ (buildPaymentData env cartItems).SuccessURL ++
            "&failure_url=" ++ (buildPaymentData env cartItems).FailureURL ++
            "&signed_field_names=" ++ (buildPaymentData env cartItems).SignedFieldNames ++
            "&signature=" ++ cartSignature env cartItems)) := by
  have h := InitiatePayment_answered env ctx cartItems w hquiet hcart hsignature huser hfresh
    (followsRedirect_false _ (Or.inl (by rw [hstatus]; rfl)))
  have hok : ((gatewayAnswer env cartItems).StatusCode != 200) = false := by simp [hstatus]
  rw [hok] at h
  simp only [Bool.false_eq_true, if_false] at h
  refine ⟨fun hloc => ?_, fun hloc u hu => ?_, fun hloc hu => ?_⟩
  · have hl : ((gatewayAnswer env cartItems).Location != "") = true := by simpa using hloc
    rw [hl, if_pos rfl] at h
    exact h
  · have hl : ((gatewayAnswer env cartItems).Location != "") = false := by simp [hloc]
    rw [hl] at h
    simp only [Bool.false_eq_true, if_false, hu] at h
    exact h
  · have hl : ((gatewayAnswer env cartItems).Location != "") = false := by simp [hloc]
    rw [hl] at h
    simp only [Bool.false_eq_true, if_false, hu, fallbackURL_eq] at h
    exact h

/-- C24, amended, on the scenario with a gateway whose answer carries neither a
`Location` header nor a request URL: the URL with parameters is returned. -/
theorem InitiatePayment_answer_200_witness :
    (InitiatePayment bareEnv exampleCtx exampleCart exampleWorld).1 =
      .ok (bareEnv.cfg.ESewaPaymentURL ++
        "?amount=" ++ (buildPaymentData bareEnv exampleCart).Amount ++
        "&tax_amount=" ++ (buildPaymentData bareEnv exampleCart).TaxAmount ++
        "&product_service_charge=" ++ (buildPaymentData bareEnv exampleCart).ProductServiceCharge ++
        "&product_delivery_charge=" ++
          (buildPaymentData bareEnv exampleCart).ProductDeliveryCharge ++
        "&total_amount=" ++ (buildPaymentData bareEnv exampleCart).TotalAmount ++
        "&transaction_uuid=" ++ (buildPaymentData bareEnv exampleCart).TransactionUUID ++
        "&product_code=" ++ (buildPaymentData bareEnv exampleCart).ProductCode ++
        "&success_url=" ++ (buildPaymentData bareEnv exampleCart).SuccessURL ++
        "&failure_url=" ++ (buildPaymentData bareEnv exampleCart).FailureURL ++
        "&signed_field_names=" ++ (buildPaymentData bareEnv exampleCart).SignedFieldNames ++
        "&signature=" ++ cartSignature bareEnv exampleCart) :=
  (InitiatePayment_answer_200 bareEnv exampleCtx exampleCart exampleWorld
    (by decide) (by decide) (by decide) (by decide) (by decide) (by decide)).2.2
    (by decide) (by decide)

/-! ## The stock decrease, line by line -/

/-- A product returned by `GetProductByID` is the stored product with that id. -/
theorem GetProductByID_ok (id : String) (w : World) (product : Product)
    (h : (GetProductByID id w).1 = .ok product) :
    w.products.find? (fun p => p.ID == id) = some product := by
  unfold GetProductByID at h
  repeat' (first | split at h | dsimp only at h)
  all_goals simp_all

/-- A product lookup writes neither to the order store nor to the stock. -/
theorem GetProductByID_writes (id : String) (w : World) :
    orderAndStockWrites (GetProductByID id w).2.trace = orderAndStockWrites w.trace := by
  unfold GetProductByID
  repeat' (first | split | dsimp only)
  all_goals simp [orderAndStockWrites_append, orderAndStockWrites]

/-- A stock write is one call, recorded with the seller, the product and the
stock; when it goes through, the first product with that id and seller has its
stock set. -/
theorem UpdateProductStock_write (sid id : String) (n : Int) (w : World) :
    (UpdateProductStock sid id n w).2.trace = w.trace ++ [Event.updateProductStock sid id n] ∧
      (w.outcome = none → (UpdateProductStock sid id n w).2.products =
        updateFirst (fun p => p.ID == id && p.SellerID == sid) (setStock n) w.products) := by
  unfold UpdateProductStock
  split
  · rename_i err h
    exact ⟨rfl, fun hc => by rw [hc] at h; simp at h⟩
  · exact ⟨rfl, fun _ => rfl⟩

/-- The stock decrease over one line. -/
theorem decreaseProductStock_single (item : ProductItem) (w : World) :
    (∀ product, (GetProductByID item.ProductID w).1 = .ok product →
        item.Quantity ≤ product.Stock →
        (decreaseProductStock [item] w).2 =
          (UpdateProductStock product.SellerID item.ProductID
            (wrap64 (product.Stock - item.Quantity)) (GetProductByID item.ProductID w).2).2) ∧
      (∀ product, (GetProductByID item.ProductID w).1 = .ok product →
        product.Stock < item.Quantity →
        (decreaseProductStock [item] w).2 = (GetProductByID item.ProductID w).2) ∧
      (∀ err, (GetProductByID item.ProductID w).1 = .error err →
        (decreaseProductStock [item] w).2 = (GetProductByID item.ProductID w).2) := by
  unfold decreaseProductStock
  rcases hg : GetProductByID item.ProductID w with ⟨r, w1⟩
  cases r with
  | error e =>
    refine ⟨fun p hp => by simp at hp, fun p hp => by simp at hp, fun err _ => ?_⟩
    simp [decreaseProductStock]
  | ok product =>
    refine ⟨fun p hp hle => ?_, fun p hp hlt => ?_, fun err he => by simp at he⟩
    · simp only [Except.ok.injEq] at hp
      subst hp
      have hnlt : ¬ product.Stock < item.Quantity := by omega
      simp [hnlt, decreaseProductStock]
    · simp only [Except.ok.injEq] at hp
      subst hp
      simp [hlt, decreaseProductStock]

/-- C23. `decreaseProductStock` always returns nil and processes the order lines
in sequence: the lines after a line are processed from the world that the line
leaves, whatever happened on it. For each line the product is read: when the
read returns the stored product and its stock `s` is at least the quantity, one
stock write is made, of `s - quantity` (in `int64`), which sets the stock when
it goes through; when `s` is below the quantity or the read fails, the line
leaves the world as the read left it, with no write to the stock. -/
theorem decreaseProductStock_line_by_line (pre post : List ProductItem) (item : ProductItem)
    (w : World) :
    (decreaseProductStock (pre ++ item :: post) w).1 = .ok () ∧
      decreaseProductStock (pre ++ item :: post) w =
        decreaseProductStock post (decreaseProductStock (pre ++ [item]) w).2 ∧
      (∀ product,
        (GetProductByID item.ProductID (decreaseProductStock pre w).2).1 = .ok product →
        (decreaseProductStock pre w).2.products.find? (fun p => p.ID == item.ProductID) =
            some product ∧
          (item.Quantity ≤ product.Stock →
            (decreaseProductStock (pre ++ [item]) w).2.trace =
                (GetProductByID item.ProductID (decreaseProductStock pre w).2).2.trace ++
                  [Event.updateProductStock product.SellerID item.ProductID
                    (wrap64 (product.Stock - item.Quantity))] ∧
              ((GetProductByID item.ProductID (decreaseProductStock pre w).2).2.outcome = none →
                (decreaseProductStock (pre ++ [item]) w).2.products =
                  updateFirst (fun p => p.ID == item.ProductID && p.SellerID == product.SellerID)
                    (setStock (wrap64 (product.Stock - item.Quantity)))
                    (decreaseProductStock pre w).2.products)) ∧
          (product.Stock < item.Quantity →
            (decreaseProductStock (pre ++ [item]) w).2 =
                (GetProductByID item.ProductID (decreaseProductStock pre w).2).2)) ∧
      (∀ err, (GetProductByID item.ProductID (decreaseProductStock pre w).2).1 = .error err →
        (decreaseProductStock (pre ++ [item]) w).2 =
          (GetProductByID item.ProductID (decreaseProductStock pre w).2).2) ∧
      ((decreaseProductStock (pre ++ [item]) w).2 =
          (GetProductByID item.ProductID (decreaseProductStock pre w).2).2 →
        (decreaseProductStock (pre ++ [item]) w).2.products =
            (decreaseProductStock pre w).2.products ∧
          orderAndStockWrites (decreaseProductStock (pre ++ [item]) w).2.trace =
            orderAndStockWrites (decreaseProductStock pre w).2.trace) := by
  have hsnoc : decreaseProductStock (pre ++ [item]) w =
      decreaseProductStock [item] (decreaseProductStock pre w).2 :=
    decreaseProductStock_append pre [item] w
  obtain ⟨h1, h2, h3⟩ := decreaseProductStock_single item (decreaseProductStock pre w).2
  refine ⟨(decreaseProductStock_frame _ w).1, ?_, fun product hp => ⟨?_, fun hle => ?_, fun hlt => ?_⟩,
    fun err he => ?_, fun hsame => ?_⟩
  · rw [hsnoc, decreaseProductStock_append pre (item :: post) w]
    exact decreaseProductStock_append [item] post _
  · exact GetProductByID_ok _ _ _ hp
  · rw [hsnoc, h1 product hp hle]
    have hw := UpdateProductStock_write product.SellerID item.ProductID
      (wrap64 (product.Stock - item.Quantity))
      (GetProductByID item.ProductID (decreaseProductStock pre w).2).2
    refine ⟨hw.1, fun hout => ?_⟩
    rw [hw.2 hout, (GetProductByID_sameStores item.ProductID (decreaseProductStock pre w).2).2.2.1]
  · rw [hsnoc]
    exact h2 product hp hlt
  · rw [hsnoc]
    exact h3 err he
  · rw [hsame]
    exact ⟨(GetProductByID_sameStores item.ProductID (decreaseProductStock pre w).2).2.2.1,
      GetProductByID_writes _ _⟩

/-- C23, on the example catalog (stock 10): a line for twenty units writes
nothing, a line for an unknown product writes nothing, and the line for two
units after them sets the stock to 8. -/
theorem decreaseProductStock_line_by_line_witness :
    ((decreaseProductStock ([twentyUnits, ghostLine] ++ twoUnits :: []) exampleWorld).1 = .ok () ∧
      decreaseProductStock ([twentyUnits, ghostLine] ++ twoUnits :: []) exampleWorld =
        decreaseProductStock []
          (decreaseProductStock ([twentyUnits, ghostLine] ++ [twoUnits]) exampleWorld).2) ∧
    (decreaseProductStock [twentyUnits, ghostLine] exampleWorld).2.stockOf "p1" = some 10 ∧
    orderAndStockWrites (decreaseProductStock [twentyUnits, ghostLine] exampleWorld).2.trace = [] ∧
    orderAndStockWrites
        (decreaseProductStock [twentyUnits, ghostLine, twoUnits] exampleWorld).2.trace =
      [Event.updateProductStock "s1" "p1" 8] ∧
    (decreaseProductStock [twentyUnits, ghostLine, twoUnits] exampleWorld).2.stockOf "p1" =
      some 8 :=
  have h := decreaseProductStock_line_by_line [twentyUnits, ghostLine] [] twoUnits exampleWorld
  ⟨⟨h.1, h.2.1⟩, by decide, by decide, by decide, by decide⟩

/-! ## The cancellation, line by line -/

/-- The stock restore over one line. -/
theorem restoreProductStock_single (item : ProductItem) (w : World) :
    (∀ product, (GetProductByID item.ProductID w).1 = .ok product →
        (OrderService.restoreProductStock [item] w).2 =
          (UpdateProductStock product.SellerID item.ProductID
            (wrap64 (product.Stock + item.Quantity)) (GetProductByID item.ProductID w).2).2) ∧
      (∀ err, (GetProductByID item.ProductID w).1 = .error err →
        (OrderService.restoreProductStock [item] w).2 = (GetProductByID item.ProductID w).2) := by
  unfold OrderService.restoreProductStock
  rcases hg : GetProductByID item.ProductID w with ⟨r, w1⟩
  cases r with
  | error e =>
    refine ⟨fun p hp => by simp at hp, fun err _ => ?_⟩
    simp [OrderService.restoreProductStock]
  | ok product =>
    refine ⟨fun p hp => ?_, fun err he => by simp at he⟩
    simp only [Except.ok.injEq] at hp
    subst hp
    simp [OrderService.restoreProductStock]

/-- The stock restore line by line: the lines after a line are processed from
the world that the line leaves; a line whose product is read makes one stock
write, of the stock read plus the quantity; a line whose read fails leaves the
world as the read left it. -/
theorem restoreProductStock_line_by_line (pre post : List ProductItem) (item : ProductItem)
    (w : World) :
    OrderService.restoreProductStock (pre ++ item :: post) w =
        OrderService.restoreProductStock post
          (OrderService.restoreProductStock (pre ++ [item]) w).2 ∧
      (∀ product,
        (GetProductByID item.ProductID (OrderService.restoreProductStock pre w).2).1 =
            .ok product →
        (OrderService.restoreProductStock pre w).2.products.find?
            (fun p => p.ID == item.ProductID) = some product ∧
          (OrderService.restoreProductStock (pre ++ [item]) w).2.trace =
            (GetProductByID item.ProductID (OrderService.restoreProductStock pre w).2).2.trace ++
              [Event.updateProductStock product.SellerID item.ProductID
                (wrap64 (product.Stock + item.Quantity))] ∧
          ((GetProductByID item.ProductID (OrderService.restoreProductStock pre w).2).2.outcome =
              none →
            (OrderService.restoreProductStock (pre ++ [item]) w).2.products =
              updateFirst (fun p => p.ID == item.ProductID && p.SellerID == product.SellerID)
                (setStock (wrap64 (product.Stock + item.Quantity)))
                (OrderService.restoreProductStock pre w).2.products)) ∧
      (∀ err,
        (GetProductByID item.ProductID (OrderService.restoreProductStock pre w).2).1 =
            .error err →
        (OrderService.restoreProductStock (pre ++ [item]) w).2 =
          (GetProductByID item.ProductID (OrderService.restoreProductStock pre w).2).2) := by
  have hsnoc : OrderService.restoreProductStock (pre ++ [item]) w =
      OrderService.restoreProductStock [item] (OrderService.restoreProductStock pre w).2 :=
    restoreProductStock_append pre [item] w
  obtain ⟨h1, h3⟩ := restoreProductStock_single item (OrderService.restoreProductStock pre w).2
  refine ⟨?_, fun product hp => ⟨?_, ?_, fun hout => ?_⟩, fun err he => ?_⟩
  · rw [hsnoc, restoreProductStock_append pre (item :: post) w]
    exact restoreProductStock_append [item] post _
  · exact GetProductByID_ok _ _ _ hp
  · rw [hsnoc, h1 product hp]
    exact (UpdateProductStock_write _ _ _ _).1
  · rw [hsnoc, h1 product hp, (UpdateProductStock_write _ _ _ _).2 hout,
      (GetProductByID_sameStores item.ProductID (OrderService.restoreProductStock pre w).2).2.2.1]
  · rw [hsnoc]
    exact h3 err he

/-- The cancellation of an order found in status `created`, when the lookup and
the status write go through: the status is written, then the stock restore runs
on the lines of the order, and no error is returned. -/
theorem CancelUserOrder_run (now : Time) (userId orderId : String) (w : World) (order : Order)
    (hlookup : w.outcome = none)
    (hfound : w.orders.find? (fun o => o.ID == orderId && o.User == userId) = some order)
    (hcreated : order.Status = OrderStatusCreated)
    (hwrite : (w.step (.findUserOrder userId orderId)).outcome = none) :
    OrderService.CancelUserOrder now userId orderId w =
      (.ok (), (OrderService.restoreProductStock order.Products
        (OrderRepo.UpdateOrderStatus now orderId OrderStatusCancelled
          (OrderRepo.GetUserOrderDetails userId orderId w).2).2).2) := by
  have hne : (order.Status != OrderStatusCreated) = false := by simp [hcreated]
  have hget : OrderRepo.GetUserOrderDetails userId orderId w =
      (.ok order, w.step (.findUserOrder userId orderId)) := by
    unfold OrderRepo.GetUserOrderDetails
    simp [hlookup, hfound]
  unfold OrderService.CancelUserOrder
  rw [hget]
  simp only [hne, Bool.false_eq_true, if_false]
  rw [OrderRepo_UpdateOrderStatus_ok now orderId OrderStatusCancelled _ hwrite]

/-- C22. For every order that the lookup finds for the calling user in status
`created`, when the status write goes through, `CancelUserOrder` returns no
error and sets the status of the order to `cancelled`; then every line of the
order is processed, from the world that the lines before it left: a line whose
product is read makes one stock write, of the stock read plus the quantity of
the line (in `int64`), which sets the stock when it goes through; a line whose
read fails leaves the world as the read left it; and in both cases, as when the
write fails, the remaining lines are processed. -/
theorem CancelUserOrder_cancels_and_restores (now : Time) (userId orderId : String) (w : World)
    (order : Order) (hlookup : w.outcome = none)
    (hfound : w.orders.find? (fun o => o.ID == orderId && o.User == userId) = some order)
    (hcreated : order.Status = OrderStatusCreated)
    (hwrite : (w.step (.findUserOrder userId orderId)).outcome = none) :
    (OrderService.CancelUserOrder now userId orderId w).1 = .ok () ∧
      (OrderService.CancelUserOrder now userId orderId w).2.orders =
        updateFirst (fun o => o.ID == orderId) (setOrderStatus now OrderStatusCancelled)
          w.orders ∧
      ((OrderService.CancelUserOrder now userId orderId w).2.orders.find?
          (fun o => o.ID == orderId)).map (fun o => o.Status) = some OrderStatusCancelled ∧
      ((w.orders.map (fun o => o.ID)).Nodup →
        (OrderService.CancelUserOrder now userId orderId w).2.orders.find?
          (fun o => o.ID == orderId) = some (setOrderStatus now OrderStatusCancelled order)) ∧
      ∀ pre item post, order.Products = pre ++ item :: post →
        (OrderService.CancelUserOrder now userId orderId w).2 =
          (OrderService.restoreProductStock post
            (OrderService.restoreProductStock (pre ++ [item])
              (cancellationStart now userId orderId w)).2).2 ∧
        (∀ product,
          (GetProductByID item.ProductID (OrderService.restoreProductStock pre
            (cancellationStart now userId orderId w)).2).1 = .ok product →
          (OrderService.restoreProductStock pre
              (cancellationStart now userId orderId w)).2.products.find?
            (fun p => p.ID == item.ProductID) = some product ∧
          (OrderService.restoreProductStock (pre ++ [item])
              (cancellationStart now userId orderId w)).2.trace =
            (GetProductByID item.ProductID (OrderService.restoreProductStock pre
              (cancellationStart now userId orderId w)).2).2.trace ++
              [Event.updateProductStock product.SellerID item.ProductID
                (wrap64 (product.Stock + item.Quantity))] ∧
          ((GetProductByID item.ProductID (OrderService.restoreProductStock pre
              (cancellationStart now userId orderId w)).2).2.outcome = none →
            (OrderService.restoreProductStock (pre ++ [item])
                (cancellationStart now userId orderId w)).2.products =
              updateFirst (fun p => p.ID == item.ProductID && p.SellerID == product.SellerID)
                (setStock (wrap64 (product.Stock + item.Quantity)))
                (OrderService.restoreProductStock pre
                  (cancellationStart now userId orderId w)).2.products)) ∧
        (∀ err,
          (GetProductByID item.ProductID (OrderService.restoreProductStock pre
            (cancellationStart now userId orderId w)).2).1 = .error err →
          (OrderService.restoreProductStock (pre ++ [item])
              (cancellationStart now userId orderId w)).2 =
            (GetProductByID item.ProductID (OrderService.restoreProductStock pre
              (cancellationStart now userId orderId w)).2).2) := by
  have hrun := CancelUserOrder_run now userId orderId w order hlookup hfound hcreated hwrite
  have horders : (OrderService.CancelUserOrder now userId orderId w).2.orders =
      updateFirst (fun o => o.ID == orderId) (setOrderStatus now OrderStatusCancelled)
        w.orders := by
    rw [hrun]
    dsimp only
    rw [(restoreProductStock_frame _ _).2.1,
      OrderRepo_UpdateOrderStatus_ok now orderId OrderStatusCancelled _ (by
        unfold OrderRepo.GetUserOrderDetails
        simp [hlookup, hfound, hwrite])]
    unfold OrderRepo.GetUserOrderDetails
    simp [hlookup, hfound]
  have hsome : ∃ first, w.orders.find? (fun o => o.ID == orderId) = some first := by
    apply Option.isSome_iff_exists.mp
    rw [List.find?_isSome]
    refine ⟨order, List.mem_of_find?_eq_some hfound, ?_⟩
    have hp := List.find?_some hfound
    simp only [Bool.and_eq_true] at hp
    exact hp.1
  refine ⟨by rw [hrun], horders, ?_, fun hnd => ?_, fun pre item post hlines => ?_⟩
  · obtain ⟨first, hfirst⟩ := hsome
    rw [horders, find?_updateFirst_self (fun o => o.ID == orderId)
      (setOrderStatus now OrderStatusCancelled) (fun d hd => hd) _ _ hfirst]
    rfl
  · rw [horders]
    exact find?_updateFirst_self (fun o => o.ID == orderId)
      (setOrderStatus now OrderStatusCancelled) (fun d hd => hd) _ _
      (find?_order_of_nodup orderId userId order _ hnd hfound)
  · obtain ⟨h1, h2, h3⟩ := restoreProductStock_line_by_line pre post item
      (cancellationStart now userId orderId w)
    refine ⟨?_, h2, h3⟩
    rw [hrun, hlines, ← h1]
    rfl

/-- C22, on an order with a line for an unknown product before a line for two
units of `p1` (stock 10): the cancellation succeeds, the status is `cancelled`,
the only stock write sets the stock of `p1` to 12. -/
theorem CancelUserOrder_cancels_and_restores_witness :
    (OrderService.CancelUserOrder exampleTime "u1" "order-1" mixedOrderWorld).1 = .ok () ∧
      (OrderService.CancelUserOrder exampleTime "u1" "order-1" mixedOrderWorld).2.orders =
        [setOrderStatus exampleTime OrderStatusCancelled mixedOrder] ∧
      orderAndStockWrites
          (OrderService.CancelUserOrder exampleTime "u1" "order-1" mixedOrderWorld).2.trace =
        [Event.updateOrderStatus "order-1" "cancelled",
         Event.updateProductStock "s1" "p1" 12] ∧
      (OrderService.CancelUserOrder exampleTime "u1" "order-1" mixedOrderWorld).2.stockOf "p1" =
        some 12 :=
  have h := CancelUserOrder_cancels_and_restores exampleTime "u1" "order-1" mixedOrderWorld
    mixedOrder (by decide) (by decide) (by decide) (by decide)
  ⟨h.1, h.2.1, by decide, by decide⟩

/-! ## Cancellation after a skipped decrease -/

/-- The stock decrease over one line of a product whose stock is below the
quantity, when no failure is scheduled, leaves the product as it is. -/
theorem decreaseProductStock_line_skip (item : ProductItem) (q : Product) (w : World)
    (h : w.faults = [])
    (hq : w.products.find? (fun p => p.ID == item.ProductID) = some q)
    (hstock : q.Stock < item.Quantity) :
    (decreaseProductStock [item] w).2.faults = [] ∧
      (decreaseProductStock [item] w).2.products.find? (fun p => p.ID == item.ProductID) =
        some q := by
  have hr := GetProductByID_found item.ProductID w q h hq
  rw [(decreaseProductStock_single item w).2.1 q hr hstock,
    (GetProductByID_sameStores item.ProductID w).2.2.1]
  exact ⟨GetProductByID_quiet item.ProductID w h, hq⟩

/-- The stock decrease over the lines of an order with one line for a product
whose stock is below the quantity of the line, when no failure is scheduled. -/
theorem decreaseProductStock_one_line_skip (pre post : List ProductItem) (item : ProductItem)
    (q : Product) (w : World) (h : w.faults = [])
    (hothers : ∀ it ∈ pre ++ post, it.ProductID ≠ item.ProductID)
    (hq : w.products.find? (fun p => p.ID == item.ProductID) = some q)
    (hstock : q.Stock < item.Quantity) :
    (decreaseProductStock (pre ++ item :: post) w).2.faults = [] ∧
      (decreaseProductStock (pre ++ item :: post) w).2.products.find?
          (fun p => p.ID == item.ProductID) = some q := by
  have hpre := decreaseProductStock_other item.ProductID pre w h
    (fun it hm => hothers it (List.mem_append_left _ hm))
  rw [hq] at hpre
  have hline := decreaseProductStock_line_skip item q _ hpre.1 hpre.2 hstock
  have hpost := decreaseProductStock_other item.ProductID post _ hline.1
    (fun it hm => hothers it (List.mem_append_right _ hm))
  rw [hline.2] at hpost
  have happ : decreaseProductStock (pre ++ item :: post) w =
      decreaseProductStock post
        (decreaseProductStock [item] (decreaseProductStock pre w).2).2 := by
    rw [decreaseProductStock_append pre (item :: post) w]
    exact decreaseProductStock_append [item] post _
  rw [happ]
  exact hpost

/-- C28. `restoreProductStock` adds the quantity of the line whether or not the
settlement decreased the stock: for an order in status `created` with one line
of quantity `q` for a product whose stock `s` is below `q`, when the store calls
succeed, the stock decrease leaves the stock at `s` and the cancellation of the
order then succeeds and sets the stock to `s + q` (in `int64`). -/
theorem CancelUserOrder_adds_unconditionally (now : Time) (userId orderId : String) (w : World)
    (order : Order) (product : Product) (item : ProductItem) (pre post : List ProductItem)
    (hquiet : w.faults = [])
    (horder : w.orders.find? (fun o => o.ID == orderId && o.User == userId) = some order)
    (hcreated : order.Status = OrderStatusCreated)
    (hlines : order.Products = pre ++ item :: post)
    (hothers : ∀ it ∈ pre ++ post, it.ProductID ≠ item.ProductID)
    (hproduct : w.products.find? (fun p => p.ID == item.ProductID) = some product)
    (hstock : product.Stock < item.Quantity) :
    (decreaseProductStock order.Products w).2.stockOf item.ProductID = some product.Stock ∧
      (OrderService.CancelUserOrder now userId orderId
        (decreaseProductStock order.Products w).2).1 = .ok () ∧
      (OrderService.CancelUserOrder now userId orderId
        (decreaseProductStock order.Products w).2).2.stockOf item.ProductID =
          some (wrap64 (product.Stock + item.Quantity)) ∧
      (-9223372036854775808 ≤ product.Stock + item.Quantity →
        product.Stock + item.Quantity ≤ 9223372036854775807 →
        (OrderService.CancelUserOrder now userId orderId
          (decreaseProductStock order.Products w).2).2.stockOf item.ProductID =
            some (product.Stock + item.Quantity)) := by
  have hdec := decreaseProductStock_one_line_skip pre post item product w hquiet hothers
    hproduct hstock
  rw [← hlines] at hdec
  have hframe := decreaseProductStock_frame order.Products w
  have hfound : (decreaseProductStock order.Products w).2.orders.find?
      (fun o => o.ID == orderId && o.User == userId) = some order := by
    rw [hframe.2.2.1]
    exact horder
  obtain ⟨w2, hw2, hprod, hcancel⟩ := CancelUserOrder_created now userId orderId
    (decreaseProductStock order.Products w).2 order hdec.1 hfound hcreated
  have hres := restoreProductStock_one_line pre post item product w2 hw2 hothers
    (by rw [hprod]; exact hdec.2)
  rw [← hlines] at hres
  have hafter : (OrderService.CancelUserOrder now userId orderId
      (decreaseProductStock order.Products w).2).2.stockOf item.ProductID =
        some (wrap64 (product.Stock + item.Quantity)) := by
    rw [hcancel]
    unfold World.stockOf
    dsimp only
    rw [hres.2]
    rfl
  refine ⟨?_, by rw [hcancel], hafter, fun hlo hhi => ?_⟩
  · unfold World.stockOf
    rw [hdec.2]
    rfl
  · rw [hafter, wrap64_of_range _ hlo hhi]

/-- C28, on the order for twenty units of a product with stock 10: the decrease
is skipped and the cancellation sets the stock to 30. -/
theorem CancelUserOrder_adds_unconditionally_witness :
    (decreaseProductStock largeOrder.Products largeOrderWorld).2.stockOf "p1" = some 10 ∧
      (OrderService.CancelUserOrder exampleTime "u1" "order-1"
        (decreaseProductStock largeOrder.Products largeOrderWorld).2).1 = .ok () ∧
      (OrderService.CancelUserOrder exampleTime "u1" "order-1"
        (decreaseProductStock largeOrder.Products largeOrderWorld).2).2.stockOf "p1" =
          some 30 :=
  have h := CancelUserOrder_adds_unconditionally exampleTime "u1" "order-1" largeOrderWorld
    largeOrder exampleProduct twentyUnits [] [] (by decide) (by decide) (by decide) (by decide)
    (by decide) (by decide) (by decide)
  ⟨h.1, h.2.1, h.2.2.2 (by decide) (by decide)⟩

/-! ## A settlement that cannot create its order -/

/-- The loop that reads the products of a payment writes neither to the order
store nor to the stock. -/
theorem orderItemsLoop_writes (ids : List String) :
    ∀ (acc : List ProductItem) (w : World),
      orderAndStockWrites (orderItemsLoop ids acc w).2.trace = orderAndStockWrites w.trace := by
  induction ids with
  | nil => intro acc w; rfl
  | cons id rest ih =>
    intro acc w
    unfold orderItemsLoop
    have hw := GetProductByID_writes id w
    rcases hg : GetProductByID id w with ⟨r, w1⟩
    rw [hg] at hw
    cases r with
    | error e => exact hw
    | ok product =>
      dsimp only
      rw [ih]
      exact hw

/-- The loop that reads the products of a payment ends in an error when one of
the ids is not in the catalog, whatever the outcomes of the other reads. -/
theorem orderItemsLoop_missing (ids : List String) :
    ∀ (acc : List ProductItem) (w : World),
      (∃ id ∈ ids, w.products.find? (fun p => p.ID == id) = none) →
      ∃ err, (orderItemsLoop ids acc w).1 = .error err := by
  induction ids with
  | nil => intro acc w ⟨id, hid, _⟩; simp at hid
  | cons id rest ih =>
    intro acc w ⟨missing, hmem, hnone⟩
    unfold orderItemsLoop
    have hs := GetProductByID_sameStores id w
    have hok := GetProductByID_ok id w
    rcases hg : GetProductByID id w with ⟨r, w1⟩
    rw [hg] at hs hok
    cases r with
    | error e => exact ⟨_, rfl⟩
    | ok product =>
      dsimp only
      have hfound := hok product rfl
      apply ih
      rcases List.mem_cons.mp hmem with heq | hrest
      · rw [heq, hfound] at hnone
        simp at hnone
      · exact ⟨missing, hrest, by rw [hs.2.2.1]; exact hnone⟩

/-- The order creation for a payment without product ids, or with a product id
that the catalog lacks: an error is returned, no store is changed, no write to
the order store nor to the stock is made. -/
theorem CreateOrderFromPayment_refuses (env : Env) (p : Payment) (w : World)
    (hbad : p.ProductIDs = [] ∨ ∃ id ∈ p.ProductIDs, w.products.find? (fun q => q.ID == id) = none) :
    (∃ err, (CreateOrderFromPayment env p w).1 = .error err) ∧
      w.sameStores (CreateOrderFromPayment env p w).2 ∧
      orderAndStockWrites (CreateOrderFromPayment env p w).2.trace =
        orderAndStockWrites w.trace := by
  unfold CreateOrderFromPayment
  split
  · exact ⟨⟨_, rfl⟩, sameStores_refl w, rfl⟩
  · rename_i hlen
    rcases hbad with hempty | hmissing
    · rw [hempty] at hlen
      simp at hlen
    · obtain ⟨err, herr⟩ := orderItemsLoop_missing p.ProductIDs [] w hmissing
      have hs := orderItemsLoop_sameStores p.ProductIDs [] w
      have hw := orderItemsLoop_writes p.ProductIDs [] w
      rcases hl : orderItemsLoop p.ProductIDs [] w with ⟨r, w1⟩
      rw [hl] at herr hs hw
      dsimp only at herr
      subst herr
      exact ⟨⟨_, rfl⟩, hs, hw⟩

/-- C27. `ProcessSuccessfulPayment` writes the status `success` before it
creates the order: for every payment found whose `ProductIDs` is empty or holds
an id that the catalog lacks, when the lookup of the payment and the status
write go through, the call returns an error and no order, the record with the
id of the payment is left in status `success`, and orders, products (so the
stock) and carts are as before, with no write to the order store nor to the
stock. -/
theorem ProcessSuccessfulPayment_success_without_order (env : Env) (transactionUUID : String)
    (w : World) (payment : Payment) (hlookup : w.outcome = none)
    (hwrite : (w.step (Event.findPayment transactionUUID)).outcome = none)
    (hfound : w.payments.find? (fun q => q.TransactionUuid == transactionUUID) = some payment)
    (hbad : payment.ProductIDs = [] ∨
      ∃ id ∈ payment.ProductIDs, w.products.find? (fun q => q.ID == id) = none) :
    (∃ err, (ProcessSuccessfulPayment env transactionUUID w).1 = .error err) ∧
      (ProcessSuccessfulPayment env transactionUUID w).2.payments =
        updateFirst (fun q => q.ID == payment.ID)
          (setPaymentStatus env.now PaymentStatusSuccess) w.payments ∧
      ((ProcessSuccessfulPayment env transactionUUID w).2.payments.find?
        (fun q => q.ID == payment.ID)).map (fun q => q.Status) = some PaymentStatusSuccess ∧
      (ProcessSuccessfulPayment env transactionUUID w).2.orders = w.orders ∧
      (ProcessSuccessfulPayment env transactionUUID w).2.products = w.products ∧
      (ProcessSuccessfulPayment env transactionUUID w).2.carts = w.carts ∧
      orderAndStockWrites (ProcessSuccessfulPayment env transactionUUID w).2.trace =
        orderAndStockWrites w.trace := by
  have hpay := ProcessSuccessfulPayment_payments env transactionUUID w payment hlookup hwrite
    hfound
  have hsome : ∃ first, w.payments.find? (fun q => q.ID == payment.ID) = some first := by
    apply Option.isSome_iff_exists.mp
    rw [List.find?_isSome]
    exact ⟨payment, List.mem_of_find?_eq_some hfound, by simp⟩
  obtain ⟨first, hfirst⟩ := hsome
  have hstatus : ((ProcessSuccessfulPayment env transactionUUID w).2.payments.find?
      (fun q => q.ID == payment.ID)).map (fun q => q.Status) = some PaymentStatusSuccess := by
    rw [hpay, find?_updateFirst_self (fun q => q.ID == payment.ID)
      (setPaymentStatus env.now PaymentStatusSuccess) (fun d hd => hd) _ _ hfirst]
    rfl
  have hget : GetPaymentByTransactionUUID transactionUUID w =
      (.ok payment, w.step (.findPayment transactionUUID)) := by
    unfold GetPaymentByTransactionUUID
    simp [hlookup, hfound]
  have hupd : UpdatePaymentStatus env.now payment.ID PaymentStatusSuccess
      (w.step (.findPayment transactionUUID)) =
      (.ok (), { (w.step (.findPayment transactionUUID)).step
          (.updatePaymentStatus payment.ID PaymentStatusSuccess) with
        payments := updateFirst (fun p => p.ID == payment.ID)
          (setPaymentStatus env.now PaymentStatusSuccess) w.payments }) := by
    unfold UpdatePaymentStatus
    simp [hwrite]
  obtain ⟨err, w1, hpsp, ho, hp, hc, ht⟩ : ∃ err w1,
      ProcessSuccessfulPayment env transactionUUID w = (.error err, w1) ∧
      w1.orders = w.orders ∧ w1.products = w.products ∧ w1.carts = w.carts ∧
      orderAndStockWrites w1.trace = orderAndStockWrites w.trace := by
    have hW : ∃ W0 : World, (UpdatePaymentStatus env.now payment.ID PaymentStatusSuccess
        (w.step (.findPayment transactionUUID))) = (.ok (), W0) ∧ W0.orders = w.orders ∧
        W0.products = w.products ∧ W0.carts = w.carts ∧
        orderAndStockWrites W0.trace = orderAndStockWrites w.trace := by
      refine ⟨_, hupd, rfl, rfl, rfl, ?_⟩
      show orderAndStockWrites ((w.trace ++ [Event.findPayment transactionUUID]) ++
        [Event.updatePaymentStatus payment.ID PaymentStatusSuccess]) = _
      simp [orderAndStockWrites_append, orderAndStockWrites]
    obtain ⟨W0, hW0, ho0, hp0, hc0, ht0⟩ := hW
    obtain ⟨⟨e, he⟩, hs, hw⟩ := CreateOrderFromPayment_refuses env payment W0
      (by rw [hp0]; exact hbad)
    rcases hco : CreateOrderFromPayment env payment W0 with ⟨r, w1⟩
    rw [hco] at he hs hw
    dsimp only at he
    subst he
    refine ⟨Sprintf "failed to create order: %v" [e], w1, ?_, hs.2.1.trans ho0, hs.2.2.1.trans hp0, hs.2.2.2.trans hc0, hw.trans ht0⟩
    unfold ProcessSuccessfulPayment
    rw [hget]
    dsimp only
    rw [hW0]
    dsimp only
    rw [hco]
  refine ⟨⟨err, by rw [hpsp]⟩, hpay, hstatus, ?_, ?_, ?_, ?_⟩
  · rw [hpsp]; exact ho
  · rw [hpsp]; exact hp
  · rw [hpsp]; exact hc
  · rw [hpsp]; exact ht

/-- C27, on a payment for `p1` and for a product that the catalog lacks: the
settlement returns an error; the payment is left in status `success`, no order
is persisted, the stock of `p1` stays at 10 and the cart of `u1` stays. -/
theorem ProcessSuccessfulPayment_success_without_order_witness :
    (ProcessSuccessfulPayment settleEnv1 "250309-070559-0A0B0" ghostPaymentWorld).1 =
        .error ("failed to create order: failed to get product details: " ++ ErrNoDocuments) ∧
      (ProcessSuccessfulPayment settleEnv1 "250309-070559-0A0B0" ghostPaymentWorld).2.payments.map
        (fun q => q.Status) = [PaymentStatusSuccess] ∧
      (ProcessSuccessfulPayment settleEnv1 "250309-070559-0A0B0" ghostPaymentWorld).2.orders =
        [] ∧
      (ProcessSuccessfulPayment settleEnv1 "250309-070559-0A0B0" ghostPaymentWorld).2.stockOf
        "p1" = some 10 ∧
      (ProcessSuccessfulPayment settleEnv1 "250309-070559-0A0B0" ghostPaymentWorld).2.carts =
        ["u1"] :=
  have h := ProcessSuccessfulPayment_success_without_order settleEnv1 "250309-070559-0A0B0"
    ghostPaymentWorld ghostPayment (by decide) (by decide) (by decide)
    (Or.inr ⟨"ghost", by decide, by decide⟩)
  ⟨by decide, by decide, h.2.2.2.1, by decide, h.2.2.2.2.2.1⟩

/-! ## Orders of single units -/

/-- The lines that the loop over the product ids adds: one per id, with that id
and quantity 1. -/
theorem orderItemsLoop_lines (ids : List String) :
    ∀ (acc : List ProductItem) (w : World) (items : List ProductItem),
      (orderItemsLoop ids acc w).1 = .ok items →
      ∃ added, items = acc ++ added ∧ added.map (fun l => l.ProductID) = ids ∧
        ∀ l ∈ added, l.Quantity = 1 := by
  induction ids with
  | nil =>
    intro acc w items h
    simp only [orderItemsLoop, Except.ok.injEq] at h
    exact ⟨[], by simp [h], rfl, by simp⟩
  | cons id rest ih =>
    intro acc w items h
    unfold orderItemsLoop at h
    have hok := GetProductByID_ok id w
    rcases hg : GetProductByID id w with ⟨r, w1⟩
    rw [hg] at h hok
    cases r with
    | error e => simp at h
    | ok product =>
      dsimp only at h
      obtain ⟨added, h1, h2, h3⟩ := ih _ w1 items h
      have hid : product.ID = id := by simpa using List.find?_some (hok product rfl)
      refine ⟨newOrderItem product :: added, by simp [h1], ?_, ?_⟩
      · simp [newOrderItem, hid, h2]
      · intro l hl
        rcases List.mem_cons.mp hl with heq | hmem
        · rw [heq]; rfl
        · exact h3 l hmem

/-- The products after a stock write: unchanged, or the first product with the
id and seller rewritten. -/
theorem UpdateProductStock_products (sid id : String) (n : Int) (w : World) :
    (UpdateProductStock sid id n w).2.products = w.products ∨
      (UpdateProductStock sid id n w).2.products =
        updateFirst (fun p => p.ID == id && p.SellerID == sid) (setStock n) w.products := by
  unfold UpdateProductStock
  split
  · exact Or.inl rfl
  · exact Or.inr rfl

/-- The stock decrease over lines of quantity 1, whatever the outcomes of its
reads and writes: the stock of a product goes down by at most the number of
lines for it, and never up. -/
theorem decreaseProductStock_bounds (id : String) (items : List ProductItem) :
    ∀ (w : World) (s : Int), (∀ it ∈ items, it.Quantity = 1) → w.stockOf id = some s →
      s ≤ 9223372036854775807 →
      ∃ s1, (decreaseProductStock items w).2.stockOf id = some s1 ∧
        s - ((items.map (fun it => it.ProductID)).count id : Int) ≤ s1 ∧ s1 ≤ s := by
  induction items with
  | nil =>
    intro w s _ hs _
    exact ⟨s, hs, by simp, Int.le_refl s⟩
  | cons item rest ih =>
    intro w s hq hs hmax
    have hrest : ∀ it ∈ rest, it.Quantity = 1 := fun it hm => hq it (List.mem_cons_of_mem _ hm)
    have hone : item.Quantity = 1 := hq item (List.mem_cons_self _ _)
    have hcount : (0 : Int) ≤ ((rest.map (fun it => it.ProductID)).count id : Int) :=
      Int.ofNat_nonneg _
    have hcons : (((item :: rest).map (fun it => it.ProductID)).count id : Int) =
        ((rest.map (fun it => it.ProductID)).count id : Int) +
          (if item.ProductID = id then 1 else 0) := by
      rw [List.map_cons, List.count_cons]
      by_cases hid : item.ProductID = id <;> simp [hid]
    have hskip : ∀ w1 : World, w1.products = w.products →
        ∃ s1, (decreaseProductStock rest w1).2.stockOf id = some s1 ∧
          s - (((item :: rest).map (fun it => it.ProductID)).count id : Int) ≤ s1 ∧ s1 ≤ s := by
      intro w1 hp
      obtain ⟨s1, h1, h2, h3⟩ := ih w1 s hrest (by unfold World.stockOf; rw [hp]; exact hs) hmax
      refine ⟨s1, h1, ?_, h3⟩
      rw [hcons]
      split <;> omega
    unfold decreaseProductStock
    have hsame := GetProductByID_sameStores item.ProductID w
    have hok := GetProductByID_ok item.ProductID w
    rcases hg : GetProductByID item.ProductID w with ⟨r, w1⟩
    rw [hg] at hsame hok
    have hprod : w1.products = w.products := hsame.2.2.1
    cases r with
    | error e => exact hskip w1 hprod
    | ok product =>
      dsimp only
      have hfound := hok product rfl
      split
      · exact hskip w1 hprod
      · rename_i hnlt
        rcases UpdateProductStock_products product.SellerID item.ProductID
          (wrap64 (product.Stock - item.Quantity)) w1 with hu | hu
        · exact hskip _ (hu.trans hprod)
        · by_cases hid : item.ProductID = id
          · have hstock : product.Stock = s := by
              unfold World.stockOf at hs
              rw [← hid, hfound] at hs
              simpa using hs
            have hnew : wrap64 (product.Stock - item.Quantity) = s - 1 := by
              rw [hone, hstock]
              rw [hone, hstock] at hnlt
              exact wrap64_of_range _ (by omega) (by omega)
            have hafter : (UpdateProductStock product.SellerID item.ProductID
                (wrap64 (product.Stock - item.Quantity)) w1).2.stockOf id = some (s - 1) := by
              unfold World.stockOf
              rw [hu, hprod, ← hid, find?_updateFirst_same_product _ _ _ _ hfound, hnew]
              rfl
            obtain ⟨s1, h1, h2, h3⟩ := ih _ (s - 1) hrest hafter (by omega)
            refine ⟨s1, h1, ?_, by omega⟩
            rw [hcons, if_pos hid]
            omega
          · have hafter : (UpdateProductStock product.SellerID item.ProductID
                (wrap64 (product.Stock - item.Quantity)) w1).2.stockOf id = some s := by
              unfold World.stockOf
              rw [hu, hprod, find?_updateFirst_other_product _ _ _ _ (fun hc => hid hc.symm)]
              exact hs
            obtain ⟨s1, h1, h2, h3⟩ := ih _ s hrest hafter hmax
            refine ⟨s1, h1, ?_, h3⟩
            rw [hcons, if_neg hid]
            omega

/-- The lines of the order that `CreateOrderFromPayment` returns: one per product
id of the payment, in order, each of quantity 1. -/
theorem CreateOrderFromPayment_lines (env : Env) (p : Payment) (w : World) (order : Order)
    (h : (CreateOrderFromPayment env p w).1 = .ok order) :
    order.Products.map (fun l => l.ProductID) = p.ProductIDs ∧
      ∀ l ∈ order.Products, l.Quantity = 1 := by
  unfold CreateOrderFromPayment at h
  split at h
  · simp at h
  · have hlines := orderItemsLoop_lines p.ProductIDs [] w
    rcases hl : orderItemsLoop p.ProductIDs [] w with ⟨r, w1⟩
    rw [hl] at h hlines
    cases r with
    | error e => simp at h
    | ok items =>
      dsimp only at h
      obtain ⟨added, h1, h2, h3⟩ := hlines items rfl
      rw [List.nil_append] at h1
      subst h1
      rcases hc : CreateOrder (newOrder env p items) w1 with ⟨r2, w2⟩
      rw [hc] at h
      cases r2 with
      | error e => simp at h
      | ok u =>
        simp only [Except.ok.injEq] at h
        rw [← h]
        exact ⟨h2, h3⟩

/-- The stock after `CreateOrderFromPayment`, whatever the outcomes of its
calls: lower by at most the number of occurrences of the product id among the
product ids of the payment, and never higher. -/
theorem CreateOrderFromPayment_stock (env : Env) (p : Payment) (w : World) (id : String)
    (s : Int) (hs : w.stockOf id = some s) (hmax : s ≤ 9223372036854775807) :
    ∃ s1, (CreateOrderFromPayment env p w).2.stockOf id = some s1 ∧
      s - (p.ProductIDs.count id : Int) ≤ s1 ∧ s1 ≤ s := by
  have hcount : (0 : Int) ≤ (p.ProductIDs.count id : Int) := Int.ofNat_nonneg _
  have hsame : ∀ w1 : World, w1.products = w.products →
      ∃ s1, w1.stockOf id = some s1 ∧ s - (p.ProductIDs.count id : Int) ≤ s1 ∧ s1 ≤ s := by
    intro w1 hp
    exact ⟨s, by unfold World.stockOf; rw [hp]; exact hs, by omega, Int.le_refl s⟩
  unfold CreateOrderFromPayment
  split
  · exact hsame w rfl
  · have hlines := orderItemsLoop_lines p.ProductIDs [] w
    have hstores := orderItemsLoop_sameStores p.ProductIDs [] w
    rcases hl : orderItemsLoop p.ProductIDs [] w with ⟨r, w1⟩
    rw [hl] at hlines hstores
    cases r with
    | error e => exact hsame w1 hstores.2.2.1
    | ok items =>
      dsimp only
      obtain ⟨added, h1, h2, h3⟩ := hlines items rfl
      rw [List.nil_append] at h1
      subst h1
      have hframe := CreateOrder_frame (newOrder env p items) w1
      rcases hc : CreateOrder (newOrder env p items) w1 with ⟨r2, w2⟩
      rw [hc] at hframe
      have hp2 : w2.products = w.products := hframe.2.1.trans hstores.2.2.1
      cases r2 with
      | error e => exact hsame w2 hp2
      | ok u =>
        dsimp only
        have hb := decreaseProductStock_bounds id items w2 s h3
          (by unfold World.stockOf; rw [hp2]; exact hs) hmax
        rw [h2] at hb
        exact hb

/-- The stock after `ProcessSuccessfulPayment`, whatever the outcomes of its
calls: lower by at most the number of occurrences of the product id among the
product ids of the payment found, and never higher. -/
theorem ProcessSuccessfulPayment_stock_bounds (env : Env) (t : String) (w : World)
    (p : Payment) (id : String) (s : Int)
    (hp : w.payments.find? (fun q => q.TransactionUuid == t) = some p)
    (hs : w.stockOf id = some s) (hmax : s ≤ 9223372036854775807) :
    ∃ s1, (ProcessSuccessfulPayment env t w).2.stockOf id = some s1 ∧
      s - (p.ProductIDs.count id : Int) ≤ s1 ∧ s1 ≤ s := by
  have hcount : (0 : Int) ≤ (p.ProductIDs.count id : Int) := Int.ofNat_nonneg _
  have hsame : ∀ w1 : World, w1.products = w.products →
      ∃ s1, w1.stockOf id = some s1 ∧ s - (p.ProductIDs.count id : Int) ≤ s1 ∧ s1 ≤ s := by
    intro w1 hp
    exact ⟨s, by unfold World.stockOf; rw [hp]; exact hs, by omega, Int.le_refl s⟩
  unfold ProcessSuccessfulPayment
  have hstores := GetPaymentByTransactionUUID_sameStores t w
  have hpay : ∀ q, (GetPaymentByTransactionUUID t w).1 = .ok q → q = p := by
    intro q hq
    unfold GetPaymentByTransactionUUID at hq
    repeat' (first | split at hq | dsimp only at hq)
    all_goals simp_all
  rcases hg : GetPaymentByTransactionUUID t w with ⟨r, w1⟩
  rw [hg] at hstores hpay
  cases r with
  | error e => exact hsame w1 hstores.2.2.1
  | ok payment =>
    dsimp only
    have hpeq := hpay payment rfl
    subst hpeq
    have hframe := UpdatePaymentStatus_frame env.now payment.ID PaymentStatusSuccess w1
    rcases hu : UpdatePaymentStatus env.now payment.ID PaymentStatusSuccess w1 with ⟨r2, w2⟩
    rw [hu] at hframe
    have hp2 : w2.products = w.products := hframe.2.1.trans hstores.2.2.1
    cases r2 with
    | error e => exact hsame w2 hp2
    | ok u =>
      dsimp only
      have hb := CreateOrderFromPayment_stock env payment w2 id s
        (by unfold World.stockOf; rw [hp2]; exact hs) hmax
      rcases hc : CreateOrderFromPayment env payment w2 with ⟨r3, w3⟩
      rw [hc] at hb
      cases r3 with
      | error e => exact hb
      | ok order =>
        dsimp only
        have hcl := ClearUserCart_frame payment.UserId w3
        unfold World.stockOf at hb ⊢
        rw [hcl.2.2]
        exact hb

/-- C25. Every line of an order returned by `CreateOrderFromPayment` has
quantity 1, one line per product id of the payment, in order: the payment record
holds no quantity and the function takes nothing else from the checkout. So the
order creation, and the settlement by `ProcessSuccessfulPayment` that runs it,
lower the stock of a product by at most 1 for each occurrence of its id in the
`ProductIDs` of the payment, whatever the outcomes of the store calls. -/
theorem settlement_orders_single_units (env : Env) (w : World) (id : String) (s : Int)
    (hstock : w.stockOf id = some s) (hmax : s ≤ 9223372036854775807) :
    (∀ payment order, (CreateOrderFromPayment env payment w).1 = .ok order →
        order.Products.map (fun l => l.ProductID) = payment.ProductIDs ∧
        ∀ l ∈ order.Products, l.Quantity = 1) ∧
      (∀ payment, ∃ s1, (CreateOrderFromPayment env payment w).2.stockOf id = some s1 ∧
        s - (payment.ProductIDs.count id : Int) ≤ s1 ∧ s1 ≤ s) ∧
      (∀ transactionUUID payment,
        w.payments.find? (fun q => q.TransactionUuid == transactionUUID) = some payment →
        ∃ s1, (ProcessSuccessfulPayment env transactionUUID w).2.stockOf id = some s1 ∧
          s - (payment.ProductIDs.count id : Int) ≤ s1 ∧ s1 ≤ s) :=
  ⟨fun payment order h => CreateOrderFromPayment_lines env payment w order h,
    fun payment => CreateOrderFromPayment_stock env payment w id s hstock hmax,
    fun t payment hp => ProcessSuccessfulPayment_stock_bounds env t w payment id s hp hstock hmax⟩

/-- C25, on the scenario: the cart held two units of `p1`, the payment holds the
id `p1` once, the order has one line of quantity 1 and the stock goes from 10
to 9. -/
theorem settlement_orders_single_units_witness :
    exampleCart.map (fun item => (item.ID, item.Quantity)) = [("p1", 2)] ∧
      pendingPayment.ProductIDs = ["p1"] ∧
      (∃ s1, (ProcessSuccessfulPayment settleEnv1 "250309-070559-0A0B0"
          pendingPaymentWorld).2.stockOf "p1" = some s1 ∧
        10 - (pendingPayment.ProductIDs.count "p1" : Int) ≤ s1 ∧ s1 ≤ 10) ∧
      (ProcessSuccessfulPayment settleEnv1 "250309-070559-0A0B0"
        pendingPaymentWorld).2.stockOf "p1" = some 9 ∧
      (ProcessSuccessfulPayment settleEnv1 "250309-070559-0A0B0"
        pendingPaymentWorld).2.orders.map
          (fun o => o.Products.map (fun l => (l.ProductID, l.Quantity))) = [[("p1", 1)]] :=
  ⟨by decide, by decide,
    (settlement_orders_single_units settleEnv1 pendingPaymentWorld "p1" 10 (by decide)
      (by decide)).2.2 "250309-070559-0A0B0" pendingPayment (by decide),
    by decide, by decide⟩

/-! ## The amounts of the payload -/

/-- The cart loop stays within `int64` when it starts there. -/
theorem cartAmount_wrapped (cartItems : List CartItem) :
    ∀ amount : Int, wrap64 amount = amount →
      wrap64 (cartAmount cartItems amount) = cartAmount cartItems amount := by
  induction cartItems with
  | nil => intro amount h; exact h
  | cons item rest ih =>
    intro amount _
    unfold cartAmount
    exact ih _ (wrap64_wrap64 _)

/-- The cart sum computed by `InitiatePayment` is the sum of `Price × Quantity`
reduced to `int64`. -/
theorem cartAmount_eq (cartItems : List CartItem) :
    cartAmount cartItems 0 = wrap64 (cartSum cartItems) := by
  have h := wrap64_cartAmount cartItems 0
  rw [cartAmount_wrapped cartItems 0 (by decide), Int.zero_add] at h
  exact h

/-- The amount charged, from the cart sum in `int64`. -/
theorem chargedAmount_max (cartItems : List CartItem) :
    chargedAmount cartItems = max (cartAmount cartItems 0) 1 := by
  rw [chargedAmount_eq, cartAmount_eq, max_comm]

/-- C26. In the form that `InitiatePayment` builds, `tax_amount`,
`product_service_charge` and `product_delivery_charge` are `0`, `amount` is the
decimal rendering of the cart sum `S`, computed in `int64` (the sum of
`Price × Quantity` reduced to `int64`), and `total_amount` is the decimal
rendering of `max S 1`; so the total rendered is the sum of the four other
amounts rendered exactly when `S ≥ 1`; and the payment record that
`InitiatePayment` stores, when it stores one, has `Amount = max S 1`. -/
theorem gateway_payload_amounts (env : Env) (ctx : Ctx) (cartItems : List CartItem)
    (w : World) :
    Values.Get (gatewayForm env cartItems) "tax_amount" = "0" ∧
      Values.Get (gatewayForm env cartItems) "product_service_charge" = "0" ∧
      Values.Get (gatewayForm env cartItems) "product_delivery_charge" = "0" ∧
      Values.Get (gatewayForm env cartItems) "amount" = FormatInt (cartAmount cartItems 0) ∧
      cartAmount cartItems 0 = wrap64 (cartSum cartItems) ∧
      Values.Get (gatewayForm env cartItems) "total_amount" =
        FormatInt (max (cartAmount cartItems 0) 1) ∧
      (max (cartAmount cartItems 0) 1 = cartAmount cartItems 0 + 0 + 0 + 0 ↔
        1 ≤ cartAmount cartItems 0) ∧
      ((InitiatePayment env ctx cartItems w).2.payments = w.payments ∨
        ∃ record, (InitiatePayment env ctx cartItems w).2.payments = w.payments ++ [record] ∧
          record.Amount = max (cartAmount cartItems 0) 1) := by
  refine ⟨rfl, rfl, rfl, rfl, cartAmount_eq cartItems, ?_, ?_, ?_⟩
  · show FormatInt (chargedAmount cartItems) = _
    rw [chargedAmount_max]
  · constructor
    · intro h
      omega
    · intro h
      omega
  · rcases InitiatePayment_payments env ctx cartItems w with h | ⟨userId, h⟩
    · exact Or.inl h
    · exact Or.inr ⟨_, h, chargedAmount_max cartItems⟩

/-! ## The rating written by `CreateComment` -/

/-- The validation of `GetSellerProducts`: a page below 1 becomes 1, a limit
below 1 becomes 10, a limit above 100 becomes 100, other values are kept. -/
theorem normalized_values (page limit : Int) :
    (page < 1 → normalizedPage page = 1) ∧ (1 ≤ page → normalizedPage page = page) ∧
      (limit < 1 → normalizedLimit limit = 10) ∧ (100 < limit → normalizedLimit limit = 100) ∧
      (1 ≤ limit → limit ≤ 100 → normalizedLimit limit = limit) ∧
      1 ≤ normalizedPage page ∧ 1 ≤ normalizedLimit limit ∧ normalizedLimit limit ≤ 100 := by
  unfold normalizedPage normalizedLimit
  dsimp only
  refine ⟨?_, ?_, ?_, ?_, ?_, ?_, ?_, ?_⟩
  all_goals (repeat' split) <;> omega

/-- The ceiling division of `GetSellerProducts`, when `total + limit - 1` fits
`int64`: a page number is below `totalPages` exactly when `page × limit` is
below the total. -/
theorem lt_totalPages_iff (page total limit : Int) (htotal : 0 ≤ total) (hlimit : 1 ≤ limit)
    (hfit : total + limit - 1 ≤ 9223372036854775807) :
    page < totalPages total limit ↔ page * limit < total := by
  have hpos : 0 < limit := by omega
  have hq : totalPages total limit = (total + limit - 1) / limit := by
    unfold totalPages goQuot
    have hw : wrap64 (wrap64 (total + limit) - 1) = total + limit - 1 := by
      unfold wrap64
      omega
    rw [hw, Int.tdiv_eq_ediv (by omega) (by omega)]
    have h1 : 0 ≤ (total + limit - 1) / limit := Int.ediv_nonneg (by omega) (by omega)
    have h2 : (total + limit - 1) / limit ≤ total + limit - 1 :=
      Int.ediv_le_self limit (show 0 ≤ total + limit - 1 by omega)
    exact wrap64_of_range _ (by omega) (by omega)
  rw [hq]
  have h : page + 1 ≤ (total + limit - 1) / limit ↔ (page + 1) * limit ≤ total + limit - 1 :=
    Int.le_ediv_iff_mul_le hpos
  have hmul : (page + 1) * limit = page * limit + limit := by
    rw [Int.add_mul, Int.one_mul]
  constructor
  · intro hlt
    have := h.mp (by omega)
    omega
  · intro hlt
    have := h.mpr (by omega)
    omega

/-- The products of a seller counted by `GetSellerProducts`. -/
theorem sellerTotal_nonneg (sellerId : String) (w : World) :
    0 ≤ sellerTotal w sellerId :=
  Int.ofNat_nonneg _

/-- A run of `GetSellerProducts` when no failure is scheduled: with no product
of the seller, the empty list, total 0 and `hasMore = false`; otherwise, when
the skip is not negative, the page cut from the products of the seller sorted
newest first, their number and `hasMore` from `totalPages`. -/
theorem GetSellerProducts_quiet (sellerId : String) (page limit : Int) (w : World)
    (hquiet : w.faults = []) :
    (((w.products.filter (fun p => p.SellerID == sellerId)).length : Int) = 0 →
        GetSellerProducts sellerId page limit w =
          (.ok ([], 0, false), w.step (.countProducts sellerId))) ∧
      (((w.products.filter (fun p => p.SellerID == sellerId)).length : Int) ≠ 0 →
        0 ≤ wrap64 ((normalizedPage page - 1) * normalizedLimit limit) →
        GetSellerProducts sellerId page limit w =
          (.ok (((sortNewestFirst (w.products.filter (fun p => p.SellerID == sellerId))).drop
              (wrap64 ((normalizedPage page - 1) * normalizedLimit limit)).toNat).take
                (normalizedLimit limit).toNat,
            ((w.products.filter (fun p => p.SellerID == sellerId)).length : Int),
            decide (normalizedPage page <
              totalPages ((w.products.filter (fun p => p.SellerID == sellerId)).length : Int)
                (normalizedLimit limit))),
            ((w.step (.countProducts sellerId)).step
              (.findSellerProducts sellerId
                (wrap64 ((normalizedPage page - 1) * normalizedLimit limit))
                (normalizedLimit limit))).step .decodeProducts)) := by
  constructor
  · intro hzero
    unfold GetSellerProducts
    simp [World.outcome, hquiet, hzero]
  · intro hne hskip
    have hnlt : ¬ wrap64 ((normalizedPage page - 1) * normalizedLimit limit) < 0 := by omega
    unfold GetSellerProducts
    simp [World.outcome, hquiet, hne, hnlt]

/-- What `GetSellerProducts` reports when it returns no error: the number of
products of the seller as total, and `hasMore` from `totalPages`. -/
theorem GetSellerProducts_ok (sellerId : String) (page limit : Int) (w : World)
    (products : List Product) (total : Int) (hasMore : Bool)
    (h : (GetSellerProducts sellerId page limit w).1 = .ok (products, total, hasMore)) :
    total = ((w.products.filter (fun p => p.SellerID == sellerId)).length : Int) ∧
      hasMore = decide (normalizedPage page <
        totalPages ((w.products.filter (fun p => p.SellerID == sellerId)).length : Int)
          (normalizedLimit limit)) := by
  have hpage := (normalized_values page limit).2.2.2.2.2.1
  have hlim := (normalized_values page limit).2.2.2.2.2.2
  unfold GetSellerProducts at h
  dsimp only at h
  split at h
  · simp at h
  · split at h
    · rename_i hzero
      simp only [Except.ok.injEq, Prod.mk.injEq] at h
      simp only [step_products, beq_iff_eq] at hzero
      rw [hzero]
      refine ⟨h.2.1.symm, ?_⟩
      rw [← h.2.2]
      have hp : totalPages 0 (normalizedLimit limit) = 0 := by
        unfold totalPages goQuot
        rw [Int.zero_add, wrap64_of_range (normalizedLimit limit) (by omega) (by omega),
          wrap64_of_range (normalizedLimit limit - 1) (by omega) (by omega),
          Int.tdiv_eq_ediv (by omega) (by omega),
          Int.ediv_eq_zero_of_lt (by omega) (by omega)]
        rfl
      rw [hp]
      simp only [Bool.false_eq, decide_eq_false_iff_not]
      omega
    · repeat' (first | split at h | dsimp only at h)
      all_goals first
        | (simp at h; done)
        | (simp only [Except.ok.injEq, Prod.mk.injEq, step_products] at h
           exact ⟨h.2.1.symm, h.2.2.symm⟩)

/-- C29, counterexample. With `2^63 - 1` products of the seller, page 1 and limit
10, `total + limit - 1` overflows `int64`: `totalPages` is negative and
`hasMore` is reported `false`, though `1 × 10` is below the total. -/
theorem GetSellerProducts_huge_total :
    reportedTotal (GetSellerProducts "s1" 1 10 hugeCatalog).1 = 9223372036854775807 ∧
      reportedHasMore (GetSellerProducts "s1" 1 10 hugeCatalog).1 = false ∧
      totalPages 9223372036854775807 (normalizedLimit 10) = -922337203685477580 ∧
      normalizedPage 1 * normalizedLimit 10 < 9223372036854775807 := by
  have hfilter : hugeCatalog.products.filter (fun p => p.SellerID == "s1") =
      List.replicate 9223372036854775807 exampleProduct := by
    show List.filter _ (List.replicate 9223372036854775807 exampleProduct) = _
    rw [List.filter_replicate]
    rfl
  have hlen : ((hugeCatalog.products.filter (fun p => p.SellerID == "s1")).length : Int) =
      9223372036854775807 := by
    rw [hfilter, List.length_replicate]
    rfl
  have hpages : totalPages 9223372036854775807 (normalizedLimit 10) = -922337203685477580 := by
    decide
  have hrun := (GetSellerProducts_quiet "s1" 1 10 hugeCatalog rfl).2
    (by rw [hlen]; decide) (by decide)
  rw [hrun, hlen, hpages]
  exact ⟨rfl, by decide, rfl, by decide⟩

/-- C29, amended. `GetSellerProducts` validates its arguments (a page below 1
becomes 1, a limit below 1 becomes 10, a limit above 100 becomes 100) and, for
every number of products of the seller such that `total + limit - 1` fits
`int64` (every total up to `2^63 - 100`), whenever it returns no error it
reports that number as total and `hasMore = true` exactly when
`page × limit < total` for the validated page and limit; with no product of the
seller it returns the empty list, total 0 and `hasMore = false`; and it returns
no error when the store calls succeed and the skip `(page - 1) × limit` does
not overflow to a negative number. -/
theorem GetSellerProducts_hasMore (sellerId : String) (page limit : Int) (w : World)
    (hfit : sellerTotal w sellerId + normalizedLimit limit - 1 ≤ 9223372036854775807) :
    ((page < 1 → normalizedPage page = 1) ∧ (1 ≤ page → normalizedPage page = page) ∧
      (limit < 1 → normalizedLimit limit = 10) ∧ (100 < limit → normalizedLimit limit = 100) ∧
      (1 ≤ limit → limit ≤ 100 → normalizedLimit limit = limit)) ∧
    (∀ products total hasMore,
      (GetSellerProducts sellerId page limit w).1 = .ok (products, total, hasMore) →
      total = sellerTotal w sellerId ∧
        (hasMore = true ↔ normalizedPage page * normalizedLimit limit < total)) ∧
    (w.faults = [] → sellerTotal w sellerId = 0 →
      (GetSellerProducts sellerId page limit w).1 = .ok ([], 0, false)) ∧
    (w.faults = [] → 0 ≤ wrap64 ((normalizedPage page - 1) * normalizedLimit limit) →
      (GetSellerProducts sellerId page limit w).1 =
        .ok (returnedProducts (GetSellerProducts sellerId page limit w).1,
          sellerTotal w sellerId,
          decide (normalizedPage page * normalizedLimit limit < sellerTotal w sellerId)) ∧
      (GetSellerProducts sellerId page limit w).2.trace =
        w.trace ++ Event.countProducts sellerId ::
          (if sellerTotal w sellerId = 0 then []
           else [Event.findSellerProducts sellerId
             (wrap64 ((normalizedPage page - 1) * normalizedLimit limit))
             (normalizedLimit limit), Event.decodeProducts])) := by
  obtain ⟨n1, n2, n3, n4, n5, hpage, hlim1, hlim2⟩ := normalized_values page limit
  have hiff := lt_totalPages_iff (normalizedPage page) (sellerTotal w sellerId)
    (normalizedLimit limit) (sellerTotal_nonneg sellerId w) hlim1 hfit
  refine ⟨⟨n1, n2, n3, n4, n5⟩, fun products total hasMore h => ?_, fun hquiet hzero => ?_,
    fun hquiet hskip => ?_⟩
  · obtain ⟨ht, hm⟩ := GetSellerProducts_ok sellerId page limit w products total hasMore h
    refine ⟨ht, ?_⟩
    rw [hm, ht]
    simp only [decide_eq_true_eq]
    exact hiff
  · rw [(GetSellerProducts_quiet sellerId page limit w hquiet).1 hzero]
  · by_cases hzero : sellerTotal w sellerId = 0
    · rw [(GetSellerProducts_quiet sellerId page limit w hquiet).1 hzero, hzero]
      have hfalse : ¬ normalizedPage page * normalizedLimit limit < 0 := by
        have := Int.mul_nonneg (show 0 ≤ normalizedPage page by omega)
          (show 0 ≤ normalizedLimit limit by omega)
        omega
      simp [returnedProducts, hfalse]
    · rw [(GetSellerProducts_quiet sellerId page limit w hquiet).2 hzero hskip]
      have hdec : decide (normalizedPage page <
          totalPages ((w.products.filter (fun p => p.SellerID == sellerId)).length : Int)
            (normalizedLimit limit)) =
          decide (normalizedPage page * normalizedLimit limit < sellerTotal w sellerId) := by
        rw [decide_eq_decide]
        exact hiff
      rw [hdec, if_neg hzero]
      simp [returnedProducts, sellerTotal]

/-- C29, amended, on three products of a seller, page 1 with limit 2: the two
newest products are returned, total 3 and `hasMore = true`, as `1 × 2 < 3`. -/
theorem GetSellerProducts_hasMore_witness :
    (returnedProducts (GetSellerProducts "s1" 1 2 sellerCatalog).1).map (fun p => p.ID) =
        ["p2", "p3"] ∧
      ((reportedTotal (GetSellerProducts "s1" 1 2 sellerCatalog).1 = sellerTotal sellerCatalog "s1" ∧
        (reportedHasMore (GetSellerProducts "s1" 1 2 sellerCatalog).1 = true ↔
          normalizedPage 1 * normalizedLimit 2 <
            reportedTotal (GetSellerProducts "s1" 1 2 sellerCatalog).1))) ∧
      reportedHasMore (GetSellerProducts "s1" 1 2 sellerCatalog).1 = true ∧
      reportedHasMore (GetSellerProducts "s1" 2 2 sellerCatalog).1 = false :=
  ⟨by decide,
    (GetSellerProducts_hasMore "s1" 1 2 sellerCatalog (by decide)).2.1
      (returnedProducts (GetSellerProducts "s1" 1 2 sellerCatalog).1)
      (reportedTotal (GetSellerProducts "s1" 1 2 sellerCatalog).1)
      (reportedHasMore (GetSellerProducts "s1" 1 2 sellerCatalog).1) (by decide),
    by decide, by decide⟩

end Ecommerce
